import Mathlib

set_option linter.unusedVariables false

/-!
Verification of the robust-predicate, edge-intersection and snapping core of
the s2geometry library.

The embedding models IEEE double values by exact rationals: every S2Point
coordinate is a double, hence a rational, and the "exact arithmetic"
stages of the predicate cascade (ExactFloat) compute with zero rounding
error, so those stages embed into `ℚ` exactly.  The floating-point triage
stages are modelled by evaluating the same formulas in exact rational
arithmetic; the runtime calls to `sqrt` are modelled by `Rat.sqrt` (a
deterministic rational approximation of the square root — the only
properties of the triage error bounds that the theorems below rely on are
their nonnegativity and symmetry, which hold for any such approximation).
The modelled platform is one where `long double` has the same precision
as `double` (e.g. ARM32/Win32, see the comments in s2edge_crossings.cc),
so `kHasLongDouble = false` and the extended-precision stages of every
cascade are skipped.

Source files modelled: s2predicates.cc, s2edge_crossings.cc, s2builder.cc.
Declarations that live in headers not present in the source tree
(s2predicates.h, s2pointutil.h, s2edge_crossings_internal.h, s2builder.h)
are modelled from the specification and marked `Modelled from the spec:`.
-/

/-- A 3-vector of exact rationals, modelling `Vector3<double>` (`S2Point`).
Each coordinate of an `S2Point` is an IEEE double, i.e. a rational. -/
structure Vec3 where
  x : ℚ
  y : ℚ
  z : ℚ
  deriving DecidableEq, Repr

namespace Vec3

def add (a b : Vec3) : Vec3 := ⟨a.x + b.x, a.y + b.y, a.z + b.z⟩

def sub (a b : Vec3) : Vec3 := ⟨a.x - b.x, a.y - b.y, a.z - b.z⟩

def neg (a : Vec3) : Vec3 := ⟨-a.x, -a.y, -a.z⟩

def smul (q : ℚ) (a : Vec3) : Vec3 := ⟨q * a.x, q * a.y, q * a.z⟩

instance : Add Vec3 := ⟨Vec3.add⟩

instance : Sub Vec3 := ⟨Vec3.sub⟩

instance : Neg Vec3 := ⟨Vec3.neg⟩

instance : SMul ℚ Vec3 := ⟨Vec3.smul⟩

instance : Zero Vec3 := ⟨⟨0, 0, 0⟩⟩

/-- Models `Vector3::DotProd`. -/
def DotProd (a b : Vec3) : ℚ := a.x * b.x + a.y * b.y + a.z * b.z

/-- Models `Vector3::CrossProd`. -/
def CrossProd (a b : Vec3) : Vec3 :=
  ⟨a.y * b.z - a.z * b.y, a.z * b.x - a.x * b.z, a.x * b.y - a.y * b.x⟩

/-- Models `Vector3::Norm2` (the squared Euclidean norm). -/
def Norm2 (a : Vec3) : ℚ := a.DotProd a

/-- Models the C++ lexicographic `operator<` on `Vector3<double>`. -/
def Lt (a b : Vec3) : Prop :=
  a.x < b.x ∨ (a.x = b.x ∧ (a.y < b.y ∨ (a.y = b.y ∧ a.z < b.z)))

instance (a b : Vec3) : Decidable (Vec3.Lt a b) := by
  unfold Vec3.Lt; infer_instance

end Vec3

/-- Models the runtime floating-point `sqrt` call by a deterministic
rational approximation.  The only facts about `fsqrt` used below are that
it is nonnegative on nonnegative inputs and depends only on its argument. -/
def fsqrt (q : ℚ) : ℚ := Rat.sqrt q

/-- Models `Vector3::Norm` (`sqrt(Norm2())`). -/
def Vec3.Norm (a : Vec3) : ℚ := fsqrt a.Norm2

/-- DBL_ERR = rounding_epsilon<double>() = DBL_EPSILON / 2 = 2^-53
(s2predicates_internal.h, modelled from the spec's description of the
double-precision rounding unit). -/
def DBL_ERR : ℚ := 1 / 2 ^ 53

/-- DBL_EPSILON = 2^-52. -/
def DBL_EPSILON : ℚ := 1 / 2 ^ 52

/-- DBL_MIN = 2^-1022, the smallest positive normalized double. -/
def DBL_MIN : ℚ := 1 / 2 ^ 1022

/-- kSqrt3: the double-precision value of sqrt(3)
(s2predicates_internal.h; the exact IEEE double closest to √3). -/
def kSqrt3 : ℚ := 7800463371553962 / 2 ^ 52

/-- M_SQRT1_2: the double-precision value of 1/√2. -/
def M_SQRT1_2 : ℚ := 6369051672525773 / 2 ^ 53

/-- The squared chord length of `k45Degrees = S1ChordAngle::FromLength2(2 - M_SQRT2)`
(s2predicates.cc line 41); `M_SQRT2` is the double closest to √2. -/
def k45Len2 : ℚ := 2 - 6369051672525773 / 2 ^ 52

/-- Sign of a rational, as the C++ `ExactFloat::sgn()` (-1, 0 or +1). -/
def sgnQ (q : ℚ) : ℤ := if 0 < q then 1 else if q < 0 then -1 else 0


/-! ### The robust predicate layer (s2predicates.cc) -/

namespace s2pred

/-- kMaxDetError = 1.8274 * DBL_EPSILON.  Modelled from the spec: this triage
constant is declared in s2predicates.h (not in the source tree).  The triage
stage returns the sign of its double-precision determinant only when the
magnitude exceeds this rigorously derived error bound. -/
def kMaxDetError : ℚ := 1.8274 * DBL_EPSILON

/-- Modelled from the spec: `TriageSign` (s2predicates.h) — the
double-precision triage stage of `Sign`.  It computes `(a × b) · c` and
returns its sign when the magnitude exceeds `kMaxDetError`, else 0. -/
def TriageSign (a b c a_cross_b : Vec3) : ℤ :=
  let det := a_cross_b.DotProd c
  if det > kMaxDetError then 1
  else if det < -kMaxDetError then -1
  else 0

/-- kDetErrorMultiplier = 3.2321 * DBL_EPSILON (s2predicates.cc line 81). -/
def kDetErrorMultiplier : ℚ := 3.2321 * DBL_EPSILON

/-- Errors smaller than this value may not be accurate due to underflow
(s2predicates.cc line 97): `kDetErrorMultiplier * sqrt(DBL_MIN)`. -/
def kMinNoUnderflowError : ℚ := kDetErrorMultiplier * fsqrt DBL_MIN

/-- Models `StableSign` (s2predicates.cc lines 63-101): computes the
determinant with the vertices cyclically permuted so that AB is the longest
edge, together with an error bound, and returns the sign only when it is
certain.  In the exact rational model all three branch determinants equal
the exact determinant; the branch only selects the error bound. -/
def StableSign (a b c : Vec3) : ℤ :=
  let ab := b - a
  let bc := c - b
  let ca := a - c
  let ab2 := ab.Norm2
  let bc2 := bc.Norm2
  let ca2 := ca.Norm2
  let dm : ℚ × ℚ :=
    if ab2 ≥ bc2 ∧ ab2 ≥ ca2 then
      (-((ca.CrossProd bc).DotProd c), kDetErrorMultiplier * fsqrt (ca2 * bc2))
    else if bc2 ≥ ca2 then
      (-((ab.CrossProd ca).DotProd a), kDetErrorMultiplier * fsqrt (ab2 * ca2))
    else
      (-((bc.CrossProd ab).DotProd b), kDetErrorMultiplier * fsqrt (bc2 * ab2))
  if dm.2 < kMinNoUnderflowError then 0
  else if |dm.1| ≤ dm.2 then 0
  else if dm.1 > 0 then 1
  else -1

/-- Models `SymbolicallyPerturbedSign` (s2predicates.cc lines 130-221):
enumerates the coefficients of the symbolic perturbations of the determinant
in decreasing order of perturbation magnitude; the first nonzero coefficient
gives the sign.  REQUIRES a < b < c lexicographically. -/
def SymbolicallyPerturbedSign (a b c b_cross_c : Vec3) : ℤ :=
  let s1 := sgnQ b_cross_c.z
  if s1 ≠ 0 then s1 else
  let s2 := sgnQ b_cross_c.y
  if s2 ≠ 0 then s2 else
  let s3 := sgnQ b_cross_c.x
  if s3 ≠ 0 then s3 else
  let s4 := sgnQ (c.x * a.y - c.y * a.x)
  if s4 ≠ 0 then s4 else
  let s5 := sgnQ c.x
  if s5 ≠ 0 then s5 else
  let s6 := -sgnQ c.y
  if s6 ≠ 0 then s6 else
  let s7 := sgnQ (c.z * a.x - c.x * a.z)
  if s7 ≠ 0 then s7 else
  let s8 := sgnQ c.z
  if s8 ≠ 0 then s8 else
  let s9 := sgnQ (a.x * b.y - a.y * b.x)
  if s9 ≠ 0 then s9 else
  let s10 := -sgnQ b.x
  if s10 ≠ 0 then s10 else
  let s11 := sgnQ b.y
  if s11 ≠ 0 then s11 else
  let s12 := sgnQ a.x
  if s12 ≠ 0 then s12 else 1

/-- The three conditional swaps of `ExactSign` (s2predicates.cc lines
231-237) that sort the points lexicographically while tracking the sign of
the permutation. -/
def sortTriple (a b c : Vec3) : (Vec3 × Vec3 × Vec3) × ℤ :=
  let s1 := if Vec3.Lt b a then ((b, a, c), (-1 : ℤ)) else ((a, b, c), 1)
  let s2 :=
    if Vec3.Lt s1.1.2.2 s1.1.2.1 then ((s1.1.1, s1.1.2.2, s1.1.2.1), -s1.2) else s1
  if Vec3.Lt s2.1.2.1 s2.1.1 then ((s2.1.2.1, s2.1.1, s2.1.2.2), -s2.2) else s2

/-- Models `ExactSign` (s2predicates.cc lines 225-261): sorts the three
points, computes the exact determinant of the sorted points, and resolves
an exactly-zero determinant with `SymbolicallyPerturbedSign` when `perturb`
is set.  `ToExact` is exact on rational inputs. -/
def ExactSign (a b c : Vec3) (perturb : Bool) : ℤ :=
  let s := sortTriple a b c
  let pa := s.1.1
  let pb := s.1.2.1
  let pc := s.1.2.2
  let xb_cross_xc := pb.CrossProd pc
  let det := pa.DotProd xb_cross_xc
  let det_sign := sgnQ det
  let det_sign2 :=
    if det_sign = 0 ∧ perturb then SymbolicallyPerturbedSign pa pb pc xb_cross_xc
    else det_sign
  s.2 * det_sign2

/-- Models `ExpensiveSign` (s2predicates.cc lines 274-296): zero iff two
points are equal, then `StableSign`, then exact arithmetic with symbolic
perturbations. -/
def ExpensiveSign (a b c : Vec3) (perturb : Bool) : ℤ :=
  if a = b ∨ b = c ∨ c = a then 0
  else
    let det_sign := StableSign a b c
    if det_sign ≠ 0 then det_sign else ExactSign a b c perturb

/-- Modelled from the spec: the 4-argument `Sign` wrapper declared inline in
s2predicates.h — the triage stage first, falling back to `ExpensiveSign`
(with symbolic perturbation) when the triage result is uncertain. -/
def SignCrossArg (a b c a_cross_b : Vec3) : ℤ :=
  let s := TriageSign a b c a_cross_b
  if s ≠ 0 then s else ExpensiveSign a b c true

/-- Models `Sign(a, b, c)` (s2predicates.cc lines 43-48). -/
def Sign (a b c : Vec3) : ℤ := SignCrossArg a b c (a.CrossProd b)

/-- Models `OrderedCCW` (s2predicates.cc lines 298-311). -/
def OrderedCCW (a b c o : Vec3) : Bool :=
  let sum1 : ℕ := if Sign b o a ≥ 0 then 1 else 0
  let sum2 : ℕ := if Sign c o b ≥ 0 then 1 else 0
  let sum3 : ℕ := if Sign a o c > 0 then 1 else 0
  decide (sum1 + sum2 + sum3 ≥ 2)

/-! Distance comparison predicates (s2predicates.cc lines 313-560). -/

/-- Models `GetCosDistance` (double version, s2predicates.cc lines 315-320):
returns `cos(XY)` together with its error bound. -/
def GetCosDistance (x y : Vec3) : ℚ × ℚ :=
  let c := x.DotProd y
  (c, 9.5 * DBL_ERR * |c| + 1.5 * DBL_ERR)

/-- Models `GetSin2Distance` (double version, s2predicates.cc lines 338-350):
returns `sin²(XY)` (computed via the numerically stable
`(x - y) × (x + y)` form) together with its error bound. -/
def GetSin2Distance (x y : Vec3) : ℚ × ℚ :=
  let n := (x - y).CrossProd (x + y)
  let d2 := 1 / 4 * n.Norm2
  (d2, (21 + 4 * kSqrt3) * DBL_ERR * d2 +
    32 * kSqrt3 * DBL_ERR * DBL_ERR * fsqrt d2 +
    768 * DBL_ERR * DBL_ERR * DBL_ERR * DBL_ERR)

/-- Models `TriageCompareCosDistances` (s2predicates.cc lines 370-379);
-1 means AX < BX. -/
def TriageCompareCosDistances (x a b : Vec3) : ℤ :=
  let ca := GetCosDistance a x
  let cb := GetCosDistance b x
  let diff := ca.1 - cb.1
  let error := ca.2 + cb.2
  if diff > error then -1 else if diff < -error then 1 else 0

/-- Models `TriageCompareSin2Distances` (s2predicates.cc lines 381-390). -/
def TriageCompareSin2Distances (x a b : Vec3) : ℤ :=
  let sa := GetSin2Distance a x
  let sb := GetSin2Distance b x
  let diff := sa.1 - sb.1
  let error := sa.2 + sb.2
  if diff > error then 1 else if diff < -error then -1 else 0

/-- Models `ExactCompareDistances` (s2predicates.cc lines 392-408); exact on
rational inputs. -/
def ExactCompareDistances (x a b : Vec3) : ℤ :=
  let cos_ax := x.DotProd a
  let cos_bx := x.DotProd b
  let a_sign := sgnQ cos_ax
  let b_sign := sgnQ cos_bx
  if a_sign ≠ b_sign then (if a_sign > b_sign then -1 else 1)
  else
    let cmp := cos_bx * cos_bx * a.Norm2 - cos_ax * cos_ax * b.Norm2
    a_sign * sgnQ cmp

/-- Models `SymbolicCompareDistances` (s2predicates.cc lines 413-433): the
pedestal perturbation — if A < B then A is on the higher pedestal and
AX > BX. -/
def SymbolicCompareDistances (a b : Vec3) : ℤ :=
  if Vec3.Lt a b then 1 else if Vec3.Lt b a then -1 else 0

/-- Models `CompareSin2Distances` (s2predicates.cc lines 435-442); the
long-double retry is skipped (`kHasLongDouble = false` on the modelled
platform). -/
def CompareSin2Distances (x a b : Vec3) : ℤ := TriageCompareSin2Distances x a b

/-- Models `CompareDistances` (s2predicates.cc lines 444-476).  The
long-double cosine stage of the middle branch is skipped
(`kHasLongDouble = false` on the modelled platform). -/
def CompareDistances (x a b : Vec3) : ℤ :=
  let sign1 := TriageCompareCosDistances x a b
  if sign1 ≠ 0 then sign1
  else if a = b then 0
  else
    let cos_ax := a.DotProd x
    let sign2 :=
      if cos_ax > M_SQRT1_2 then CompareSin2Distances x a b
      else if cos_ax < -M_SQRT1_2 then -CompareSin2Distances x a b
      else 0
    if sign2 ≠ 0 then sign2
    else
      let sign3 := ExactCompareDistances x a b
      if sign3 ≠ 0 then sign3 else SymbolicCompareDistances a b

/-- Models `TriageCompareCosDistance` (s2predicates.cc lines 478-488). -/
def TriageCompareCosDistance (x y : Vec3) (r2 : ℚ) : ℤ :=
  let c := GetCosDistance x y
  let cos_r := 1 - 1 / 2 * r2
  let cos_r_error := 2 * DBL_ERR * cos_r
  let diff := c.1 - cos_r
  let error := c.2 + cos_r_error
  if diff > error then -1 else if diff < -error then 1 else 0

/-- Models `TriageCompareSin2Distance` (s2predicates.cc lines 490-502).
REQUIRES r2 < 2 (distance limit < 90 degrees). -/
def TriageCompareSin2Distance (x y : Vec3) (r2 : ℚ) : ℤ :=
  let s := GetSin2Distance x y
  let sin2_r := r2 * (1 - 1 / 4 * r2)
  let sin2_r_error := 3 * DBL_ERR * sin2_r
  let diff := s.1 - sin2_r
  let error := s.2 + sin2_r_error
  if diff > error then 1 else if diff < -error then -1 else 0

/-- Models `ExactCompareDistance` (s2predicates.cc lines 504-520); exact on
rational inputs. -/
def ExactCompareDistance (x y : Vec3) (r2 : ℚ) : ℤ :=
  let cos_xy := x.DotProd y
  let cos_r := 1 - 1 / 2 * r2
  let xy_sign := sgnQ cos_xy
  let r_sign := sgnQ cos_r
  if xy_sign ≠ r_sign then (if xy_sign > r_sign then -1 else 1)
  else
    let cmp := cos_r * cos_r * x.Norm2 * y.Norm2 - cos_xy * cos_xy
    xy_sign * sgnQ cmp

/-- Models `CompareDistance` (s2predicates.cc lines 522-546), with the
squared chord length `r2 = r.length2()` representing the `S1ChordAngle`
limit.  Long-double stages are skipped (`kHasLongDouble = false`). -/
def CompareDistance (x y : Vec3) (r2 : ℚ) : ℤ :=
  let sign1 := TriageCompareCosDistance x y r2
  if sign1 ≠ 0 then sign1
  else if r2 = 0 ∧ x = y then 0
  else
    let sign2 := if r2 < k45Len2 then TriageCompareSin2Distance x y r2 else 0
    if sign2 ≠ 0 then sign2 else ExactCompareDistance x y r2

/-- The two triage formulas of the distance comparison predicates. -/
inductive Formula where
  | cos
  | sin2
  deriving DecidableEq, Repr

/-- The sequence of triage formulas invoked by `CompareDistance`, in call
order (mirrors `CompareDistance` exactly). -/
def CompareDistanceFormulas (x y : Vec3) (r2 : ℚ) : List Formula :=
  let sign1 := TriageCompareCosDistance x y r2
  if sign1 ≠ 0 then [Formula.cos]
  else if r2 = 0 ∧ x = y then [Formula.cos]
  else if r2 < k45Len2 then [Formula.cos, Formula.sin2]
  else [Formula.cos]

/-- The sequence of triage formulas invoked by `CompareDistances`, in call
order (mirrors `CompareDistances` exactly). -/
def CompareDistancesFormulas (x a b : Vec3) : List Formula :=
  let sign1 := TriageCompareCosDistances x a b
  if sign1 ≠ 0 then [Formula.cos]
  else if a = b then [Formula.cos]
  else
    let cos_ax := a.DotProd x
    if cos_ax > M_SQRT1_2 then [Formula.cos, Formula.sin2]
    else if cos_ax < -M_SQRT1_2 then [Formula.cos, Formula.sin2]
    else [Formula.cos]

/-! The Voronoi site exclusion predicate (s2predicates.cc lines 1346-1694). -/

/-- Result type of the Voronoi site exclusion test (`Excluded`). -/
inductive Excluded where
  | FIRST
  | SECOND
  | NEITHER
  | UNCERTAIN
  deriving DecidableEq, Repr

/-- Models `GetClosestVertex` (s2predicates.cc lines 562-576): returns the
endpoint of (a0, a1) closer to `x` together with its squared distance. -/
def GetClosestVertex (x a0 a1 : Vec3) : Vec3 × ℚ :=
  let a0x2 := (a0 - x).Norm2
  let a1x2 := (a1 - x).Norm2
  if a0x2 < a1x2 ∨ (a0x2 = a1x2 ∧ Vec3.Lt a0 a1) then (a0, a0x2) else (a1, a1x2)

/-- Models `TriageVoronoiSiteExclusion<double>` (s2predicates.cc lines
1346-1548), with `T_ERR = DBL_ERR`. -/
def TriageVoronoiSiteExclusion (a b x0 x1 : Vec3) (r2 : ℚ) : Excluded :=
  let T_ERR := DBL_ERR
  let n := (x0 - x1).CrossProd (x0 + x1)
  let n2 := n.Norm2
  let n1 := fsqrt n2
  let Dn_error := ((3.5 + 2 * kSqrt3) * n1 + 32 * kSqrt3 * DBL_ERR) * T_ERR
  let cos_r := 1 - 1 / 2 * r2
  let sin2_r := r2 * (1 - 1 / 4 * r2)
  let n2sin2_r := n2 * sin2_r
  let ax2 := (GetClosestVertex a x0 x1).2
  let aDn := (a - (GetClosestVertex a x0 x1).1).DotProd n
  let aDn2 := aDn * aDn
  let aDn_error := Dn_error * fsqrt ax2
  let ra2 := n2sin2_r - aDn2
  let ra2_error := (8 * DBL_ERR + 4 * T_ERR) * aDn2 +
    (2 * |aDn| + aDn_error) * aDn_error + 6 * T_ERR * n2sin2_r
  let min_ra2 := ra2 - ra2_error
  if min_ra2 < 0 then Excluded.UNCERTAIN else
  let ra := fsqrt ra2
  let ra_error := 1.5 * T_ERR * ra + 0.5 * ra2_error / fsqrt min_ra2
  let bx2 := (GetClosestVertex b x0 x1).2
  let bDn := (b - (GetClosestVertex b x0 x1).1).DotProd n
  let bDn2 := bDn * bDn
  let bDn_error := Dn_error * fsqrt bx2
  let rb2 := n2sin2_r - bDn2
  let rb2_error := (8 * DBL_ERR + 4 * T_ERR) * bDn2 +
    (2 * |bDn| + bDn_error) * bDn_error + 6 * T_ERR * n2sin2_r
  let min_rb2 := rb2 - rb2_error
  if min_rb2 < 0 then Excluded.UNCERTAIN else
  let rb := fsqrt rb2
  let rb_error := 1.5 * T_ERR * rb + 0.5 * rb2_error / fsqrt min_rb2
  let lhs3 := cos_r * (rb - ra)
  let abs_lhs3 := |lhs3|
  let lhs3_error := cos_r * (ra_error + rb_error) + 3 * T_ERR * abs_lhs3
  let aXb := (a - b).CrossProd (a + b)
  let aXb1 := aXb.Norm
  let sin_d := 1 / 2 * aXb.DotProd n
  let sin_d_error := (4 * DBL_ERR + (2.5 + 2 * kSqrt3) * T_ERR) * aXb1 * n1 +
    16 * kSqrt3 * DBL_ERR * T_ERR * (aXb1 + n1)
  let result := abs_lhs3 - sin_d
  let result_error := lhs3_error + sin_d_error
  if result < -result_error then Excluded.NEITHER else
  if sin_d < -sin_d_error then
    let r90 : ℚ := 2
    let ca := TriageCompareCosDistance a x0 r90
    let cb := TriageCompareCosDistance b x1 r90
    if ca < 0 ∧ cb < 0 then Excluded.NEITHER
    else if ca ≤ 0 ∧ cb ≤ 0 then Excluded.UNCERTAIN
    else if ca > 0 then Excluded.FIRST else Excluded.SECOND
  else
  if sin_d ≤ sin_d_error then Excluded.UNCERTAIN else
  let cos_d := a.DotProd b * n2 - aDn * bDn
  let cos_d_error :=
    ((8 * DBL_ERR + 5 * T_ERR) * |aDn| + aDn_error) * |bDn| +
    (|aDn| + aDn_error) * bDn_error + (8 * DBL_ERR + 8 * T_ERR) * n2
  if cos_d ≤ -cos_d_error then Excluded.NEITHER else
  if cos_d < cos_d_error then Excluded.UNCERTAIN else
  if result ≤ result_error then Excluded.UNCERTAIN else
  if lhs3 > 0 then Excluded.FIRST else Excluded.SECOND

/-- Models `ExactVoronoiSiteExclusion` (s2predicates.cc lines 1550-1661);
exact on rational inputs. -/
def ExactVoronoiSiteExclusion (a b x0 x1 : Vec3) (r2 : ℚ) : Excluded :=
  let n := x0.CrossProd x1
  let rhs2 := (a.CrossProd b).DotProd n
  let rhs2_sgn := sgnQ rhs2
  if rhs2_sgn < 0 then
    let r90 : ℚ := 2
    let ca := ExactCompareDistance a x0 r90
    let cb := ExactCompareDistance b x1 r90
    if ca < 0 ∧ cb < 0 then Excluded.NEITHER
    else if ca > 0 then Excluded.FIRST else Excluded.SECOND
  else
  let n2 := n.Norm2
  let aDn := a.DotProd n
  let bDn := b.DotProd n
  let cos_d := a.DotProd b * n2 - aDn * bDn
  if sgnQ cos_d < 0 then Excluded.NEITHER else
  let a2 := a.Norm2
  let b2 := b.Norm2
  let n2sin2_r := r2 * (1 - 1 / 4 * r2) * n2
  let sa2 := b2 * (n2sin2_r * a2 - aDn * aDn)
  let sb2 := a2 * (n2sin2_r * b2 - bDn * bDn)
  let lhs2_sgn := sgnQ (sb2 - sa2)
  if lhs2_sgn = 0 then Excluded.NEITHER else
  let cos_r := 1 - 1 / 2 * r2
  let cos2_r := cos_r * cos_r
  let lhs3 := cos2_r * (sa2 + sb2) - rhs2 * rhs2
  if sgnQ lhs3 < 0 then Excluded.NEITHER else
  let lhs4 := lhs3 * lhs3
  let rhs4 := 4 * cos2_r * cos2_r * sa2 * sb2
  let result := sgnQ (lhs4 - rhs4)
  if result < 0 then Excluded.NEITHER else
  if result = 0 ∧ ((lhs2_sgn > 0) = Vec3.Lt b a) then Excluded.NEITHER else
  if lhs2_sgn > 0 then Excluded.FIRST else Excluded.SECOND

/-- Models `GetVoronoiSiteExclusion` (s2predicates.cc lines 1663-1694).  The
long-double triage retry is skipped (`kHasLongDouble = false`). -/
def GetVoronoiSiteExclusion (a b x0 x1 : Vec3) (r2 : ℚ) : Excluded :=
  if CompareDistances x1 a b < 0 then Excluded.SECOND
  else
    let result := TriageVoronoiSiteExclusion a b x0 x1 r2
    if result ≠ Excluded.UNCERTAIN then result
    else ExactVoronoiSiteExclusion a b x0 x1 r2

end s2pred

/-! ### Robust cross product (s2edge_crossings.cc) and C10 -/

namespace S2

/-- kRobustCrossProdError = 6 * DBL_ERR (s2edge_crossings.cc, static_assert line 66). -/
def kRobustCrossProdErrorRadians : ℚ := 6 * DBL_ERR

/-- kMinNorm from `GetStableCrossProd<double>` (T_ERR = DBL_ERR):
`(32 * kSqrt3 * DBL_ERR) / (kRobustCrossProdError / T_ERR - (1 + 2 * kSqrt3))`. -/
def kMinNorm : ℚ :=
  (32 * kSqrt3 * DBL_ERR) / (kRobustCrossProdErrorRadians / DBL_ERR - (1 + 2 * kSqrt3))

/-- Models `S2::internal::GetStableCrossProd<double>`: computes
`(a - b) × (a + b)` and reports whether its norm clears `kMinNorm`.
Returns (success, result). -/
def GetStableCrossProd (a b : Vec3) : Bool × Vec3 :=
  let result := (a - b).CrossProd (a + b)
  (decide (kMinNorm * kMinNorm ≤ result.Norm2), result)

/-- Models `Vector3::LargestAbsComponent`.  Modelled from the spec: the
definition lives in util/math/vector.h, which is not in the source tree;
it returns the index (0, 1 or 2) of the component of largest absolute
value, preferring later indices on ties. -/
def LargestAbsComponent (a : Vec3) : ℕ :=
  if |a.x| > |a.y| then (if |a.x| > |a.z| then 0 else 2)
  else (if |a.y| > |a.z| then 1 else 2)

/-- The reference vector used by `S2::Ortho`: `(0.012, 0.0053, 0.00457)`
with component `k` replaced by 1. -/
def orthoRefVec : ℕ → Vec3
  | 0 => ⟨1, 0.0053, 0.00457⟩
  | 1 => ⟨0.012, 1, 0.00457⟩
  | _ => ⟨0.012, 0.0053, 1⟩

/-- The index used by `S2::Ortho`: `k = LargestAbsComponent(a) - 1`, with
`k = 2` when that is negative. -/
def orthoIndex (a : Vec3) : ℕ :=
  if LargestAbsComponent a = 0 then 2 else LargestAbsComponent a - 1

/-- Models normalization to unit length.  `Normalize()` divides by the
floating-point norm; in the rational model this is scaling by the positive
factor `1 / fsqrt (Norm2 v)`. -/
def normalize (v : Vec3) : Vec3 := (1 / fsqrt v.Norm2) • v

/-- Modelled from the spec: `S2::Ortho(a)` (declared in s2pointutil.h, which
is not in the source tree) — a fixed unit-length vector orthogonal to `a`,
obtained by crossing `a` with a reference vector whose largest component
index differs from the largest component index of `a`, then normalizing. -/
def Ortho (a : Vec3) : Vec3 := normalize (a.CrossProd (orthoRefVec (orthoIndex a)))

/-- The stage of the `RobustCrossProd` cascade that produced the result.
The long-double stage is absent because the modelled platform has
`kHasLongDouble = false`. -/
inductive RcpStage where
  | stable
  | equalArgs
  | exact
  deriving DecidableEq, Repr

/-- Models `SymbolicCrossProdSorted` (s2edge_crossings.cc lines 181-267).
REQUIRES a < b lexicographically; enumerates the symbolic-perturbation
coefficients of `(a + da) × (b + db)` in decreasing order of magnitude. -/
def SymbolicCrossProdSorted (a b : Vec3) : Vec3 :=
  if b.x ≠ 0 ∨ b.y ≠ 0 then ⟨-b.y, b.x, 0⟩
  else if b.z ≠ 0 then ⟨b.z, 0, 0⟩
  else if a.x ≠ 0 ∨ a.y ≠ 0 then ⟨a.y, -a.x, 0⟩
  else ⟨1, 0, 0⟩

/-- Models `EnsureNormalizable`.  The C++ function only rescales by a power
of two to protect `Normalize()` from floating-point underflow; in the exact
rational model no underflow exists and the guard is the identity. -/
def EnsureNormalizable (p : Vec3) : Vec3 := p

/-- Models `NormalizableFromExact`.  Like `EnsureNormalizable`, the scaling
it performs only guards against floating-point underflow when converting an
ExactFloat vector to doubles; in the exact rational model it is the
identity. -/
def NormalizableFromExact (xf : Vec3) : Vec3 := xf

/-- Models `S2::internal::SymbolicCrossProd` (s2edge_crossings.cc lines 338-346). -/
def SymbolicCrossProd (a b : Vec3) : Vec3 :=
  if Vec3.Lt a b then EnsureNormalizable (SymbolicCrossProdSorted a b)
  else -(EnsureNormalizable (SymbolicCrossProdSorted b a))

/-- Models `S2::internal::ExactCrossProd` (s2edge_crossings.cc lines 347-359).
`ToExact` is exact on rational inputs, so the exact cross product is just
`CrossProd`. -/
def ExactCrossProd (a b : Vec3) : Vec3 :=
  let result_xf := a.CrossProd b
  if result_xf ≠ 0 then NormalizableFromExact result_xf
  else if Vec3.Lt a b then EnsureNormalizable (SymbolicCrossProd a b)
  else -(EnsureNormalizable (SymbolicCrossProd b a))

/-- Models `S2::RobustCrossProd` (s2edge_crossings.cc lines 145-175),
additionally reporting which stage of the cascade produced the result.
The long-double retry is skipped (`kHasLongDouble = false` on the modelled
platform). -/
def RobustCrossProdImpl (a b : Vec3) : Vec3 × RcpStage :=
  let stable := GetStableCrossProd a b
  if stable.1 then (stable.2, RcpStage.stable)
  else if a = b then (Ortho a, RcpStage.equalArgs)
  else (ExactCrossProd a b, RcpStage.exact)

/-- Models `S2::RobustCrossProd`. -/
def RobustCrossProd (a b : Vec3) : Vec3 := (RobustCrossProdImpl a b).1

end S2



/-! ### Edge intersection (s2edge_crossings.cc lines 420-794) -/

namespace S2

/-- kIntersectionError = 8 * DBL_ERR (static_assert, s2edge_crossings.cc
line 72). -/
def kIntersectionErrorRadians : ℚ := 8 * DBL_ERR

/-- Modelled from the spec: `internal::CompareEdges` (declared in
s2edge_crossings_internal.h, which is not in the source tree) — the
deterministic total order on unordered edges used by
`GetIntersectionStable` to break length ties so that the edge selection is
"independent of input ordering": it compares the lexicographically sorted
endpoint pairs. -/
def CompareEdges (a0 a1 b0 b1 : Vec3) : Bool :=
  let pa := if Vec3.Lt a1 a0 then (a1, a0) else (a0, a1)
  let pb := if Vec3.Lt b1 b0 then (b1, b0) else (b0, b1)
  decide (Vec3.Lt pa.1 pb.1 ∨ (pa.1 = pb.1 ∧ Vec3.Lt pa.2 pb.2))

/-- Models `GetProjection<double>` (s2edge_crossings.cc lines 514-552):
the signed distance of `x` to the plane with normal `a_norm`, measured from
the closer edge endpoint (chosen deterministically on ties), together with
its error bound.  Returns (result, error). -/
def GetProjection (x a_norm : Vec3) (a_norm_len : ℚ) (a0 a1 : Vec3) : ℚ × ℚ :=
  let x0 := x - a0
  let x1 := x - a1
  let x0_dist2 := x0.Norm2
  let x1_dist2 := x1.Norm2
  let dr : ℚ × ℚ :=
    if x0_dist2 < x1_dist2 ∨ (x0_dist2 = x1_dist2 ∧ Vec3.Lt x0 x1) then
      (fsqrt x0_dist2, x0.DotProd a_norm)
    else
      (fsqrt x1_dist2, x1.DotProd a_norm)
  let T_ERR := DBL_ERR
  (dr.2,
    (((3.5 + 2 * kSqrt3) * a_norm_len + 32 * kSqrt3 * DBL_ERR) * dr.1 +
      1.5 * |dr.2|) * T_ERR)

/-- Models `GetIntersectionStableSorted<double>` (s2edge_crossings.cc lines
556-619).  REQUIRES that edge (a0,a1) is at least as long as (b0,b1).
Returns `none` when the error bound cannot be met. -/
def GetIntersectionStableSorted (a0 a1 b0 b1 : Vec3) : Option Vec3 :=
  let a_norm := (a0 - a1).CrossProd (a0 + a1)
  let a_norm_len := a_norm.Norm
  let b_len := (b1 - b0).Norm
  let pb0 := GetProjection b0 a_norm a_norm_len a0 a1
  let pb1 := GetProjection b1 a_norm a_norm_len a0 a1
  let dd : ℚ × ℚ := if pb0.1 < pb1.1 then (-pb0.1, -pb1.1) else (pb0.1, pb1.1)
  let b0_dist := dd.1
  let b1_dist := dd.2
  let dist_sum := b0_dist - b1_dist
  let error_sum := pb0.2 + pb1.2
  if dist_sum ≤ error_sum then none else
  let x := b0_dist • b1 - b1_dist • b0
  let T_ERR := DBL_ERR
  let error := b_len * |b0_dist * pb1.2 - b1_dist * pb0.2| / (dist_sum - error_sum) +
    2 * T_ERR * dist_sum
  let x_len2 := x.Norm2
  if x_len2 < DBL_MIN then none else
  let x_len := fsqrt x_len2
  let kMaxError := kIntersectionErrorRadians
  if error > (kMaxError - T_ERR) * x_len then none else
  some ((1 / x_len) • x)

/-- Models `GetIntersectionStable<double>` (s2edge_crossings.cc lines
624-643): sorts the two edges so the longer one is used for the projection,
breaking ties with `CompareEdges`. -/
def GetIntersectionStable (a0 a1 b0 b1 : Vec3) : Option Vec3 :=
  let a_len2 := (a1 - a0).Norm2
  let b_len2 := (b1 - b0).Norm2
  if a_len2 < b_len2 ∨ (a_len2 = b_len2 ∧ CompareEdges a0 a1 b0 b1) then
    GetIntersectionStableSorted b0 b1 a0 a1
  else
    GetIntersectionStableSorted a0 a1 b0 b1

/-- Models `ToS2Point` (s2edge_crossings.cc lines 645-647):
`NormalizableFromExact(xf).Normalize()`. -/
def ToS2Point (xf : Vec3) : Vec3 := normalize (NormalizableFromExact xf)

/-- Models `internal::GetIntersectionExact` (s2edge_crossings.cc lines
666-706); the arithmetic is exact on rational inputs.  When the edges are
exactly collinear the lexicographically smallest endpoint interior to the
other edge is chosen. -/
def GetIntersectionExact (a0 a1 b0 b1 : Vec3) : Vec3 :=
  let a_norm_xf := a0.CrossProd a1
  let b_norm_xf := b0.CrossProd b1
  let x_xf := a_norm_xf.CrossProd b_norm_xf
  if x_xf ≠ 0 then ((s2pred.Sign a0 a1 b1 : ℚ)) • ToS2Point x_xf
  else
    let a_norm0 := ToS2Point a_norm_xf
    let b_norm0 := ToS2Point b_norm_xf
    let a_norm := if a_norm0 = 0 then SymbolicCrossProd a0 a1 else a_norm0
    let b_norm := if b_norm0 = 0 then SymbolicCrossProd b0 b1 else b_norm0
    let x0 : Vec3 := ⟨10, 10, 10⟩
    let x1 := if s2pred.OrderedCCW b0 a0 b1 b_norm ∧ Vec3.Lt a0 x0 then a0 else x0
    let x2 := if s2pred.OrderedCCW b0 a1 b1 b_norm ∧ Vec3.Lt a1 x1 then a1 else x1
    let x3 := if s2pred.OrderedCCW a0 b0 a1 a_norm ∧ Vec3.Lt b0 x2 then b0 else x2
    if s2pred.OrderedCCW a0 b1 a1 a_norm ∧ Vec3.Lt b1 x3 then b1 else x3

/-- Models `S2::GetIntersection` (s2edge_crossings.cc lines 722-794).  In
the source the "simple" method and all long-double stages are disabled
(`kUseSimpleMethod = false`; `kUseLongDoubleInIntersection` is `&& false`),
leaving the double-precision stable method with the exact fallback. -/
def GetIntersection (a0 a1 b0 b1 : Vec3) : Vec3 :=
  match GetIntersectionStable a0 a1 b0 b1 with
  | some r => r
  | none => GetIntersectionExact a0 a1 b0 b1

/-- Modelled from the spec: the claim's precondition — the two edges cross,
i.e. `CrossingSign(a0,a1,b0,b1) > 0` (`S2::CrossingSign` and `S2EdgeCrosser`
live in s2edge_crosser.h / s2edge_crosser.cc, which are not in the source
tree).  A positive crossing sign means that the four triangles `(a0,b0,a1)`,
`(b0,a1,b1)`, `(a1,b1,a0)` and `(b1,a0,b0)` spanned by the four endpoints
all have the same nonzero orientation under the robust `Sign` predicate;
symbolic perturbation inside `Sign` extends this to exactly degenerate
(collinear) configurations. -/
def CrossingSignPos (a0 a1 b0 b1 : Vec3) : Prop :=
  s2pred.Sign a0 b0 a1 ≠ 0 ∧
  s2pred.Sign a0 b0 a1 = s2pred.Sign b0 a1 b1 ∧
  s2pred.Sign b0 a1 b1 = s2pred.Sign a1 b1 a0 ∧
  s2pred.Sign a1 b1 a0 = s2pred.Sign b1 a0 b0

end S2

/-! ### The Builder (s2builder.cc) -/

namespace S2Builder

/-- An input vertex sort key.  The source key is
`(S2CellId(vertex), InputVertexId)` and the sort comparator additionally
compares the vertex values (s2builder.cc lines 681-688); the model carries
the triple (cell id, vertex value, vertex id) directly.  The cell id
function (a deterministic spatial key; s2cellid.h is not in the source
tree) is a parameter of the model. -/
abbrev InputVertexKey := ℤ × Vec3 × ℕ

/-- The comparator of `SortInputVertices` (s2builder.cc lines 681-688):
lexicographic on (cell id, vertex value, vertex id); the id component makes
it total and antisymmetric, which is the source's "tie-break to ensure
deterministic result". -/
def vkeyLe (k1 k2 : InputVertexKey) : Prop :=
  k1.1 < k2.1 ∨ (k1.1 = k2.1 ∧
    (Vec3.Lt k1.2.1 k2.2.1 ∨ (k1.2.1 = k2.2.1 ∧ k1.2.2 ≤ k2.2.2)))

instance : DecidableRel vkeyLe := by
  unfold vkeyLe; infer_instance

/-- Models `S2Builder::SortInputVertices` (s2builder.cc lines 620-690):
keys are built in input order and sorted with the strict-weak comparator;
since the comparator is a total order with distinct ids, the sorted list is
the unique `vkeyLe`-sorted permutation of the keys. -/
def SortInputVertices (cellId : Vec3 → ℤ) (vs : List Vec3) : List InputVertexKey :=
  (vs.enum.map (fun p => (cellId p.2, p.2, p.1))).insertionSort vkeyLe

/-- The site-accumulation loop of `ChooseAllVerticesAsSites` (s2builder.cc
lines 605-612): walks the sorted keys, appends the first vertex of each run
of equal points to the site list, and records in the vertex map the site id
assigned to every input vertex of the run. -/
def siteLoop : List InputVertexKey → List Vec3 → List (ℕ × ℕ) → List Vec3 × List (ℕ × ℕ)
  | [], sites, vmap => (sites, vmap)
  | k :: rest, sites, vmap =>
    let site := k.2.1
    let run := rest.takeWhile (fun k2 => k2.2.1 = site)
    let rest2 := rest.dropWhile (fun k2 => k2.2.1 = site)
    siteLoop rest2 (sites ++ [site])
      (vmap ++ (k.2.2, sites.length) :: run.map (fun k2 => (k2.2.2, sites.length)))
termination_by l _ _ => l.length
decreasing_by
  simp only [List.length_cons]
  exact Nat.lt_succ_of_le (List.dropWhile_sublist _).length_le

/-- Looks up an input vertex id in the vertex map built by `siteLoop`
(the map is total on the input ids by construction). -/
def lookupVmap (vm : List (ℕ × ℕ)) (i : ℕ) : ℕ :=
  match vm.find? (fun p => p.1 = i) with
  | some p => p.2
  | none => 0

/-- The per-build state touched by the no-snapping fast path. -/
structure FastState where
  input_vertices : List Vec3
  input_edges : List (ℕ × ℕ)
  sites : List Vec3
  deriving DecidableEq, Repr

/-- Models `S2Builder::ChooseAllVerticesAsSites` (s2builder.cc lines
592-618): sorts the input vertices, discards duplicates, uses the result as
the site list, copies it back to the input vertices, and renumbers the
edges so that input vertex ids equal site ids. -/
def ChooseAllVerticesAsSites (cellId : Vec3 → ℤ) (st : FastState) : FastState :=
  let sorted := SortInputVertices cellId st.input_vertices
  let sv := siteLoop sorted [] []
  { input_vertices := sv.1
    input_edges := st.input_edges.map (fun e => (lookupVmap sv.2 e.1, lookupVmap sv.2 e.2))
    sites := sv.1 }

/-- Models the `!snapping_needed_` fast path of `S2Builder::SnapEdge`
(s2builder.cc lines 1167-1176): the edge snaps to the chain of its two
(renumbered) endpoints. -/
def SnapEdgeNoSnap (st : FastState) (e : ℕ) : List ℕ :=
  [(st.input_edges.getD e (0, 0)).1, (st.input_edges.getD e (0, 0)).2]

/-- Error kinds surfaced by the Builder (the subset the model uses). -/
inductive ErrorKind where
  | OK
  | BUILDER_SNAP_RADIUS_TOO_SMALL
  deriving DecidableEq, Repr

/-- The options consulted by the modelled part of `Build`.  The snap
function's radius and minimum separation are carried as squared chord
lengths (the `_ca_` values precomputed by `S2Builder::Init`). -/
structure Options where
  snapping_requested : Bool
  idempotent : Bool
  split_crossing_edges : Bool
  site_snap_radius_ca : ℚ
  min_site_separation_ca : ℚ

/-- The mutable per-build state of the modelled `Build` pipeline.
`delivered` counts the layers whose `Build` method has been invoked;
`unmodelled` is set when execution would enter source code outside this
model (the spatial-index queries of `CollectSiteEdges`/`AddExtraSites` and
graph assembly for a nonempty edge set), so that theorems can be scoped to
fully modelled runs. -/
structure BuildState where
  sites : List Vec3
  num_forced_sites : ℕ
  snapping_needed : Bool
  error : ErrorKind
  delivered : ℕ
  unmodelled : Bool
  deriving DecidableEq, Repr

/-- Models `S2Builder::SnapSite` (s2builder.cc lines 796-811).  The squared
chord length `S1ChordAngle(site, point).length2()` is `Norm2 (site - point)`;
when the snap function moved the point farther than the snap radius the
shared error object is set to `BUILDER_SNAP_RADIUS_TOO_SMALL` (and the moved
site is still returned). -/
def SnapSite (opts : Options) (snapF : Vec3 → Vec3) (st : BuildState) (point : Vec3) :
    Vec3 × BuildState :=
  if ¬opts.snapping_requested then (point, st)
  else
    let site := snapF point
    let dist_moved := (site - point).Norm2
    if dist_moved > opts.site_snap_radius_ca then
      (site, { st with error := ErrorKind.BUILDER_SNAP_RADIUS_TOO_SMALL })
    else (site, st)

/-- Removes consecutive duplicates, as `std::unique` (keeps the first
element of each run). -/
def dedupAdjacent : List Vec3 → List Vec3
  | [] => []
  | v :: rest => v :: dedupAdjacent (rest.dropWhile (· = v))
termination_by l => l.length
decreasing_by
  simp only [List.length_cons]
  exact Nat.lt_succ_of_le (List.dropWhile_sublist _).length_le

/-- The nonstrict version of the lexicographic point order, used to model
`std::sort` on forced sites. -/
def vecLe (a b : Vec3) : Prop := Vec3.Lt a b ∨ a = b

instance : DecidableRel vecLe := by
  unfold vecLe; infer_instance

/-- Models `S2Builder::AddForcedSites` (s2builder.cc lines 720-730): sorts
the forced sites, removes duplicates, and records the number of forced
sites.  (The point index insertion is part of the closest-point query,
modelled below as exhaustive search.) -/
def AddForcedSites (forced : List Vec3) (st : BuildState) : BuildState :=
  let sites := dedupAdjacent (forced.insertionSort vecLe)
  { st with sites := sites, num_forced_sites := sites.length }

/-- The body of the `ChooseInitialSites` loop over one input vertex
(s2builder.cc lines 758-793).  The conservative `FindClosestPoints` query
is modelled as returning every current site: sites farther than the query
radius fail the exact `CompareDistance` recheck and have no effect, so the
outcome is the same. -/
def chooseInitialStep (opts : Options) (snapF : Vec3 → Vec3) (st : BuildState)
    (vertex : Vec3) : BuildState :=
  let p := SnapSite opts snapF st vertex
  let site := p.1
  let st1 := { p.2 with snapping_needed := p.2.snapping_needed || decide (site ≠ vertex) }
  let addst : Bool × BuildState :=
    if opts.site_snap_radius_ca = 0 then
      (match st1.sites.getLast? with
       | none => true
       | some last => decide (site ≠ last), st1)
    else
      st1.sites.foldl (fun acc s =>
        if s2pred.CompareDistance site s opts.min_site_separation_ca ≤ 0 then
          (false, { acc.2 with
            snapping_needed := acc.2.snapping_needed || decide (site ≠ s) })
        else acc) (true, st1)
  if addst.1 then { addst.2 with sites := addst.2.sites ++ [site] } else addst.2

/-- Models `S2Builder::ChooseInitialSites` (s2builder.cc lines 732-794):
processes the input vertices in the deterministic sorted order. -/
def ChooseInitialSites (opts : Options) (snapF : Vec3 → Vec3) (cellId : Vec3 → ℤ)
    (input_vertices : List Vec3) (st : BuildState) : BuildState :=
  (SortInputVertices cellId input_vertices).foldl
    (fun st key => chooseInitialStep opts snapF st (input_vertices.getD key.2.2 0)) st

/-- Models `S2Builder::ChooseSites` (s2builder.cc lines 563-590).  The
memory tracker is modelled as always OK.  `AddEdgeCrossings` (when
`split_crossing_edges` is set), the `CollectSiteEdges` queries for a
nonempty edge set, and `AddExtraSites` for a nonempty edge set are outside
the model and set `unmodelled`; with no input edges `CollectSiteEdges` and
`AddExtraSites` perform no state change.  The `ChooseAllVerticesAsSites`
fast path here records only the site list (the full renumbering model is
`ChooseAllVerticesAsSites` above). -/
def ChooseSites (opts : Options) (snapF : Vec3 → Vec3) (cellId : Vec3 → ℤ)
    (input_vertices forced : List Vec3) (input_edges : List (ℕ × ℕ))
    (st : BuildState) : BuildState :=
  if input_vertices = [] then st else
  let st1 := if opts.split_crossing_edges then { st with unmodelled := true } else st
  let st2 :=
    if opts.snapping_requested then
      let stf := AddForcedSites forced st1
      let sti := ChooseInitialSites opts snapF cellId input_vertices stf
      if input_edges = [] then sti else { sti with unmodelled := true }
    else st1
  if st2.snapping_needed then
    (if input_edges = [] then st2 else { st2 with unmodelled := true })
  else
    { st2 with sites := (siteLoop (SortInputVertices cellId input_vertices) [] []).1 }

/-- Models `S2Builder::BuildLayers` (s2builder.cc lines 1259-1323): each
configured layer's `Build(graph, error)` is invoked unconditionally — the
shared error object is not consulted before delivering the graphs.
`delivered` counts the invocations.  Graph assembly for a nonempty edge set
is outside the model. -/
def BuildLayers (num_layers : ℕ) (input_edges : List (ℕ × ℕ)) (st : BuildState) :
    BuildState :=
  let st1 := if input_edges = [] then st else { st with unmodelled := true }
  { st1 with delivered := num_layers }

/-- Models `S2Builder::Build` (s2builder.cc lines 523-544): clears the
error, runs `ChooseSites` then `BuildLayers`, and returns `error.ok()`
together with the final state. -/
def Build (opts : Options) (snapF : Vec3 → Vec3) (cellId : Vec3 → ℤ)
    (input_vertices forced : List Vec3) (input_edges : List (ℕ × ℕ))
    (num_layers : ℕ) : BuildState × Bool :=
  let st0 : BuildState :=
    { sites := [], num_forced_sites := 0,
      snapping_needed := opts.snapping_requested && !opts.idempotent,
      error := ErrorKind.OK, delivered := 0, unmodelled := false }
  let st1 := ChooseSites opts snapF cellId input_vertices forced input_edges st0
  let st2 := BuildLayers num_layers input_edges st1
  (st2, st2.error = ErrorKind.OK)

end S2Builder


/-! ### Theorems -/

namespace Vec3

theorem ext_iff {a b : Vec3} : a = b ↔ a.x = b.x ∧ a.y = b.y ∧ a.z = b.z := by
  constructor
  · rintro rfl; exact ⟨rfl, rfl, rfl⟩
  · rintro ⟨h1, h2, h3⟩; cases a; cases b; simp_all

@[simp] theorem add_def (a b : Vec3) : a + b = ⟨a.x + b.x, a.y + b.y, a.z + b.z⟩ := rfl

@[simp] theorem sub_def (a b : Vec3) : a - b = ⟨a.x - b.x, a.y - b.y, a.z - b.z⟩ := rfl

@[simp] theorem neg_def (a : Vec3) : -a = ⟨-a.x, -a.y, -a.z⟩ := rfl

@[simp] theorem smul_def (q : ℚ) (a : Vec3) : q • a = ⟨q * a.x, q * a.y, q * a.z⟩ := rfl

@[simp] theorem zero_def : (0 : Vec3) = ⟨0, 0, 0⟩ := rfl

theorem ltIrrefl (a : Vec3) : ¬ Vec3.Lt a a := by
  unfold Vec3.Lt; simp

theorem ltAsymm {a b : Vec3} (h : Vec3.Lt a b) : ¬ Vec3.Lt b a := by
  unfold Vec3.Lt at *
  rcases h with h | ⟨hx, h⟩
  · rintro (h' | ⟨hx', -⟩) <;> linarith
  · rcases h with h | ⟨hy, h⟩
    · rintro (h' | ⟨hx', h' | ⟨hy', -⟩⟩) <;> linarith
    · rintro (h' | ⟨hx', h' | ⟨hy', h'⟩⟩) <;> linarith

theorem ltTricho (a b : Vec3) : Vec3.Lt a b ∨ a = b ∨ Vec3.Lt b a := by
  unfold Vec3.Lt
  rcases lt_trichotomy a.x b.x with h | h | h
  · exact Or.inl (Or.inl h)
  · rcases lt_trichotomy a.y b.y with h2 | h2 | h2
    · exact Or.inl (Or.inr ⟨h, Or.inl h2⟩)
    · rcases lt_trichotomy a.z b.z with h3 | h3 | h3
      · exact Or.inl (Or.inr ⟨h, Or.inr ⟨h2, h3⟩⟩)
      · exact Or.inr (Or.inl (Vec3.ext_iff.2 ⟨h, h2, h3⟩))
      · exact Or.inr (Or.inr (Or.inr ⟨h.symm, Or.inr ⟨h2.symm, h3⟩⟩))
    · exact Or.inr (Or.inr (Or.inr ⟨h.symm, Or.inl h2⟩))
  · exact Or.inr (Or.inr (Or.inl h))

theorem ltTrans {a b c : Vec3} (h1 : Vec3.Lt a b) (h2 : Vec3.Lt b c) : Vec3.Lt a c := by
  unfold Vec3.Lt at *
  rcases h1 with h1 | ⟨hx1, h1⟩ <;> rcases h2 with h2 | ⟨hx2, h2⟩
  · exact Or.inl (h1.trans h2)
  · exact Or.inl (hx2 ▸ h1)
  · exact Or.inl (hx1 ▸ h2)
  · refine Or.inr ⟨hx1.trans hx2, ?_⟩
    rcases h1 with h1 | ⟨hy1, h1⟩ <;> rcases h2 with h2 | ⟨hy2, h2⟩
    · exact Or.inl (h1.trans h2)
    · exact Or.inl (hy2 ▸ h1)
    · exact Or.inl (hy1 ▸ h2)
    · exact Or.inr ⟨hy1.trans hy2, h1.trans h2⟩

theorem not_lt_of_eq {a b : Vec3} (h : a = b) : ¬ Vec3.Lt a b := h ▸ ltIrrefl a

theorem lt_of_not_lt_of_ne {a b : Vec3} (h : ¬ Vec3.Lt a b) (hne : a ≠ b) : Vec3.Lt b a := by
  rcases ltTricho a b with h' | h' | h'
  · exact absurd h' h
  · exact absurd h' hne
  · exact h'

theorem ne_of_lt {a b : Vec3} (h : Vec3.Lt a b) : a ≠ b := by
  rintro rfl; exact ltIrrefl a h

end Vec3

section VecAlgebra

open Vec3

theorem Vec3.norm2_nonneg (a : Vec3) : 0 ≤ a.Norm2 := by
  unfold Vec3.Norm2 Vec3.DotProd
  nlinarith [mul_self_nonneg a.x, mul_self_nonneg a.y, mul_self_nonneg a.z]

theorem Vec3.norm2_eq_zero_iff {a : Vec3} : a.Norm2 = 0 ↔ a = 0 := by
  unfold Vec3.Norm2 Vec3.DotProd
  constructor
  · intro h
    have hx : a.x = 0 ∧ a.y = 0 ∧ a.z = 0 := by
      constructor
      · nlinarith [sq_nonneg a.x, sq_nonneg a.y, sq_nonneg a.z]
      constructor
      · nlinarith [sq_nonneg a.x, sq_nonneg a.y, sq_nonneg a.z]
      · nlinarith [sq_nonneg a.x, sq_nonneg a.y, sq_nonneg a.z]
    exact Vec3.ext_iff.2 (by simpa using hx)
  · rintro rfl; simp

theorem Vec3.norm2_pos_of_ne_zero {a : Vec3} (h : a ≠ 0) : 0 < a.Norm2 :=
  lt_of_le_of_ne (Vec3.norm2_nonneg a) (fun h0 => h (Vec3.norm2_eq_zero_iff.1 h0.symm))

theorem Vec3.norm2_neg (a : Vec3) : (-a).Norm2 = a.Norm2 := by
  unfold Vec3.Norm2 Vec3.DotProd
  simp only [Vec3.neg_def]
  ring

theorem Vec3.cross_anticomm (a b : Vec3) : b.CrossProd a = -(a.CrossProd b) := by
  unfold Vec3.CrossProd
  simp only [Vec3.neg_def, Vec3.ext_iff]
  exact ⟨by ring, by ring, by ring⟩

theorem Vec3.cross_dot_self_left (a b : Vec3) : (a.CrossProd b).DotProd a = 0 := by
  unfold Vec3.CrossProd Vec3.DotProd; ring

theorem Vec3.cross_dot_self_right (a b : Vec3) : (a.CrossProd b).DotProd b = 0 := by
  unfold Vec3.CrossProd Vec3.DotProd; ring

theorem Vec3.cross_self (a : Vec3) : a.CrossProd a = 0 := by
  unfold Vec3.CrossProd
  simp only [Vec3.zero_def, Vec3.ext_iff]
  exact ⟨by ring, by ring, by ring⟩

theorem Vec3.dot_comm (a b : Vec3) : a.DotProd b = b.DotProd a := by
  unfold Vec3.DotProd; ring

/-- If a cross product vanishes and the second factor is nonzero, the first
factor is a rational multiple of the second. -/
theorem Vec3.eq_smul_of_cross_eq_zero {a b : Vec3} (h : a.CrossProd b = 0) (hb : b ≠ 0) :
    ∃ c : ℚ, a = c • b := by
  have hx : a.y * b.z - a.z * b.y = 0 ∧ a.z * b.x - a.x * b.z = 0 ∧ a.x * b.y - a.y * b.x = 0 := by
    have := Vec3.ext_iff.1 h; simpa [Vec3.CrossProd] using this
  obtain ⟨h1, h2, h3⟩ := hx
  have hbne : b.x ≠ 0 ∨ b.y ≠ 0 ∨ b.z ≠ 0 := by
    by_contra hc
    push_neg at hc
    exact hb (Vec3.ext_iff.2 ⟨hc.1, hc.2.1, hc.2.2⟩)
  rcases hbne with hbx | hby | hbz
  · refine ⟨a.x / b.x, Vec3.ext_iff.2 ⟨?_, ?_, ?_⟩⟩ <;> (simp; field_simp) <;> nlinarith [h1, h2, h3]
  · refine ⟨a.y / b.y, Vec3.ext_iff.2 ⟨?_, ?_, ?_⟩⟩ <;> (simp; field_simp) <;> nlinarith [h1, h2, h3]
  · refine ⟨a.z / b.z, Vec3.ext_iff.2 ⟨?_, ?_, ?_⟩⟩ <;> (simp; field_simp) <;> nlinarith [h1, h2, h3]

theorem fsqrt_nonneg (q : ℚ) : 0 ≤ fsqrt q := Rat.sqrt_nonneg q

theorem fsqrt_pos {q : ℚ} (h : 0 < q) : 0 < fsqrt q := by
  unfold fsqrt Rat.sqrt
  rw [Rat.mkRat_eq_divInt, Rat.divInt_eq_div]
  apply div_pos
  · have hnum : 0 < q.num := Rat.num_pos.2 h
    have : 0 < Int.sqrt q.num := by
      unfold Int.sqrt
      have : 0 < q.num.toNat := by omega
      exact_mod_cast Nat.sqrt_pos.2 this
    exact_mod_cast this
  · have : 0 < Nat.sqrt q.den := Nat.sqrt_pos.2 q.pos
    exact_mod_cast this

theorem Vec3.smul_ne_zero' {c : ℚ} {v : Vec3} (hc : c ≠ 0) (hv : v ≠ 0) : c • v ≠ 0 := by
  intro h
  apply hv
  have := Vec3.ext_iff.1 h
  simp at this
  exact Vec3.ext_iff.2 ⟨by rcases this.1 with h | h; exact absurd h hc; exact h,
    by rcases this.2.1 with h | h; exact absurd h hc; exact h,
    by rcases this.2.2 with h | h; exact absurd h hc; exact h⟩

end VecAlgebra

namespace S2

theorem kMinNorm_pos : 0 < kMinNorm := by
  unfold kMinNorm kRobustCrossProdErrorRadians kSqrt3 DBL_ERR
  norm_num

theorem lac_lt3 (a : Vec3) : LargestAbsComponent a < 3 := by
  unfold LargestAbsComponent
  split_ifs <;> norm_num

theorem orthoIndex_ne_lac (a : Vec3) : orthoIndex a ≠ LargestAbsComponent a := by
  unfold orthoIndex
  have h3 := lac_lt3 a
  split_ifs with h0 <;> omega

theorem lac_smul {c : ℚ} (hc : c ≠ 0) (v : Vec3) :
    LargestAbsComponent (c • v) = LargestAbsComponent v := by
  have hpos : 0 < |c| := abs_pos.2 hc
  unfold LargestAbsComponent
  simp only [Vec3.smul_def, abs_mul]
  simp only [gt_iff_lt, mul_lt_mul_left hpos]

theorem lac_orthoRefVec (k : ℕ) (hk : k < 3) : LargestAbsComponent (orthoRefVec k) = k := by
  interval_cases k <;> norm_num [LargestAbsComponent, orthoRefVec, abs]

theorem orthoIndex_lt3 (a : Vec3) : orthoIndex a < 3 := by
  unfold orthoIndex
  have h3 := lac_lt3 a
  split_ifs with h0 <;> omega

theorem orthoRefVec_ne_zero (k : ℕ) : orthoRefVec k ≠ 0 := by
  unfold orthoRefVec
  match k with
  | 0 => intro h; rw [Vec3.zero_def, Vec3.ext_iff] at h; norm_num at h
  | 1 => intro h; rw [Vec3.zero_def, Vec3.ext_iff] at h; norm_num at h
  | Nat.succ (Nat.succ n) => intro h; rw [Vec3.zero_def, Vec3.ext_iff] at h; norm_num at h

theorem ortho_cross_ne_zero {a : Vec3} (h : a ≠ 0) :
    a.CrossProd (orthoRefVec (orthoIndex a)) ≠ 0 := by
  intro hc
  obtain ⟨c, hcs⟩ := Vec3.eq_smul_of_cross_eq_zero hc (orthoRefVec_ne_zero _)
  have hc0 : c ≠ 0 := by
    rintro rfl
    apply h
    rw [hcs]
    rw [Vec3.ext_iff]
    simp
  have heq : LargestAbsComponent a = orthoIndex a := by
    conv_lhs => rw [hcs]
    rw [lac_smul hc0, lac_orthoRefVec _ (orthoIndex_lt3 a)]
  exact orthoIndex_ne_lac a heq.symm

theorem smul_dot (c : ℚ) (v w : Vec3) : (c • v).DotProd w = c * v.DotProd w := by
  unfold Vec3.DotProd
  simp only [Vec3.smul_def]
  ring

theorem normalize_ne_zero {v : Vec3} (h : v ≠ 0) : normalize v ≠ 0 := by
  unfold normalize
  have hpos : 0 < fsqrt v.Norm2 := fsqrt_pos (Vec3.norm2_pos_of_ne_zero h)
  exact Vec3.smul_ne_zero' (by positivity) h

theorem ortho_ne_zero {a : Vec3} (h : a ≠ 0) : Ortho a ≠ 0 :=
  normalize_ne_zero (ortho_cross_ne_zero h)

theorem ortho_dot_eq_zero (a : Vec3) : (Ortho a).DotProd a = 0 := by
  unfold Ortho normalize
  rw [smul_dot, Vec3.cross_dot_self_left]
  ring

theorem stable_cross_self_fails (a : Vec3) : (GetStableCrossProd a a).1 = false := by
  unfold GetStableCrossProd
  have hsub : a - a = (0 : Vec3) := by
    rw [Vec3.ext_iff]
    simp
  simp only [hsub]
  have hc : Vec3.CrossProd 0 (a + a) = 0 := by
    unfold Vec3.CrossProd
    rw [Vec3.ext_iff]
    simp
  simp only [hc]
  have h2 : (0 : Vec3).Norm2 = 0 := by
    unfold Vec3.Norm2 Vec3.DotProd
    simp
  simp only [h2, decide_eq_false_iff_not, not_le]
  exact mul_pos kMinNorm_pos kMinNorm_pos

end S2

namespace S2

/-- The `(a − b) × (a + b)` triage of `RobustCrossProd` fails for equal
arguments, and the equal-arguments check fires before the exact and
symbolic stages. -/
theorem robustCrossProdImpl_self (a : Vec3) :
    RobustCrossProdImpl a a = (Ortho a, RcpStage.equalArgs) := by
  unfold RobustCrossProdImpl
  simp only [stable_cross_self_fails a]
  simp

end S2

/-- C10: for every nonzero (in particular every unit-length) point `a`,
`RobustCrossProd(a, a)` returns the fixed vector `S2::Ortho(a)` — which is
nonzero and orthogonal to `a` — rather than the zero vector that is the
mathematically exact cross product, and the equal-arguments case is
resolved at the dedicated `a == b` check, before the exact-arithmetic or
symbolic-perturbation stages run (the cascade reports stage `equalArgs`). -/
theorem c10_robust_cross_prod_equal_args (a : Vec3) (h : a ≠ 0) :
    S2.RobustCrossProd a a = S2.Ortho a ∧
    (S2.RobustCrossProdImpl a a).2 = S2.RcpStage.equalArgs ∧
    S2.Ortho a ≠ 0 ∧ (S2.Ortho a).DotProd a = 0 := by
  refine ⟨?_, ?_, S2.ortho_ne_zero h, S2.ortho_dot_eq_zero a⟩
  · unfold S2.RobustCrossProd
    rw [S2.robustCrossProdImpl_self a]
  · rw [S2.robustCrossProdImpl_self a]

/-- Witness for C10 at the concrete unit-length point (1, 0, 0). -/
theorem c10_witness :
    S2.RobustCrossProd ⟨1, 0, 0⟩ ⟨1, 0, 0⟩ = S2.Ortho ⟨1, 0, 0⟩ ∧
    (S2.RobustCrossProdImpl ⟨1, 0, 0⟩ ⟨1, 0, 0⟩).2 = S2.RcpStage.equalArgs ∧
    S2.Ortho ⟨1, 0, 0⟩ ≠ 0 ∧ (S2.Ortho ⟨1, 0, 0⟩).DotProd ⟨1, 0, 0⟩ = 0 :=
  c10_robust_cross_prod_equal_args ⟨1, 0, 0⟩ (by
    intro h
    rw [Vec3.zero_def, Vec3.ext_iff] at h
    norm_num at h)

/-! ### Sign cascade lemmas (C1) -/

namespace s2pred

theorem sgnQ_neg (q : ℚ) : sgnQ (-q) = -sgnQ q := by
  unfold sgnQ
  rcases lt_trichotomy q 0 with h | h | h
  · rw [if_pos (by linarith : (0 : ℚ) < -q), if_neg (by linarith : ¬ (0 : ℚ) < q), if_pos h]
    norm_num
  · subst h; norm_num
  · rw [if_neg (by linarith : ¬ (0 : ℚ) < -q), if_pos (by linarith : -q < (0 : ℚ)), if_pos h]

theorem sgnQ_eq_zero_iff {q : ℚ} : sgnQ q = 0 ↔ q = 0 := by
  unfold sgnQ
  rcases lt_trichotomy q 0 with h | h | h
  · rw [if_neg (by linarith), if_pos h]; constructor <;> intro hh <;> [exact absurd hh (by norm_num); linarith]
  · subst h; norm_num
  · rw [if_pos h]; constructor <;> intro hh <;> [exact absurd hh (by norm_num); linarith]

theorem sgnQ_of_pos {q : ℚ} (h : 0 < q) : sgnQ q = 1 := by
  unfold sgnQ; rw [if_pos h]

theorem sgnQ_of_neg {q : ℚ} (h : q < 0) : sgnQ q = -1 := by
  unfold sgnQ; rw [if_neg (by linarith), if_pos h]

theorem dot_neg_left (v w : Vec3) : (-v).DotProd w = -(v.DotProd w) := by
  unfold Vec3.DotProd; simp only [Vec3.neg_def]; ring

theorem det_swap12 (a b c : Vec3) :
    ((b.CrossProd a).DotProd c) = -((a.CrossProd b).DotProd c) := by
  unfold Vec3.CrossProd Vec3.DotProd; ring

theorem det_swap23 (a b c : Vec3) :
    ((a.CrossProd c).DotProd b) = -((a.CrossProd b).DotProd c) := by
  unfold Vec3.CrossProd Vec3.DotProd; ring

theorem det_cyclic (a b c : Vec3) :
    ((b.CrossProd c).DotProd a) = ((a.CrossProd b).DotProd c) := by
  unfold Vec3.CrossProd Vec3.DotProd; ring

theorem kMaxDetError_pos : 0 < kMaxDetError := by
  unfold kMaxDetError DBL_EPSILON; norm_num

/-- Evaluation of the three-swap sort of `ExactSign` on every input order of
a sorted triple x < y < z. -/
theorem sortTriple_eval {x y z : Vec3} (h1 : Vec3.Lt x y) (h2 : Vec3.Lt y z) :
    sortTriple x y z = ((x, y, z), 1) ∧
    sortTriple y x z = ((x, y, z), -1) ∧
    sortTriple x z y = ((x, y, z), -1) ∧
    sortTriple z x y = ((x, y, z), 1) ∧
    sortTriple y z x = ((x, y, z), 1) ∧
    sortTriple z y x = ((x, y, z), -1) := by
  have hxz : Vec3.Lt x z := Vec3.ltTrans h1 h2
  have nyx : ¬ Vec3.Lt y x := Vec3.ltAsymm h1
  have nzy : ¬ Vec3.Lt z y := Vec3.ltAsymm h2
  have nzx : ¬ Vec3.Lt z x := Vec3.ltAsymm hxz
  refine ⟨?_, ?_, ?_, ?_, ?_, ?_⟩ <;>
    simp [sortTriple, h1, h2, hxz, nyx, nzy, nzx]

/-- For points with a nonzero exact determinant, `ExactSign` returns the
sign of the determinant. -/
theorem exactSign_eq_sgn {a b c : Vec3}
    (hdet : (a.CrossProd b).DotProd c ≠ 0) :
    ExactSign a b c true = sgnQ ((a.CrossProd b).DotProd c) := by
  have hs0 : sgnQ ((a.CrossProd b).DotProd c) ≠ 0 := fun h => hdet (sgnQ_eq_zero_iff.1 h)
  rcases Vec3.ltTricho a b with hab | hab | hab
  · rcases Vec3.ltTricho b c with hbc | hbc | hbc
    · -- a < b < c
      have ev := sortTriple_eval hab hbc
      unfold ExactSign
      rw [ev.1]
      dsimp only
      have hd : a.DotProd (b.CrossProd c) = (a.CrossProd b).DotProd c := by
        unfold Vec3.CrossProd Vec3.DotProd; ring
      rw [hd, if_neg (by simp [hs0])]
      ring
    · exfalso; apply hdet; subst hbc
      exact Vec3.cross_dot_self_right a b
    · rcases Vec3.ltTricho a c with hac | hac | hac
      · -- a < c < b
        have ev := sortTriple_eval hac hbc
        unfold ExactSign
        rw [ev.2.2.1]
        dsimp only
        have hd : a.DotProd (c.CrossProd b) = -((a.CrossProd b).DotProd c) := by
          unfold Vec3.CrossProd Vec3.DotProd; ring
        rw [hd, sgnQ_neg, if_neg (by simp [hs0])]
        ring
      · exfalso; apply hdet; subst hac
        exact Vec3.cross_dot_self_left a b
      · -- c < a < b
        have ev := sortTriple_eval hac hab
        unfold ExactSign
        rw [ev.2.2.2.2.1]
        dsimp only
        have hd : c.DotProd (a.CrossProd b) = (a.CrossProd b).DotProd c := by
          unfold Vec3.CrossProd Vec3.DotProd; ring
        rw [hd, if_neg (by simp [hs0])]
        ring
  · exfalso; apply hdet; subst hab
    have h0 : a.CrossProd a = 0 := Vec3.cross_self a
    rw [h0]
    unfold Vec3.DotProd
    simp
  · rcases Vec3.ltTricho a c with hac | hac | hac
    · -- b < a < c
      have ev := sortTriple_eval hab hac
      unfold ExactSign
      rw [ev.2.1]
      dsimp only
      have hd : b.DotProd (a.CrossProd c) = -((a.CrossProd b).DotProd c) := by
        unfold Vec3.CrossProd Vec3.DotProd; ring
      rw [hd, sgnQ_neg, if_neg (by simp [hs0])]
      ring
    · exfalso; apply hdet; subst hac
      exact Vec3.cross_dot_self_left a b
    · rcases Vec3.ltTricho b c with hbc | hbc | hbc
      · -- b < c < a
        have ev := sortTriple_eval hbc hac
        unfold ExactSign
        rw [ev.2.2.2.1]
        dsimp only
        have hd : b.DotProd (c.CrossProd a) = (a.CrossProd b).DotProd c := by
          unfold Vec3.CrossProd Vec3.DotProd; ring
        rw [hd, if_neg (by simp [hs0])]
        ring
      · exfalso; apply hdet; subst hbc
        exact Vec3.cross_dot_self_right a b
      · -- c < b < a
        have ev := sortTriple_eval hbc hab
        unfold ExactSign
        rw [ev.2.2.2.2.2]
        dsimp only
        have hd : c.DotProd (b.CrossProd a) = -((a.CrossProd b).DotProd c) := by
          unfold Vec3.CrossProd Vec3.DotProd; ring
        rw [hd, sgnQ_neg, if_neg (by simp [hs0])]
        ring

/-- Antisymmetry of `ExactSign` in its first two arguments (distinct points). -/
theorem exactSign_swap12 {a b c : Vec3} (hab : a ≠ b) (hbc : b ≠ c) (hca : c ≠ a) :
    ExactSign b a c true = -ExactSign a b c true := by
  rcases Vec3.ltTricho a b with h1 | h1 | h1
  · rcases Vec3.ltTricho b c with h2 | h2 | h2
    · -- a < b < c
      have ev := sortTriple_eval h1 h2
      unfold ExactSign
      rw [ev.1, ev.2.1]
      dsimp only
      ring
    · exact absurd h2 hbc
    · rcases Vec3.ltTricho a c with h3 | h3 | h3
      · -- a < c < b
        have ev := sortTriple_eval h3 h2
        unfold ExactSign
        rw [ev.2.2.1, ev.2.2.2.1]
        dsimp only
        ring
      · exact absurd h3.symm hca
      · -- c < a < b
        have ev := sortTriple_eval h3 h1
        unfold ExactSign
        rw [ev.2.2.2.2.1, ev.2.2.2.2.2]
        dsimp only
        ring
  · exact absurd h1 hab
  · rcases Vec3.ltTricho a c with h3 | h3 | h3
    · -- b < a < c
      have ev := sortTriple_eval h1 h3
      unfold ExactSign
      rw [ev.2.1, ev.1]
      dsimp only
      ring
    · exact absurd h3.symm hca
    · rcases Vec3.ltTricho b c with h2 | h2 | h2
      · -- b < c < a
        have ev := sortTriple_eval h2 h3
        unfold ExactSign
        rw [ev.2.2.2.1, ev.2.2.1]
        dsimp only
        ring
      · exact absurd h2 hbc
      · -- c < b < a
        have ev := sortTriple_eval h2 h1
        unfold ExactSign
        rw [ev.2.2.2.2.2, ev.2.2.2.2.1]
        dsimp only
        ring

/-- Antisymmetry of `ExactSign` in its last two arguments (distinct points). -/
theorem exactSign_swap23 {a b c : Vec3} (hab : a ≠ b) (hbc : b ≠ c) (hca : c ≠ a) :
    ExactSign a c b true = -ExactSign a b c true := by
  rcases Vec3.ltTricho a b with h1 | h1 | h1
  · rcases Vec3.ltTricho b c with h2 | h2 | h2
    · -- a < b < c
      have ev := sortTriple_eval h1 h2
      unfold ExactSign
      rw [ev.2.2.1, ev.1]
      dsimp only
      ring
    · exact absurd h2 hbc
    · rcases Vec3.ltTricho a c with h3 | h3 | h3
      · -- a < c < b : (a,c,b) = (x,y,z), abc = conj3, acb = conj1
        have ev := sortTriple_eval h3 h2
        unfold ExactSign
        rw [ev.1, ev.2.2.1]
        dsimp only
        ring
      · exact absurd h3.symm hca
      · -- c < a < b : (c,a,b) = (x,y,z); abc = conj5; acb = (a,c,b) = (y,x,z) = conj2
        have ev := sortTriple_eval h3 h1
        unfold ExactSign
        rw [ev.2.1, ev.2.2.2.2.1]
        dsimp only
        ring
  · exact absurd h1 hab
  · rcases Vec3.ltTricho a c with h3 | h3 | h3
    · -- b < a < c : (b,a,c); abc = conj2; acb = (a,c,b) = (y,z,x) = conj5
      have ev := sortTriple_eval h1 h3
      unfold ExactSign
      rw [ev.2.2.2.2.1, ev.2.1]
      dsimp only
      ring
    · exact absurd h3.symm hca
    · rcases Vec3.ltTricho b c with h2 | h2 | h2
      · -- b < c < a : (b,c,a); abc = conj4; acb = (a,c,b) = (z,y,x) = conj6
        have ev := sortTriple_eval h2 h3
        unfold ExactSign
        rw [ev.2.2.2.2.2, ev.2.2.2.1]
        dsimp only
        ring
      · exact absurd h2 hbc
      · -- c < b < a : (c,b,a); abc = conj6; acb = (a,c,b) = (z,x,y) = conj4
        have ev := sortTriple_eval h2 h1
        unfold ExactSign
        rw [ev.2.2.2.1, ev.2.2.2.2.2]
        dsimp only
        ring

/-- Invariance of `ExactSign` under cyclic permutation (distinct points). -/
theorem exactSign_cyclic {a b c : Vec3} (hab : a ≠ b) (hbc : b ≠ c) (hca : c ≠ a) :
    ExactSign b c a true = ExactSign a b c true := by
  rcases Vec3.ltTricho a b with h1 | h1 | h1
  · rcases Vec3.ltTricho b c with h2 | h2 | h2
    · -- a < b < c : abc = conj1; bca = (y,z,x) = conj5
      have ev := sortTriple_eval h1 h2
      unfold ExactSign
      rw [ev.2.2.2.2.1, ev.1]
    · exact absurd h2 hbc
    · rcases Vec3.ltTricho a c with h3 | h3 | h3
      · -- a < c < b : (a,c,b); abc = conj3; bca = (z,y,x) = conj6
        have ev := sortTriple_eval h3 h2
        unfold ExactSign
        rw [ev.2.2.2.2.2, ev.2.2.1]
      · exact absurd h3.symm hca
      · -- c < a < b : (c,a,b); abc = conj5; bca = (b,c,a) = (z,x,y) = conj4
        have ev := sortTriple_eval h3 h1
        unfold ExactSign
        rw [ev.2.2.2.1, ev.2.2.2.2.1]
  · exact absurd h1 hab
  · rcases Vec3.ltTricho a c with h3 | h3 | h3
    · -- b < a < c : (b,a,c); abc = conj2; bca = (b,c,a) = (x,z,y) = conj3
      have ev := sortTriple_eval h1 h3
      unfold ExactSign
      rw [ev.2.2.1, ev.2.1]
    · exact absurd h3.symm hca
    · rcases Vec3.ltTricho b c with h2 | h2 | h2
      · -- b < c < a : (b,c,a); abc = conj4; bca = conj1
        have ev := sortTriple_eval h2 h3
        unfold ExactSign
        rw [ev.1, ev.2.2.2.1]
      · exact absurd h2 hbc
      · -- c < b < a : (c,b,a); abc = conj6; bca = (b,c,a) = (y,x,z) = conj2
        have ev := sortTriple_eval h2 h1
        unfold ExactSign
        rw [ev.2.1, ev.2.2.2.2.2]

/-- `StableSign` either abstains or returns the sign of the exact
determinant (in the rational model all branch determinants are exact). -/
theorem stableSign_cases (a b c : Vec3) :
    StableSign a b c = 0 ∨ StableSign a b c = sgnQ ((a.CrossProd b).DotProd c) := by
  have key : ∀ det err : ℚ, det = (a.CrossProd b).DotProd c → 0 ≤ err →
      ((if err < kMinNoUnderflowError then (0 : ℤ)
        else if |det| ≤ err then 0
        else if det > 0 then 1 else -1) = 0 ∨
       (if err < kMinNoUnderflowError then (0 : ℤ)
        else if |det| ≤ err then 0
        else if det > 0 then 1 else -1) = sgnQ ((a.CrossProd b).DotProd c)) := by
    intro det err hdeq herr
    split_ifs with hu hle hpos
    · left; rfl
    · left; rfl
    · right; rw [← hdeq]; exact (sgnQ_of_pos hpos).symm
    · right; rw [← hdeq]
      have habs : err < |det| := not_le.1 hle
      have hne : det ≠ 0 := by
        intro h0
        rw [h0] at habs
        simp at habs
        linarith
      have hneg : det < 0 := lt_of_le_of_ne (not_lt.1 hpos) hne
      exact (sgnQ_of_neg hneg).symm
  unfold StableSign
  apply key
  · split_ifs <;> (unfold Vec3.CrossProd Vec3.DotProd; simp only [Vec3.sub_def]; ring)
  · split_ifs <;>
      exact mul_nonneg (by unfold kDetErrorMultiplier DBL_EPSILON; norm_num) (fsqrt_nonneg _)

/-- For distinct points, `ExpensiveSign` coincides with `ExactSign`: when
`StableSign` commits to a sign, that sign equals the exact sign. -/
theorem expensiveSign_eq_exactSign {a b c : Vec3} (hab : a ≠ b) (hbc : b ≠ c) (hca : c ≠ a) :
    ExpensiveSign a b c true = ExactSign a b c true := by
  unfold ExpensiveSign
  rw [if_neg (by push_neg; exact ⟨hab, hbc, hca⟩)]
  by_cases hz : StableSign a b c = 0
  · simp [hz]
  · rcases stableSign_cases a b c with h | h
    · exact absurd h hz
    · have hD : (a.CrossProd b).DotProd c ≠ 0 := by
        intro h0
        apply hz
        rw [h, h0]
        unfold sgnQ
        norm_num
      simp only [ne_eq, hz, not_false_iff, if_pos, ite_not]
      rw [h, exactSign_eq_sgn hD]

/-- Antisymmetry of `ExpensiveSign` in its first two arguments. -/
theorem expensiveSign_swap12 (a b c : Vec3) :
    ExpensiveSign b a c true = -(ExpensiveSign a b c true) := by
  by_cases he : a = b ∨ b = c ∨ c = a
  · unfold ExpensiveSign
    rw [if_pos (by tauto), if_pos he]
    norm_num
  · push_neg at he
    obtain ⟨hab, hbc, hca⟩ := he
    rw [expensiveSign_eq_exactSign (Ne.symm hab) (fun h => hca h.symm) (fun h => hbc h.symm),
        expensiveSign_eq_exactSign hab hbc hca]
    exact exactSign_swap12 hab hbc hca

/-- Antisymmetry of `ExpensiveSign` in its last two arguments. -/
theorem expensiveSign_swap23 (a b c : Vec3) :
    ExpensiveSign a c b true = -(ExpensiveSign a b c true) := by
  by_cases he : a = b ∨ b = c ∨ c = a
  · unfold ExpensiveSign
    rw [if_pos (by tauto), if_pos he]
    norm_num
  · push_neg at he
    obtain ⟨hab, hbc, hca⟩ := he
    rw [expensiveSign_eq_exactSign (fun h => hca h.symm) (Ne.symm hbc) (fun h => hab h.symm),
        expensiveSign_eq_exactSign hab hbc hca]
    exact exactSign_swap23 hab hbc hca

/-- Invariance of `ExpensiveSign` under cyclic permutation. -/
theorem expensiveSign_cyclic (a b c : Vec3) :
    ExpensiveSign b c a true = ExpensiveSign a b c true := by
  by_cases he : a = b ∨ b = c ∨ c = a
  · unfold ExpensiveSign
    rw [if_pos (by tauto), if_pos he]
  · push_neg at he
    obtain ⟨hab, hbc, hca⟩ := he
    rw [expensiveSign_eq_exactSign hbc hca hab, expensiveSign_eq_exactSign hab hbc hca]
    exact exactSign_cyclic hab hbc hca

theorem zero_dot (w : Vec3) : (0 : Vec3).DotProd w = 0 := by
  unfold Vec3.DotProd
  simp

/-- Antisymmetry of the full `Sign` cascade in its first two arguments.  The
triage determinant negates exactly under the swap, so the triage stages of
the two calls agree; the expensive stages agree by `expensiveSign_swap12`. -/
theorem sign_swap12 (a b c : Vec3) : Sign b a c = -Sign a b c := by
  unfold Sign SignCrossArg TriageSign
  rw [Vec3.cross_anticomm a b, dot_neg_left]
  set d := (a.CrossProd b).DotProd c with hd
  have hK := kMaxDetError_pos
  by_cases hgt : d > kMaxDetError
  · have f1 : ¬ (-d > kMaxDetError) := by linarith
    have f2 : -d < -kMaxDetError := by linarith
    simp [f1, f2, hgt]
  · by_cases hlt : d < -kMaxDetError
    · have f1 : -d > kMaxDetError := by linarith
      simp [f1, hlt, hgt]
    · have f1 : ¬ (-d > kMaxDetError) := by linarith
      have f2 : ¬ (-d < -kMaxDetError) := by linarith
      simp [f1, f2, hgt, hlt]
      exact expensiveSign_swap12 a b c

/-- Antisymmetry of the full `Sign` cascade in its last two arguments. -/
theorem sign_swap23 (a b c : Vec3) : Sign a c b = -Sign a b c := by
  unfold Sign SignCrossArg TriageSign
  rw [det_swap23 a b c]
  set d := (a.CrossProd b).DotProd c with hd
  have hK := kMaxDetError_pos
  by_cases hgt : d > kMaxDetError
  · have f1 : ¬ (-d > kMaxDetError) := by linarith
    have f2 : -d < -kMaxDetError := by linarith
    simp [f1, f2, hgt]
  · by_cases hlt : d < -kMaxDetError
    · have f1 : -d > kMaxDetError := by linarith
      simp [f1, hlt, hgt]
    · have f1 : ¬ (-d > kMaxDetError) := by linarith
      have f2 : ¬ (-d < -kMaxDetError) := by linarith
      simp [f1, f2, hgt, hlt]
      exact expensiveSign_swap23 a b c

/-- Invariance of the full `Sign` cascade under cyclic permutation. -/
theorem sign_cyclic (a b c : Vec3) : Sign b c a = Sign a b c := by
  unfold Sign SignCrossArg TriageSign
  rw [det_cyclic a b c]
  set d := (a.CrossProd b).DotProd c with hd
  by_cases hgt : d > kMaxDetError
  · simp [hgt]
  · by_cases hlt : d < -kMaxDetError
    · simp [hgt, hlt]
    · simp [hgt, hlt]
      exact expensiveSign_cyclic a b c

/-- `Sign` vanishes when the first two arguments coincide. -/
theorem sign_degenerate (a b : Vec3) : Sign a a b = 0 := by
  unfold Sign SignCrossArg TriageSign
  rw [Vec3.cross_self a, zero_dot]
  have hK := kMaxDetError_pos
  have f1 : ¬ ((0 : ℚ) > kMaxDetError) := by linarith
  have f2 : ¬ ((0 : ℚ) < -kMaxDetError) := by linarith
  simp [f1, f2]
  unfold ExpensiveSign
  simp

end s2pred

/-- C1: for all points a, b, c — including exactly degenerate
configurations, which the cascade resolves by symbolic perturbation — the
orientation predicate satisfies `Sign(a,b,c) == -Sign(b,a,c)`,
`Sign(a,b,c) == -Sign(a,c,b)`, `Sign(a,b,c) == Sign(b,c,a)` and
`Sign(a,a,b) == 0`. -/
theorem c1_sign_symmetries (a b c : Vec3) :
    s2pred.Sign a b c = -s2pred.Sign b a c ∧
    s2pred.Sign a b c = -s2pred.Sign a c b ∧
    s2pred.Sign a b c = s2pred.Sign b c a ∧
    s2pred.Sign a a b = 0 := by
  refine ⟨?_, ?_, (s2pred.sign_cyclic a b c).symm, s2pred.sign_degenerate a b⟩
  · rw [s2pred.sign_swap12 a b c]; ring
  · rw [s2pred.sign_swap23 a b c]; ring

namespace s2pred

/-- Every return path of the exact Voronoi exclusion stage yields a
definite answer. -/
theorem exactVoronoi_ne_uncertain (a b x0 x1 : Vec3) (r2 : ℚ) :
    ExactVoronoiSiteExclusion a b x0 x1 r2 ≠ Excluded.UNCERTAIN := by
  unfold ExactVoronoiSiteExclusion
  dsimp only
  split_ifs <;> simp

end s2pred

/-- C5: `GetVoronoiSiteExclusion` always returns FIRST, SECOND or NEITHER
and never UNCERTAIN (for every input, hence in particular for all inputs
satisfying its documented preconditions): UNCERTAIN only occurs as the
intermediate triage result, and the exact stage that resolves it has no
UNCERTAIN return path. -/
theorem c5_voronoi_never_uncertain (a b x0 x1 : Vec3) (r2 : ℚ) :
    s2pred.GetVoronoiSiteExclusion a b x0 x1 r2 = s2pred.Excluded.FIRST ∨
    s2pred.GetVoronoiSiteExclusion a b x0 x1 r2 = s2pred.Excluded.SECOND ∨
    s2pred.GetVoronoiSiteExclusion a b x0 x1 r2 = s2pred.Excluded.NEITHER := by
  have key : s2pred.GetVoronoiSiteExclusion a b x0 x1 r2 ≠ s2pred.Excluded.UNCERTAIN := by
    unfold s2pred.GetVoronoiSiteExclusion
    dsimp only
    split_ifs with h1 h2
    · simp
    · exact h2
    · exact s2pred.exactVoronoi_ne_uncertain a b x0 x1 r2
  rcases hv : s2pred.GetVoronoiSiteExclusion a b x0 x1 r2 with _ | _ | _ | _
  · exact Or.inl rfl
  · exact Or.inr (Or.inl rfl)
  · exact Or.inr (Or.inr rfl)
  · exact absurd hv key

/-- C9 counterexample: at distance 0 (x = y) with a limit r2 = 1/10 well
below 45 degrees, the first (and only) triage formula used by
`CompareDistance` is the cosine-based one, not the sine-squared one that
the claim says is selected first near 0 degrees. -/
theorem c9_counterexample :
    (s2pred.CompareDistanceFormulas ⟨1, 0, 0⟩ ⟨1, 0, 0⟩ (1 / 10)).head? =
      some s2pred.Formula.cos ∧
    (1 / 10 : ℚ) < k45Len2 ∧
    s2pred.Formula.sin2 ∉ s2pred.CompareDistanceFormulas ⟨1, 0, 0⟩ ⟨1, 0, 0⟩ (1 / 10) := by
  refine ⟨?_, by unfold k45Len2; norm_num, ?_⟩
  · norm_num [s2pred.CompareDistanceFormulas, s2pred.TriageCompareCosDistance,
      s2pred.GetCosDistance, Vec3.DotProd, DBL_ERR]
  · norm_num [s2pred.CompareDistanceFormulas, s2pred.TriageCompareCosDistance,
      s2pred.GetCosDistance, Vec3.DotProd, DBL_ERR]
    decide

/-- C9 (amended): in the triage stage of `CompareDistance(x,y,r)` and
`CompareDistances(x,a,b)` the cosine-based comparison is always used first;
the fixed 45-degree threshold only selects whether the sine-squared-based
comparison is additionally used when the cosine triage is inconclusive —
for `CompareDistance` when the limit r is below 45 degrees, and for
`CompareDistances` when the distances are within 45 degrees of 0 or 180
degrees (i.e. |cos| above cos 45°). -/
theorem c9_triage_formula_order (x y a b : Vec3) (r2 : ℚ) :
    (s2pred.CompareDistanceFormulas x y r2).head? = some s2pred.Formula.cos ∧
    (s2pred.Formula.sin2 ∈ s2pred.CompareDistanceFormulas x y r2 → r2 < k45Len2) ∧
    (s2pred.CompareDistancesFormulas x a b).head? = some s2pred.Formula.cos ∧
    (s2pred.Formula.sin2 ∈ s2pred.CompareDistancesFormulas x a b →
      M_SQRT1_2 < |a.DotProd x|) := by
  refine ⟨?_, ?_, ?_, ?_⟩
  · unfold s2pred.CompareDistanceFormulas
    dsimp only
    split_ifs <;> rfl
  · unfold s2pred.CompareDistanceFormulas
    dsimp only
    split_ifs with h1 h2 h3
    · simp
    · simp
    · intro _; exact h3
    · simp
  · unfold s2pred.CompareDistancesFormulas
    dsimp only
    split_ifs <;> rfl
  · unfold s2pred.CompareDistancesFormulas
    dsimp only
    split_ifs with h1 h2 h3 h4
    · simp
    · simp
    · intro _
      rw [abs_of_pos (lt_trans (by unfold M_SQRT1_2; norm_num) h3)]
      exact h3
    · intro _
      rw [abs_of_neg (by
        have : (0 : ℚ) < M_SQRT1_2 := by unfold M_SQRT1_2; norm_num
        linarith)]
      linarith
    · simp

/-- Witness for C9's amended claim at concrete inputs where the
sine-squared follow-up actually fires in both predicates. -/
theorem c9_witness :
    (s2pred.CompareDistanceFormulas ⟨1, 0, 0⟩ ⟨4/5, 3/5, 0⟩ (2/5)).head? =
      some s2pred.Formula.cos ∧
    (2 / 5 : ℚ) < k45Len2 ∧
    (s2pred.CompareDistancesFormulas ⟨1, 0, 0⟩ ⟨4/5, 3/5, 0⟩ ⟨4/5, -3/5, 0⟩).head? =
      some s2pred.Formula.cos ∧
    M_SQRT1_2 < |(Vec3.mk (4/5) (3/5) 0).DotProd ⟨1, 0, 0⟩| :=
  ⟨(c9_triage_formula_order ⟨1, 0, 0⟩ ⟨4/5, 3/5, 0⟩ ⟨4/5, 3/5, 0⟩ ⟨4/5, -3/5, 0⟩ (2/5)).1,
   (c9_triage_formula_order ⟨1, 0, 0⟩ ⟨4/5, 3/5, 0⟩ ⟨4/5, 3/5, 0⟩ ⟨4/5, -3/5, 0⟩ (2/5)).2.1
     (by norm_num [s2pred.CompareDistanceFormulas, s2pred.TriageCompareCosDistance,
          s2pred.GetCosDistance, Vec3.DotProd, DBL_ERR, k45Len2,
          abs_of_pos (show (0 : ℚ) < 4 / 5 by norm_num)]),
   (c9_triage_formula_order ⟨1, 0, 0⟩ ⟨4/5, 3/5, 0⟩ ⟨4/5, 3/5, 0⟩ ⟨4/5, -3/5, 0⟩ (2/5)).2.2.1,
   (c9_triage_formula_order ⟨1, 0, 0⟩ ⟨4/5, 3/5, 0⟩ ⟨4/5, 3/5, 0⟩ ⟨4/5, -3/5, 0⟩ (2/5)).2.2.2
     (by norm_num [s2pred.CompareDistancesFormulas, s2pred.TriageCompareCosDistances,
          s2pred.GetCosDistance, Vec3.DotProd, DBL_ERR, M_SQRT1_2,
          abs_of_pos (show (0 : ℚ) < 4 / 5 by norm_num)])⟩

namespace s2pred

theorem cosDistance_fst (x y : Vec3) : (GetCosDistance x y).1 = x.DotProd y := rfl

theorem cosDistance_err_nonneg (x y : Vec3) : 0 ≤ (GetCosDistance x y).2 := by
  unfold GetCosDistance DBL_ERR
  dsimp only
  positivity

theorem sin2Distance_err_nonneg (x y : Vec3) : 0 ≤ (GetSin2Distance x y).2 := by
  unfold GetSin2Distance
  dsimp only
  have h1 : 0 ≤ ((x - y).CrossProd (x + y)).Norm2 := Vec3.norm2_nonneg _
  have h2 : 0 ≤ fsqrt (1 / 4 * ((x - y).CrossProd (x + y)).Norm2) := fsqrt_nonneg _
  have h3 : (0 : ℚ) < kSqrt3 := by unfold kSqrt3; norm_num
  have h4 : (0 : ℚ) < DBL_ERR := by unfold DBL_ERR; norm_num
  positivity

/-- The Lagrange identity: `|v × w|² = |v|²|w|² − (v·w)²`. -/
theorem lagrange (v w : Vec3) :
    (v.CrossProd w).Norm2 = v.Norm2 * w.Norm2 - (v.DotProd w) * (v.DotProd w) := by
  unfold Vec3.Norm2 Vec3.CrossProd Vec3.DotProd
  ring

/-- Cauchy–Schwarz for unit vectors: the dot product is at most 1 in
magnitude. -/
theorem abs_dot_le_one {v w : Vec3} (hv : v.Norm2 = 1) (hw : w.Norm2 = 1) :
    |v.DotProd w| ≤ 1 := by
  have h := Vec3.norm2_nonneg (v.CrossProd w)
  rw [lagrange, hv, hw] at h
  rw [abs_le]
  constructor <;> nlinarith [h]

/-- The numerically stable `sin²` quantity equals
`|y|²|x|² − (y·x)²` exactly in the rational model. -/
theorem sin2Distance_fst (y x : Vec3) :
    (GetSin2Distance y x).1 = y.Norm2 * x.Norm2 - (y.DotProd x) * (y.DotProd x) := by
  unfold GetSin2Distance Vec3.Norm2 Vec3.CrossProd Vec3.DotProd
  dsimp only
  simp only [Vec3.sub_def, Vec3.add_def]
  ring

/-- Antisymmetry of the cosine triage in its last two arguments. -/
theorem triageCosDistances_antisym (x a b : Vec3) :
    TriageCompareCosDistances x b a = -(TriageCompareCosDistances x a b) := by
  unfold TriageCompareCosDistances
  dsimp only
  have e1 := cosDistance_err_nonneg a x
  have e2 := cosDistance_err_nonneg b x
  by_cases h1 : (GetCosDistance a x).1 - (GetCosDistance b x).1 >
      (GetCosDistance a x).2 + (GetCosDistance b x).2
  · rw [if_pos h1, if_neg (by linarith), if_pos (by linarith)]
    try norm_num
  · by_cases h2 : (GetCosDistance a x).1 - (GetCosDistance b x).1 <
        -((GetCosDistance a x).2 + (GetCosDistance b x).2)
    · rw [if_neg h1, if_pos h2, if_pos (by linarith)]
      try norm_num
    · rw [if_neg h1, if_neg h2, if_neg (by linarith), if_neg (by linarith)]
      try norm_num

/-- Antisymmetry of the sine-squared triage in its last two arguments. -/
theorem triageSin2Distances_antisym (x a b : Vec3) :
    TriageCompareSin2Distances x b a = -(TriageCompareSin2Distances x a b) := by
  unfold TriageCompareSin2Distances
  dsimp only
  have e1 := sin2Distance_err_nonneg a x
  have e2 := sin2Distance_err_nonneg b x
  by_cases h1 : (GetSin2Distance a x).1 - (GetSin2Distance b x).1 >
      (GetSin2Distance a x).2 + (GetSin2Distance b x).2
  · rw [if_pos h1, if_neg (by linarith), if_pos (by linarith)]
    try norm_num
  · by_cases h2 : (GetSin2Distance a x).1 - (GetSin2Distance b x).1 <
        -((GetSin2Distance a x).2 + (GetSin2Distance b x).2)
    · rw [if_neg h1, if_pos h2, if_pos (by linarith)]
      try norm_num
    · rw [if_neg h1, if_neg h2, if_neg (by linarith), if_neg (by linarith)]
      try norm_num

/-- Antisymmetry of the exact distance comparison in its last two
arguments. -/
theorem exactCompareDistances_antisym (x a b : Vec3) :
    ExactCompareDistances x b a = -(ExactCompareDistances x a b) := by
  unfold ExactCompareDistances
  dsimp only
  by_cases h : sgnQ (x.DotProd a) = sgnQ (x.DotProd b)
  · rw [if_neg (by rw [h]; simp), if_neg (by rw [h]; simp), h]
    have hc : x.DotProd a * x.DotProd a * b.Norm2 - x.DotProd b * x.DotProd b * a.Norm2 =
        -(x.DotProd b * x.DotProd b * a.Norm2 - x.DotProd a * x.DotProd a * b.Norm2) := by
      ring
    rw [hc, sgnQ_neg]
    ring
  · rw [if_pos (fun hh => h hh.symm), if_pos h]
    rcases lt_or_gt_of_ne h with hlt | hgt
    · rw [if_pos (by omega), if_neg (by omega)]
      try norm_num
    · rw [if_neg (by omega), if_pos (by omega)]
      try norm_num

/-- Antisymmetry of the symbolic pedestal comparison for distinct points. -/
theorem symbolicCompareDistances_antisym {a b : Vec3} (hab : a ≠ b) :
    SymbolicCompareDistances b a = -(SymbolicCompareDistances a b) := by
  unfold SymbolicCompareDistances
  rcases Vec3.ltTricho a b with h | h | h
  · rw [if_neg (Vec3.ltAsymm h), if_pos h, if_pos h]
  · exact absurd h hab
  · rw [if_pos h, if_pos h, if_neg (Vec3.ltAsymm h)]
    norm_num

theorem triageCosDistances_zero {x a b : Vec3} (h : TriageCompareCosDistances x a b = 0) :
    |a.DotProd x - b.DotProd x| ≤ (GetCosDistance a x).2 + (GetCosDistance b x).2 := by
  unfold TriageCompareCosDistances at h
  dsimp only at h
  by_cases h1 : (GetCosDistance a x).1 - (GetCosDistance b x).1 >
      (GetCosDistance a x).2 + (GetCosDistance b x).2
  · rw [if_pos h1] at h
    exact absurd h (by norm_num)
  · by_cases h2 : (GetCosDistance a x).1 - (GetCosDistance b x).1 <
        -((GetCosDistance a x).2 + (GetCosDistance b x).2)
    · rw [if_neg h1, if_pos h2] at h
      exact absurd h (by norm_num)
    · rw [abs_le]
      exact ⟨not_lt.1 h2, not_lt.1 h1⟩

/-- Bound on the cosine triage error for unit vectors: at most 22 · DBL_ERR. -/
theorem cos_err_bound {x y : Vec3} (hx : x.Norm2 = 1) (hy : y.Norm2 = 1) :
    (GetCosDistance x y).2 ≤ 11 * DBL_ERR := by
  unfold GetCosDistance
  dsimp only
  have h1 : |x.DotProd y| ≤ 1 := abs_dot_le_one hx hy
  have h2 : (0 : ℚ) < DBL_ERR := by unfold DBL_ERR; norm_num
  nlinarith [h1, h2]

/-- When the sine-squared triage is decisive on unit vectors it returns
the sign of the exact comparison quantity `(x·b)² − (x·a)²`. -/
theorem sin2_decisive_eq {x a b : Vec3} (hx : x.Norm2 = 1) (ha : a.Norm2 = 1)
    (hb : b.Norm2 = 1) (hs : TriageCompareSin2Distances x a b ≠ 0) :
    TriageCompareSin2Distances x a b =
      sgnQ (x.DotProd b * x.DotProd b - x.DotProd a * x.DotProd a) := by
  have hD : (GetSin2Distance a x).1 - (GetSin2Distance b x).1 =
      x.DotProd b * x.DotProd b - x.DotProd a * x.DotProd a := by
    rw [sin2Distance_fst a x, sin2Distance_fst b x, ha, hb, hx,
      Vec3.dot_comm a x, Vec3.dot_comm b x]
    ring
  have e1 := sin2Distance_err_nonneg a x
  have e2 := sin2Distance_err_nonneg b x
  unfold TriageCompareSin2Distances at *
  dsimp only at *
  by_cases h1 : (GetSin2Distance a x).1 - (GetSin2Distance b x).1 >
      (GetSin2Distance a x).2 + (GetSin2Distance b x).2
  · rw [if_pos h1]
    rw [hD] at h1
    exact (sgnQ_of_pos (by linarith)).symm
  · by_cases h2 : (GetSin2Distance a x).1 - (GetSin2Distance b x).1 <
        -((GetSin2Distance a x).2 + (GetSin2Distance b x).2)
    · rw [if_neg h1, if_pos h2]
      rw [hD] at h2
      exact (sgnQ_of_neg (by linarith)).symm
    · rw [if_neg h1, if_neg h2] at hs
      exact absurd rfl hs

/-- The exact distance comparison on unit vectors with both cosines
positive. -/
theorem exactDistances_eq_pos {x a b : Vec3} (ha : a.Norm2 = 1) (hb : b.Norm2 = 1)
    (hpa : 0 < x.DotProd a) (hpb : 0 < x.DotProd b) :
    ExactCompareDistances x a b =
      sgnQ (x.DotProd b * x.DotProd b - x.DotProd a * x.DotProd a) := by
  unfold ExactCompareDistances
  dsimp only
  rw [sgnQ_of_pos hpa, sgnQ_of_pos hpb, if_neg (by norm_num), ha, hb]
  simp only [mul_one, one_mul]

/-- The exact distance comparison on unit vectors with both cosines
negative. -/
theorem exactDistances_eq_neg {x a b : Vec3} (ha : a.Norm2 = 1) (hb : b.Norm2 = 1)
    (hpa : x.DotProd a < 0) (hpb : x.DotProd b < 0) :
    ExactCompareDistances x a b =
      -(sgnQ (x.DotProd b * x.DotProd b - x.DotProd a * x.DotProd a)) := by
  unfold ExactCompareDistances
  dsimp only
  rw [sgnQ_of_neg hpa, sgnQ_of_neg hpb, if_neg (by norm_num), ha, hb]
  simp only [mul_one, one_mul]
  ring

theorem tail_antisym (E Y : ℤ) :
    (if -E ≠ 0 then -E else -Y) = -(if E ≠ 0 then E else Y) := by
  by_cases hE : E = 0
  · simp [hE]
  · rw [if_pos (by simpa using hE), if_pos hE]

theorem cascade_antisym (S E Y : ℤ) :
    (if -S ≠ 0 then -S else (if -E ≠ 0 then -E else -Y)) =
      -(if S ≠ 0 then S else (if E ≠ 0 then E else Y)) := by
  by_cases hS : S = 0
  · simp only [hS, neg_zero, ne_eq, not_true_eq_false, if_false]
    simpa using tail_antisym E Y
  · rw [if_pos (by simpa using hS), if_pos hS]

theorem cascade_antisym' (S E Y : ℤ) :
    (if S ≠ 0 then S else (if -E ≠ 0 then -E else -Y)) =
      -(if -S ≠ 0 then -S else (if E ≠ 0 then E else Y)) := by
  by_cases hS : S = 0
  · simp only [hS, neg_zero, ne_eq, not_true_eq_false, if_false]
    simpa using tail_antisym E Y
  · rw [if_pos hS, if_pos (by simpa using hS)]
    ring

theorem compareDistances_self (x a : Vec3) : CompareDistances x a a = 0 := by
  unfold CompareDistances
  dsimp only
  have h1 : TriageCompareCosDistances x a a = 0 := by
    unfold TriageCompareCosDistances
    dsimp only
    have e := cosDistance_err_nonneg a x
    rw [if_neg (by linarith), if_neg (by linarith)]
  rw [h1, if_neg (by norm_num), if_pos rfl]

/-- Antisymmetry of the full `CompareDistances` cascade on unit-length
points: every stage is either exactly antisymmetric or, when the branch
selection differs between the two argument orders near the 45°/135°
thresholds, agrees in sign with the exact comparison. -/
theorem compareDistances_antisym {x a b : Vec3}
    (hx : x.Norm2 = 1) (hA : a.Norm2 = 1) (hB : b.Norm2 = 1) :
    CompareDistances x b a = -(CompareDistances x a b) := by
  unfold CompareDistances CompareSin2Distances
  dsimp only
  rw [triageCosDistances_antisym x a b]
  by_cases h0 : TriageCompareCosDistances x a b = 0
  · rw [h0, neg_zero, if_neg (by norm_num : ¬ ((0 : ℤ) ≠ 0))]
    by_cases hab : a = b
    · rw [if_pos hab.symm, if_pos hab]
      simp
    · rw [if_neg (fun hh => hab hh.symm),
        if_neg (by norm_num : ¬ ((0 : ℤ) ≠ 0)), if_neg hab,
        triageSin2Distances_antisym x a b,
        exactCompareDistances_antisym x a b,
        symbolicCompareDistances_antisym hab]
      simp only [neg_neg]
      have hbound : |a.DotProd x - b.DotProd x| ≤ 22 * DBL_ERR := by
        have h1 := triageCosDistances_zero h0
        have h2 := cos_err_bound hA hx
        have h3 := cos_err_bound hB hx
        linarith [h1, h2, h3]
      have habs := abs_le.1 hbound
      have hM : (7 / 10 : ℚ) < M_SQRT1_2 := by unfold M_SQRT1_2; norm_num
      have heps : (22 : ℚ) * DBL_ERR < 1 / 1000 := by unfold DBL_ERR; norm_num
      set ca := a.DotProd x with hca
      set cb := b.DotProd x with hcb
      set S := TriageCompareSin2Distances x a b with hS
      set E := ExactCompareDistances x a b with hE
      set Y := SymbolicCompareDistances a b with hY
      have hSneFn : ¬ S = 0 → TriageCompareSin2Distances x a b ≠ 0 := by
        intro hz
        rw [← hS]
        exact hz
      have hpedFn : 0 < ca → 0 < cb → ¬ S = 0 → E = S := by
        intro h1 h2 h3
        rw [hE, hS]
        exact (exactDistances_eq_pos hA hB
            (by rw [Vec3.dot_comm x a, ← hca]; exact h1)
            (by rw [Vec3.dot_comm x b, ← hcb]; exact h2)).trans
          (sin2_decisive_eq hx hA hB (hSneFn h3)).symm
      have hnedFn : ca < 0 → cb < 0 → ¬ S = 0 → E = -S := by
        intro h1 h2 h3
        rw [hE, hS]
        rw [exactDistances_eq_neg hA hB
            (by rw [Vec3.dot_comm x a, ← hca]; exact h1)
            (by rw [Vec3.dot_comm x b, ← hcb]; exact h2),
          sin2_decisive_eq hx hA hB (hSneFn h3)]
      by_cases hca1 : ca > M_SQRT1_2
      · have hcapos : 0 < ca := by linarith
        have hcbpos : 0 < cb := by linarith [habs.2]
        have hcb2 : ¬ (cb < -M_SQRT1_2) := by linarith
        by_cases hcb1 : cb > M_SQRT1_2
        · rw [if_pos hcb1, if_pos hca1]
          exact cascade_antisym S E Y
        · rw [if_neg hcb1, if_neg hcb2, if_pos hca1,
            if_neg (by norm_num : ¬ ((0 : ℤ) ≠ 0))]
          by_cases hSz : S = 0
          · rw [hSz, if_neg (by norm_num : ¬ ((0 : ℤ) ≠ 0))]
            exact tail_antisym E Y
          · rw [if_pos hSz, hpedFn hcapos hcbpos hSz,
              if_pos (by simpa using hSz : -S ≠ 0)]
      · by_cases hca3 : ca < -M_SQRT1_2
        · have hcaneg : ca < 0 := by linarith
          have hcbneg : cb < 0 := by linarith [habs.1]
          have hcb1 : ¬ (cb > M_SQRT1_2) := by linarith
          by_cases hcb3 : cb < -M_SQRT1_2
          · rw [if_neg hcb1, if_pos hcb3, if_neg hca1, if_pos hca3]
            exact cascade_antisym' S E Y
          · rw [if_neg hcb1, if_neg hcb3, if_neg hca1, if_pos hca3,
              if_neg (by norm_num : ¬ ((0 : ℤ) ≠ 0))]
            by_cases hSz : S = 0
            · rw [hSz, neg_zero, if_neg (by norm_num : ¬ ((0 : ℤ) ≠ 0))]
              exact tail_antisym E Y
            · rw [if_pos (by simpa using hSz : -S ≠ 0),
                hnedFn hcaneg hcbneg hSz]
              simp only [neg_neg]
              rw [if_pos hSz]
        · rw [if_neg hca1, if_neg hca3,
            if_neg (by norm_num : ¬ ((0 : ℤ) ≠ 0))]
          by_cases hcb1 : cb > M_SQRT1_2
          · have hcbpos : 0 < cb := by linarith
            have hcapos : 0 < ca := by linarith [habs.1]
            rw [if_pos hcb1]
            by_cases hSz : S = 0
            · rw [hSz, neg_zero, if_neg (by norm_num : ¬ ((0 : ℤ) ≠ 0))]
              exact tail_antisym E Y
            · rw [if_pos (by simpa using hSz : -S ≠ 0),
                hpedFn hcapos hcbpos hSz, if_pos hSz]
          · by_cases hcb3 : cb < -M_SQRT1_2
            · have hcbneg : cb < 0 := by linarith
              have hcaneg : ca < 0 := by linarith [habs.2]
              rw [if_neg hcb1, if_pos hcb3]
              by_cases hSz : S = 0
              · rw [hSz, if_neg (by norm_num : ¬ ((0 : ℤ) ≠ 0))]
                exact tail_antisym E Y
              · rw [if_pos hSz, hnedFn hcaneg hcbneg hSz,
                  if_pos (by simpa using hSz : -S ≠ 0)]
                ring
            · rw [if_neg hcb1, if_neg hcb3,
                if_neg (by norm_num : ¬ ((0 : ℤ) ≠ 0))]
              exact tail_antisym E Y
  · rw [if_pos (by simpa using h0 : -TriageCompareCosDistances x a b ≠ 0),
      if_pos h0]

end s2pred

/-- C6: for all unit-length points x, a, b (the S2Point data-model
invariant): `CompareDistances(x,a,a) == 0`, and antisymmetry
`CompareDistances(x,a,b) == -CompareDistances(x,b,a)`, including the cases
where exact ties are resolved by symbolic perturbation. -/
theorem c6_compare_distances_symmetries (x a b : Vec3)
    (hx : x.Norm2 = 1) (ha : a.Norm2 = 1) (hb : b.Norm2 = 1) :
    s2pred.CompareDistances x a a = 0 ∧
    s2pred.CompareDistances x a b = -(s2pred.CompareDistances x b a) := by
  refine ⟨s2pred.compareDistances_self x a, ?_⟩
  have h := s2pred.compareDistances_antisym hx ha hb
  omega

/-- Witness for C6 at concrete unit-length rational points. -/
theorem c6_witness :
    s2pred.CompareDistances ⟨1, 0, 0⟩ ⟨3/5, 4/5, 0⟩ ⟨3/5, 4/5, 0⟩ = 0 ∧
    s2pred.CompareDistances ⟨1, 0, 0⟩ ⟨3/5, 4/5, 0⟩ ⟨0, 1, 0⟩ =
      -(s2pred.CompareDistances ⟨1, 0, 0⟩ ⟨0, 1, 0⟩ ⟨3/5, 4/5, 0⟩) :=
  c6_compare_distances_symmetries ⟨1, 0, 0⟩ ⟨3/5, 4/5, 0⟩ ⟨0, 1, 0⟩
    (by norm_num [Vec3.Norm2, Vec3.DotProd])
    (by norm_num [Vec3.Norm2, Vec3.DotProd])
    (by norm_num [Vec3.Norm2, Vec3.DotProd])

namespace S2Builder

theorem siteLoop_nil (sites : List Vec3) (vmap : List (ℕ × ℕ)) :
    siteLoop [] sites vmap = (sites, vmap) := by
  rw [siteLoop]

theorem siteLoop_cons (k : InputVertexKey) (rest : List InputVertexKey)
    (sites : List Vec3) (vmap : List (ℕ × ℕ)) :
    siteLoop (k :: rest) sites vmap =
      siteLoop (rest.dropWhile (fun k2 => k2.2.1 = k.2.1)) (sites ++ [k.2.1])
        (vmap ++ (k.2.2, sites.length) ::
          (rest.takeWhile (fun k2 => k2.2.1 = k.2.1)).map
            (fun k2 => (k2.2.2, sites.length))) := by
  rw [siteLoop]

end S2Builder

namespace S2Builder

theorem vkeyLe_total (k1 k2 : InputVertexKey) : vkeyLe k1 k2 ∨ vkeyLe k2 k1 := by
  unfold vkeyLe
  rcases lt_trichotomy k1.1 k2.1 with h | h | h
  · exact Or.inl (Or.inl h)
  · rcases Vec3.ltTricho k1.2.1 k2.2.1 with h2 | h2 | h2
    · exact Or.inl (Or.inr ⟨h, Or.inl h2⟩)
    · rcases Nat.le_total k1.2.2 k2.2.2 with h3 | h3
      · exact Or.inl (Or.inr ⟨h, Or.inr ⟨h2, h3⟩⟩)
      · exact Or.inr (Or.inr ⟨h.symm, Or.inr ⟨h2.symm, h3⟩⟩)
    · exact Or.inr (Or.inr ⟨h.symm, Or.inl h2⟩)
  · exact Or.inr (Or.inl h)

theorem vkeyLe_trans {k1 k2 k3 : InputVertexKey}
    (h1 : vkeyLe k1 k2) (h2 : vkeyLe k2 k3) : vkeyLe k1 k3 := by
  unfold vkeyLe at *
  rcases h1 with h1 | ⟨hc1, h1⟩ <;> rcases h2 with h2 | ⟨hc2, h2⟩
  · exact Or.inl (h1.trans h2)
  · exact Or.inl (hc2 ▸ h1)
  · exact Or.inl (hc1 ▸ h2)
  · refine Or.inr ⟨hc1.trans hc2, ?_⟩
    rcases h1 with h1 | ⟨hv1, h1⟩ <;> rcases h2 with h2 | ⟨hv2, h2⟩
    · exact Or.inl (Vec3.ltTrans h1 h2)
    · exact Or.inl (hv2 ▸ h1)
    · exact Or.inl (hv1 ▸ h2)
    · exact Or.inr ⟨hv1.trans hv2, h1.trans h2⟩

/-- In a sorted key list headed by `k0`, once the initial run of keys whose
vertex equals `k0`'s vertex has been dropped, no later key has that vertex
(duplicate points are adjacent in the sorted order because the cell id is a
function of the point). -/
theorem dropWhile_val_ne (cellId : Vec3 → ℤ) (k0 : InputVertexKey) :
    ∀ (rest : List InputVertexKey),
      List.Pairwise vkeyLe (k0 :: rest) →
      (∀ k ∈ k0 :: rest, k.1 = cellId k.2.1) →
      ∀ k', k' ∈ rest.dropWhile (fun k2 => k2.2.1 = k0.2.1) →
        ¬ (k'.2.1 = k0.2.1) := by
  intro rest
  induction rest with
  | nil => intro _ _ k' hk'; simp [List.dropWhile] at hk'
  | cons r rs ih =>
    intro hp hc k' hk'
    rw [List.dropWhile_cons] at hk'
    by_cases hr : r.2.1 = k0.2.1
    · rw [if_pos (by simpa using hr)] at hk'
      have h1 := List.pairwise_cons.1 hp
      have h2 := List.pairwise_cons.1 h1.2
      have hp' : List.Pairwise vkeyLe (k0 :: rs) :=
        List.pairwise_cons.2 ⟨fun k hk => h1.1 k (List.mem_cons_of_mem r hk), h2.2⟩
      have hc' : ∀ k ∈ k0 :: rs, k.1 = cellId k.2.1 := by
        intro k hk
        rcases List.mem_cons.1 hk with h | h
        · exact hc k (h ▸ List.mem_cons_self _ _)
        · exact hc k (List.mem_cons_of_mem _ (List.mem_cons_of_mem r h))
      exact ih hp' hc' k' hk'
    · rw [if_neg (by simpa using hr)] at hk'
      intro hval
      rcases List.mem_cons.1 hk' with h | h
      · exact hr (h ▸ hval)
      · have h1 := List.pairwise_cons.1 hp
        have hk0r : vkeyLe k0 r := h1.1 r (List.mem_cons_self _ _)
        have h2 := List.pairwise_cons.1 h1.2
        have hrk' : vkeyLe r k' := h2.1 k' h
        have hck0 : k0.1 = cellId k0.2.1 := hc k0 (List.mem_cons_self _ _)
        have hck' : k'.1 = cellId k'.2.1 :=
          hc k' (List.mem_cons_of_mem _ (List.mem_cons_of_mem r h))
        rw [hval] at hck'
        have hcc : k0.1 = k'.1 := by rw [hck0, hck']
        unfold vkeyLe at hk0r hrk'
        rcases hk0r with hlt | ⟨hce, hv⟩
        · rcases hrk' with hlt2 | ⟨hce2, _⟩ <;> omega
        · rcases hrk' with hlt2 | ⟨hce2, hv2⟩
          · omega
          · rcases hv with hvl | ⟨hve, _⟩
            · rcases hv2 with hvl2 | ⟨hve2, _⟩
              · rw [hval] at hvl2
                exact Vec3.ltAsymm hvl hvl2
              · exact hr (hve2.trans hval)
            · exact hr hve.symm

end S2Builder

namespace S2Builder

theorem getD_append_middle (l1 : List Vec3) (v : Vec3) (l2 : List Vec3) :
    (l1 ++ v :: l2).getD l1.length 0 = v := by
  unfold List.getD
  rw [List.get?_eq_getElem?, List.getElem?_append_right (Nat.le_refl _)]
  simp

theorem lookupVmap_head (vmap rm vext : List (ℕ × ℕ)) (i L : ℕ)
    (hv : ∀ q ∈ vmap, q.1 ≠ i) :
    lookupVmap ((vmap ++ (i, L) :: rm) ++ vext) i = L := by
  have h1 : vmap.find? (fun q => q.1 = i) = none :=
    List.find?_eq_none.2 (fun q hq => by simpa using hv q hq)
  have h2 : ((i, L) :: rm).find? (fun q => q.1 = i) = some (i, L) := by
    rw [List.find?_cons_of_pos]
    simp
  simp [lookupVmap, List.find?_append, h1, h2]

theorem lookupVmap_run (vmap rm vext : List (ℕ × ℕ)) (i0 i L : ℕ)
    (hv : ∀ q ∈ vmap, q.1 ≠ i) (hne : i0 ≠ i)
    (hex : ∃ q ∈ rm, q.1 = i) (hall : ∀ q ∈ rm, q.2 = L) :
    lookupVmap ((vmap ++ (i0, L) :: rm) ++ vext) i = L := by
  have h1 : vmap.find? (fun q => q.1 = i) = none :=
    List.find?_eq_none.2 (fun q hq => by simpa using hv q hq)
  have h2 : ((i0, L) :: (rm ++ vext)).find? (fun q => q.1 = i) =
      (rm ++ vext).find? (fun q => q.1 = i) := by
    rw [List.find?_cons_of_neg]
    simpa using hne
  have h3 : (rm.find? (fun q => q.1 = i)).isSome := by
    rw [List.find?_isSome]
    obtain ⟨q, hq, hqi⟩ := hex
    exact ⟨q, hq, by simpa using hqi⟩
  obtain ⟨q, hq⟩ := Option.isSome_iff_exists.1 h3
  have hqm := List.mem_of_find?_eq_some hq
  simp [lookupVmap, List.find?_append, h1, h2, hq, hall q hqm]

end S2Builder

namespace S2Builder

/-- The full correctness invariant of the site-accumulation loop of
`ChooseAllVerticesAsSites`: the accumulated site list is extended with the
first vertex of each run of duplicates, the result is duplicate-free, its
members are exactly the previous sites plus the key vertices, and the
vertex map sends every key's input-vertex id to the site holding that
key's vertex. -/
theorem siteLoop_spec (cellId : Vec3 → ℤ) :
    ∀ (n : ℕ) (keys : List InputVertexKey) (sites : List Vec3)
      (vmap : List (ℕ × ℕ)),
      keys.length ≤ n →
      List.Pairwise vkeyLe keys →
      (∀ k ∈ keys, k.1 = cellId k.2.1) →
      (∀ k ∈ keys, k.2.1 ∉ sites) →
      (∀ k ∈ keys, ∀ q ∈ vmap, q.1 ≠ k.2.2) →
      (keys.map (fun k => k.2.2)).Nodup →
      sites.Nodup →
      (∃ ext, (siteLoop keys sites vmap).1 = sites ++ ext) ∧
      (∃ vext, (siteLoop keys sites vmap).2 = vmap ++ vext) ∧
      (∀ v, v ∈ (siteLoop keys sites vmap).1 ↔
        v ∈ sites ∨ ∃ k, k ∈ keys ∧ k.2.1 = v) ∧
      (siteLoop keys sites vmap).1.Nodup ∧
      (∀ k, k ∈ keys →
        (siteLoop keys sites vmap).1.getD
          (lookupVmap (siteLoop keys sites vmap).2 k.2.2) 0 = k.2.1) := by
  intro n
  induction n with
  | zero =>
    intro keys sites vmap hn _ _ _ _ _ hns
    have hk : keys = [] := List.length_eq_zero.1 (Nat.le_zero.1 hn)
    subst hk
    rw [siteLoop_nil]
    exact ⟨⟨[], by simp⟩, ⟨[], by simp⟩, by intro v; simp, hns,
      by intro k hk; cases hk⟩
  | succ n ih =>
    intro keys sites vmap hn hp hc hnotin hfresh hids hns
    cases keys with
    | nil =>
      rw [siteLoop_nil]
      exact ⟨⟨[], by simp⟩, ⟨[], by simp⟩, by intro v; simp, hns,
        by intro k hk; cases hk⟩
    | cons k0 rest =>
      rw [siteLoop_cons]
      have hps := List.pairwise_cons.1 hp
      have hsubd : List.Sublist (rest.dropWhile (fun k2 => k2.2.1 = k0.2.1)) rest :=
        List.dropWhile_sublist _
      have hsubt : List.Sublist (rest.takeWhile (fun k2 => k2.2.1 = k0.2.1)) rest :=
        List.takeWhile_sublist _
      have hsplit : rest.takeWhile (fun k2 => k2.2.1 = k0.2.1) ++
          rest.dropWhile (fun k2 => k2.2.1 = k0.2.1) = rest :=
        List.takeWhile_append_dropWhile _ _
      have hrunval : ∀ k ∈ rest.takeWhile (fun k2 => k2.2.1 = k0.2.1),
          k.2.1 = k0.2.1 := by
        intro k hk
        simpa using List.mem_takeWhile_imp hk
      have hnoret : ∀ k' ∈ rest.dropWhile (fun k2 => k2.2.1 = k0.2.1),
          ¬ (k'.2.1 = k0.2.1) :=
        fun k' hk' => dropWhile_val_ne cellId k0 rest hp hc k' hk'
      have hmem_keys : ∀ k ∈ rest.dropWhile (fun k2 => k2.2.1 = k0.2.1),
          k ∈ k0 :: rest :=
        fun k hk => List.mem_cons_of_mem _ (hsubd.subset hk)
      have hlen2 : (rest.dropWhile (fun k2 => k2.2.1 = k0.2.1)).length ≤ n := by
        have h1 := hsubd.length_le
        simp only [List.length_cons] at hn
        omega
      have hp2 : List.Pairwise vkeyLe (rest.dropWhile (fun k2 => k2.2.1 = k0.2.1)) :=
        hps.2.sublist hsubd
      have hc2 : ∀ k ∈ rest.dropWhile (fun k2 => k2.2.1 = k0.2.1),
          k.1 = cellId k.2.1 :=
        fun k hk => hc k (hmem_keys k hk)
      have hnotin0 : ∀ k ∈ rest.dropWhile (fun k2 => k2.2.1 = k0.2.1),
          k.2.1 ∉ sites ++ [k0.2.1] := by
        intro k hk
        simp only [List.mem_append, List.mem_singleton]
        rintro (h | h)
        · exact hnotin k (hmem_keys k hk) h
        · exact hnoret k hk h
      have hids' := hids
      simp only [List.map_cons, List.nodup_cons] at hids'
      have hdisj : ∀ a ∈ (rest.takeWhile (fun k2 => k2.2.1 = k0.2.1)).map
          (fun k => k.2.2),
          a ∉ (rest.dropWhile (fun k2 => k2.2.1 = k0.2.1)).map (fun k => k.2.2) := by
        have hnd : ((rest.takeWhile (fun k2 => k2.2.1 = k0.2.1)).map (fun k => k.2.2) ++
            (rest.dropWhile (fun k2 => k2.2.1 = k0.2.1)).map (fun k => k.2.2)).Nodup := by
          rw [← List.map_append, hsplit]
          exact hids'.2
        exact fun a ha hb => (List.nodup_append.1 hnd).2.2 ha hb
      have hfresh2 : ∀ k ∈ rest.dropWhile (fun k2 => k2.2.1 = k0.2.1),
          ∀ q ∈ vmap ++ (k0.2.2, sites.length) ::
            (rest.takeWhile (fun k2 => k2.2.1 = k0.2.1)).map
              (fun k2 => (k2.2.2, sites.length)),
          q.1 ≠ k.2.2 := by
        intro k hk q hq
        rcases List.mem_append.1 hq with hq | hq
        · exact hfresh k (hmem_keys k hk) q hq
        · rcases List.mem_cons.1 hq with hq | hq
          · intro he
            apply hids'.1
            rw [hq] at he
            have he' : k0.2.2 = k.2.2 := he
            rw [he']
            exact List.mem_map_of_mem _ (hsubd.subset hk)
          · obtain ⟨k2, hk2, rfl⟩ := List.mem_map.1 hq
            intro he
            have he' : k2.2.2 = k.2.2 := he
            refine hdisj k2.2.2 (List.mem_map_of_mem _ hk2) ?_
            rw [he']
            exact List.mem_map_of_mem _ hk
      have hids2 : ((rest.dropWhile (fun k2 => k2.2.1 = k0.2.1)).map
          (fun k => k.2.2)).Nodup :=
        hids'.2.sublist (hsubd.map _)
      have hns0 : (sites ++ [k0.2.1]).Nodup := by
        rw [List.nodup_append]
        refine ⟨hns, List.nodup_singleton _, ?_⟩
        intro a ha hb
        rw [List.mem_singleton] at hb
        exact hnotin k0 (List.mem_cons_self _ _) (hb ▸ ha)
      obtain ⟨⟨ext, hext⟩, ⟨vext, hvext⟩, hmem, hnd, hlook⟩ :=
        ih (rest.dropWhile (fun k2 => k2.2.1 = k0.2.1)) (sites ++ [k0.2.1])
          (vmap ++ (k0.2.2, sites.length) ::
            (rest.takeWhile (fun k2 => k2.2.1 = k0.2.1)).map
              (fun k2 => (k2.2.2, sites.length)))
          hlen2 hp2 hc2 hnotin0 hfresh2 hids2 hns0
      refine ⟨⟨k0.2.1 :: ext, by rw [hext]; simp⟩,
        ⟨(k0.2.2, sites.length) ::
          (rest.takeWhile (fun k2 => k2.2.1 = k0.2.1)).map
            (fun k2 => (k2.2.2, sites.length)) ++ vext,
          by rw [hvext]; simp⟩, ?_, hnd, ?_⟩
      · intro v
        rw [hmem v]
        constructor
        · rintro (hv | ⟨k, hk, hkv⟩)
          · rcases List.mem_append.1 hv with hv | hv
            · exact Or.inl hv
            · rw [List.mem_singleton] at hv
              exact Or.inr ⟨k0, List.mem_cons_self _ _, hv.symm⟩
          · exact Or.inr ⟨k, hmem_keys k hk, hkv⟩
        · rintro (hv | ⟨k, hk, hkv⟩)
          · exact Or.inl (List.mem_append.2 (Or.inl hv))
          · rcases List.mem_cons.1 hk with hk | hk
            · refine Or.inl (List.mem_append.2 (Or.inr ?_))
              rw [List.mem_singleton, ← hkv, hk]
            · rw [← hsplit] at hk
              rcases List.mem_append.1 hk with hk | hk
              · refine Or.inl (List.mem_append.2 (Or.inr ?_))
                rw [List.mem_singleton, ← hkv, hrunval k hk]
              · exact Or.inr ⟨k, hk, hkv⟩
      · intro k hk
        rcases List.mem_cons.1 hk with hkc | hkc
        · have hfk : ∀ q ∈ vmap, q.1 ≠ k0.2.2 :=
            hfresh k0 (List.mem_cons_self _ _)
          rw [hkc, hvext, lookupVmap_head _ _ _ _ _ hfk, hext, List.append_assoc]
          exact getD_append_middle sites _ ext
        · rw [← hsplit] at hkc
          rcases List.mem_append.1 hkc with hkr | hk2
          · have hfk : ∀ q ∈ vmap, q.1 ≠ k.2.2 :=
              hfresh k (List.mem_cons_of_mem _ (hsubt.subset hkr))
            have hne : k0.2.2 ≠ k.2.2 := by
              intro he
              exact hids'.1 (he ▸ List.mem_map_of_mem _ (hsubt.subset hkr))
            have hex : ∃ q ∈ (rest.takeWhile (fun k2 => k2.2.1 = k0.2.1)).map
                (fun k2 => (k2.2.2, sites.length)), q.1 = k.2.2 :=
              ⟨(k.2.2, sites.length), List.mem_map_of_mem _ hkr, rfl⟩
            have hall : ∀ q ∈ (rest.takeWhile (fun k2 => k2.2.1 = k0.2.1)).map
                (fun k2 => (k2.2.2, sites.length)), q.2 = sites.length := by
              intro q hq
              obtain ⟨k2, _, rfl⟩ := List.mem_map.1 hq
              rfl
            rw [hvext, lookupVmap_run _ _ _ _ _ _ hfk hne hex hall, hext,
              List.append_assoc, hrunval k hkr]
            exact getD_append_middle sites _ ext
          · exact hlook k hk2

end S2Builder

namespace S2Builder

theorem sortInputVertices_pairwise (cellId : Vec3 → ℤ) (vs : List Vec3) :
    List.Pairwise vkeyLe (SortInputVertices cellId vs) := by
  haveI : IsTotal InputVertexKey vkeyLe := ⟨vkeyLe_total⟩
  haveI : IsTrans InputVertexKey vkeyLe := ⟨fun _ _ _ h1 h2 => vkeyLe_trans h1 h2⟩
  exact List.sorted_insertionSort vkeyLe _

end S2Builder

/-- C8: on the no-snapping fast path, the site list is the set of input
vertices with exact duplicates removed (no duplicates; same members), the
input vertices are replaced by the sites so that input vertex ids equal
site ids, every renumbered vertex id points at the site holding that
vertex's position, and each input edge snaps to exactly the chain of its
two renumbered endpoints. -/
theorem c8_choose_all_vertices_fast_path (cellId : Vec3 → ℤ) (st : S2Builder.FastState) :
    (S2Builder.ChooseAllVerticesAsSites cellId st).sites.Nodup ∧
    (∀ v, v ∈ (S2Builder.ChooseAllVerticesAsSites cellId st).sites ↔
      v ∈ st.input_vertices) ∧
    (S2Builder.ChooseAllVerticesAsSites cellId st).input_vertices =
      (S2Builder.ChooseAllVerticesAsSites cellId st).sites ∧
    (∀ i, i < st.input_vertices.length →
      (S2Builder.ChooseAllVerticesAsSites cellId st).sites.getD
        (S2Builder.lookupVmap
          (S2Builder.siteLoop
            (S2Builder.SortInputVertices cellId st.input_vertices) [] []).2 i) 0 =
        st.input_vertices.getD i 0) ∧
    (∀ e, e < st.input_edges.length →
      S2Builder.SnapEdgeNoSnap (S2Builder.ChooseAllVerticesAsSites cellId st) e =
        [S2Builder.lookupVmap
          (S2Builder.siteLoop
            (S2Builder.SortInputVertices cellId st.input_vertices) [] []).2
          (st.input_edges.getD e (0, 0)).1,
         S2Builder.lookupVmap
          (S2Builder.siteLoop
            (S2Builder.SortInputVertices cellId st.input_vertices) [] []).2
          (st.input_edges.getD e (0, 0)).2]) := by
  have hpw := S2Builder.sortInputVertices_pairwise cellId st.input_vertices
  have hperm : List.Perm (S2Builder.SortInputVertices cellId st.input_vertices)
      (st.input_vertices.enum.map (fun p => (cellId p.2, p.2, p.1))) :=
    List.perm_insertionSort _ _
  have hc0 : ∀ k ∈ S2Builder.SortInputVertices cellId st.input_vertices,
      k.1 = cellId k.2.1 := by
    intro k hk
    obtain ⟨p, _, rfl⟩ := List.mem_map.1 (hperm.subset hk)
    rfl
  have hids0 : ((S2Builder.SortInputVertices cellId st.input_vertices).map
      (fun k => k.2.2)).Nodup := by
    have h1 : ((st.input_vertices.enum.map
        (fun p => (cellId p.2, p.2, p.1))).map (fun k => k.2.2)) =
        st.input_vertices.enum.map Prod.fst := by
      rw [List.map_map]
      rfl
    have h2 : (st.input_vertices.enum.map Prod.fst).Nodup := by
      rw [List.enum_map_fst]
      exact List.nodup_range _
    exact ((hperm.map (fun k => k.2.2)).nodup_iff).2 (h1 ▸ h2)
  obtain ⟨-, -, hmem, hnd, hlook⟩ :=
    S2Builder.siteLoop_spec cellId
      (S2Builder.SortInputVertices cellId st.input_vertices).length
      (S2Builder.SortInputVertices cellId st.input_vertices) [] []
      (le_refl _) hpw hc0 (by intro k _; simp)
      (by intro k _ q hq; simp at hq) hids0 List.nodup_nil
  have hmem_vs : ∀ v,
      (∃ k, k ∈ S2Builder.SortInputVertices cellId st.input_vertices ∧ k.2.1 = v) ↔
      v ∈ st.input_vertices := by
    intro v
    constructor
    · rintro ⟨k, hk, rfl⟩
      obtain ⟨p, hp, rfl⟩ := List.mem_map.1 (hperm.subset hk)
      exact List.getElem?_mem (List.mem_enum_iff_getElem?.1 hp)
    · intro hv
      obtain ⟨i, hi, hgi⟩ := List.mem_iff_getElem.1 hv
      refine ⟨(cellId v, v, i), ?_, rfl⟩
      rw [hperm.mem_iff]
      refine List.mem_map.2 ⟨(i, v), ?_, rfl⟩
      rw [List.mem_enum_iff_getElem?, List.getElem?_eq_getElem hi, hgi]
  refine ⟨hnd, ?_, rfl, ?_, ?_⟩
  · intro v
    have h := hmem v
    simp only [List.not_mem_nil, false_or] at h
    exact h.trans (hmem_vs v)
  · intro i hi
    have hkmem : (cellId (st.input_vertices.getD i 0),
        st.input_vertices.getD i 0, i) ∈
        S2Builder.SortInputVertices cellId st.input_vertices := by
      rw [hperm.mem_iff]
      refine List.mem_map.2 ⟨(i, st.input_vertices.getD i 0), ?_, rfl⟩
      rw [List.mem_enum_iff_getElem?, List.getD_eq_getElem _ _ hi]
      exact List.getElem?_eq_getElem hi
    exact hlook _ hkmem
  · intro e he
    unfold S2Builder.SnapEdgeNoSnap
    have hm : (S2Builder.ChooseAllVerticesAsSites cellId st).input_edges.getD e (0, 0) =
        (S2Builder.lookupVmap
          (S2Builder.siteLoop
            (S2Builder.SortInputVertices cellId st.input_vertices) [] []).2
          (st.input_edges.getD e (0, 0)).1,
         S2Builder.lookupVmap
          (S2Builder.siteLoop
            (S2Builder.SortInputVertices cellId st.input_vertices) [] []).2
          (st.input_edges.getD e (0, 0)).2) := by
      show (st.input_edges.map _).getD e (0, 0) = _
      rw [List.getD_eq_getElem _ _ (by simpa using he), List.getElem_map,
        List.getD_eq_getElem _ _ he]
    rw [hm]

/-- Witness for C8: three input vertices with one exact duplicate and the
edge (0,2); the duplicate vertex's renumbered id points at its site and the
edge snaps to its two renumbered endpoints. -/
theorem c8_witness :
    2 < ([⟨1, 0, 0⟩, ⟨0, 1, 0⟩, ⟨1, 0, 0⟩] : List Vec3).length ∧
    0 < ([(0, 2), (1, 0)] : List (ℕ × ℕ)).length ∧
    (S2Builder.ChooseAllVerticesAsSites (fun _ => (0 : ℤ))
        ⟨[⟨1, 0, 0⟩, ⟨0, 1, 0⟩, ⟨1, 0, 0⟩], [(0, 2), (1, 0)], []⟩).sites.getD
      (S2Builder.lookupVmap
        (S2Builder.siteLoop
          (S2Builder.SortInputVertices (fun _ => (0 : ℤ))
            [⟨1, 0, 0⟩, ⟨0, 1, 0⟩, ⟨1, 0, 0⟩]) [] []).2 2) 0 =
      ([⟨1, 0, 0⟩, ⟨0, 1, 0⟩, ⟨1, 0, 0⟩] : List Vec3).getD 2 0 ∧
    S2Builder.SnapEdgeNoSnap
      (S2Builder.ChooseAllVerticesAsSites (fun _ => (0 : ℤ))
        ⟨[⟨1, 0, 0⟩, ⟨0, 1, 0⟩, ⟨1, 0, 0⟩], [(0, 2), (1, 0)], []⟩) 0 =
      [S2Builder.lookupVmap
        (S2Builder.siteLoop
          (S2Builder.SortInputVertices (fun _ => (0 : ℤ))
            [⟨1, 0, 0⟩, ⟨0, 1, 0⟩, ⟨1, 0, 0⟩]) [] []).2
        (([(0, 2), (1, 0)] : List (ℕ × ℕ)).getD 0 (0, 0)).1,
       S2Builder.lookupVmap
        (S2Builder.siteLoop
          (S2Builder.SortInputVertices (fun _ => (0 : ℤ))
            [⟨1, 0, 0⟩, ⟨0, 1, 0⟩, ⟨1, 0, 0⟩]) [] []).2
        (([(0, 2), (1, 0)] : List (ℕ × ℕ)).getD 0 (0, 0)).2] := by
  obtain ⟨-, -, -, h4, h5⟩ := c8_choose_all_vertices_fast_path (fun _ => (0 : ℤ))
    ⟨[⟨1, 0, 0⟩, ⟨0, 1, 0⟩, ⟨1, 0, 0⟩], [(0, 2), (1, 0)], []⟩
  exact ⟨by decide, by decide, h4 2 (by decide), h5 0 (by decide)⟩

namespace S2Builder

theorem snapSite_error_cases (opts : Options) (snapF : Vec3 → Vec3)
    (st : BuildState) (point : Vec3) :
    (SnapSite opts snapF st point).2.error = st.error ∨
    (SnapSite opts snapF st point).2.error =
      ErrorKind.BUILDER_SNAP_RADIUS_TOO_SMALL := by
  unfold SnapSite
  by_cases h1 : opts.snapping_requested = true
  · rw [if_neg (by simp [h1])]
    dsimp only
    by_cases h2 : opts.site_snap_radius_ca < (snapF point - point).Norm2
    · rw [if_pos h2]
      exact Or.inr rfl
    · rw [if_neg h2]
      exact Or.inl rfl
  · rw [if_pos h1]
    exact Or.inl rfl

theorem snapSite_error_bad (opts : Options) (snapF : Vec3 → Vec3)
    (st : BuildState) (point : Vec3)
    (hreq : opts.snapping_requested = true)
    (hmov : opts.site_snap_radius_ca < (snapF point - point).Norm2) :
    (SnapSite opts snapF st point).2.error =
      ErrorKind.BUILDER_SNAP_RADIUS_TOO_SMALL := by
  unfold SnapSite
  rw [if_neg (by simp [hreq])]
  dsimp only
  rw [if_pos hmov]

theorem snapSite_unmodelled (opts : Options) (snapF : Vec3 → Vec3)
    (st : BuildState) (point : Vec3) :
    (SnapSite opts snapF st point).2.unmodelled = st.unmodelled := by
  unfold SnapSite
  by_cases h1 : opts.snapping_requested = true
  · rw [if_neg (by simp [h1])]
    dsimp only
    by_cases h2 : opts.site_snap_radius_ca < (snapF point - point).Norm2
    · rw [if_pos h2]
    · rw [if_neg h2]
  · rw [if_pos h1]

theorem sepFoldl_fields (opts : Options) (site : Vec3) :
    ∀ (l : List Vec3) (acc : Bool × BuildState),
      ((l.foldl (fun acc s =>
        if s2pred.CompareDistance site s opts.min_site_separation_ca ≤ 0 then
          (false, { acc.2 with
            snapping_needed := acc.2.snapping_needed || decide (site ≠ s) })
        else acc) acc).2).error = acc.2.error ∧
      ((l.foldl (fun acc s =>
        if s2pred.CompareDistance site s opts.min_site_separation_ca ≤ 0 then
          (false, { acc.2 with
            snapping_needed := acc.2.snapping_needed || decide (site ≠ s) })
        else acc) acc).2).unmodelled = acc.2.unmodelled := by
  intro l
  induction l with
  | nil => intro acc; exact ⟨rfl, rfl⟩
  | cons s l ih =>
    intro acc
    rw [List.foldl_cons]
    by_cases hcond : s2pred.CompareDistance site s opts.min_site_separation_ca ≤ 0
    · rw [if_pos hcond]
      exact ih _
    · rw [if_neg hcond]
      exact ih _

theorem chooseInitialStep_fields (opts : Options) (snapF : Vec3 → Vec3)
    (st : BuildState) (vertex : Vec3) :
    (chooseInitialStep opts snapF st vertex).error =
      (SnapSite opts snapF st vertex).2.error ∧
    (chooseInitialStep opts snapF st vertex).unmodelled = st.unmodelled := by
  unfold chooseInitialStep
  dsimp only
  by_cases hr : opts.site_snap_radius_ca = 0
  · rw [if_pos hr]
    constructor
    · split <;> rfl
    · rw [show ∀ b : BuildState, b.unmodelled = b.unmodelled from fun _ => rfl]
      split <;> exact snapSite_unmodelled opts snapF st vertex
  · rw [if_neg hr]
    have hf := sepFoldl_fields opts (SnapSite opts snapF st vertex).1
    constructor
    · split
      · exact (hf _ _).1
      · exact (hf _ _).1
    · split
      · exact ((hf _ _).2).trans (snapSite_unmodelled opts snapF st vertex)
      · exact ((hf _ _).2).trans (snapSite_unmodelled opts snapF st vertex)

end S2Builder

namespace S2Builder

theorem foldl_bad_persist (opts : Options) (snapF : Vec3 → Vec3) (vs : List Vec3) :
    ∀ (keys : List InputVertexKey) (st : BuildState),
      st.error = ErrorKind.BUILDER_SNAP_RADIUS_TOO_SMALL →
      (keys.foldl (fun st key => chooseInitialStep opts snapF st (vs.getD key.2.2 0))
        st).error = ErrorKind.BUILDER_SNAP_RADIUS_TOO_SMALL := by
  intro keys
  induction keys with
  | nil => intro st h; exact h
  | cons k ks ih =>
    intro st h
    rw [List.foldl_cons]
    apply ih
    have h1 := (chooseInitialStep_fields opts snapF st (vs.getD k.2.2 0)).1
    rcases snapSite_error_cases opts snapF st (vs.getD k.2.2 0) with h2 | h2
    · rw [h1, h2, h]
    · rw [h1, h2]

theorem foldl_bad_trigger (opts : Options) (snapF : Vec3 → Vec3) (vs : List Vec3)
    (hreq : opts.snapping_requested = true) :
    ∀ (keys : List InputVertexKey) (st : BuildState) (k0 : InputVertexKey),
      k0 ∈ keys →
      opts.site_snap_radius_ca <
        (snapF (vs.getD k0.2.2 0) - vs.getD k0.2.2 0).Norm2 →
      (keys.foldl (fun st key => chooseInitialStep opts snapF st (vs.getD key.2.2 0))
        st).error = ErrorKind.BUILDER_SNAP_RADIUS_TOO_SMALL := by
  intro keys
  induction keys with
  | nil => intro st k0 hk; cases hk
  | cons k ks ih =>
    intro st k0 hk hmov
    rw [List.foldl_cons]
    rcases List.mem_cons.1 hk with hk | hk
    · apply foldl_bad_persist opts snapF vs
      have h1 := (chooseInitialStep_fields opts snapF st (vs.getD k.2.2 0)).1
      rw [h1, ← hk]
      exact snapSite_error_bad opts snapF st (vs.getD k0.2.2 0) hreq hmov
    · exact ih _ k0 hk hmov

theorem chooseInitialSites_unmodelled (opts : Options) (snapF : Vec3 → Vec3)
    (cellId : Vec3 → ℤ) (vs : List Vec3) :
    ∀ (st : BuildState),
      (ChooseInitialSites opts snapF cellId vs st).unmodelled = st.unmodelled := by
  unfold ChooseInitialSites
  generalize SortInputVertices cellId vs = keys
  induction keys with
  | nil => intro st; rfl
  | cons k ks ih =>
    intro st
    rw [List.foldl_cons, ih _]
    exact (chooseInitialStep_fields opts snapF st (vs.getD k.2.2 0)).2

theorem chooseSites_eq (opts : Options) (snapF : Vec3 → Vec3) (cellId : Vec3 → ℤ)
    (vs forced : List Vec3) (st : BuildState)
    (hne : vs ≠ []) (hsplit : opts.split_crossing_edges = false)
    (hreq : opts.snapping_requested = true) :
    ChooseSites opts snapF cellId vs forced [] st =
      (if (ChooseInitialSites opts snapF cellId vs
            (AddForcedSites forced st)).snapping_needed then
        ChooseInitialSites opts snapF cellId vs (AddForcedSites forced st)
      else
        { ChooseInitialSites opts snapF cellId vs (AddForcedSites forced st) with
          sites := (siteLoop (SortInputVertices cellId vs) [] []).1 }) := by
  unfold ChooseSites
  rw [if_neg hne]
  dsimp only
  rw [if_neg (show ¬(opts.split_crossing_edges = true) from by simp [hsplit]),
    if_pos hreq, if_pos (rfl : ([] : List (ℕ × ℕ)) = []),
    if_pos (rfl : ([] : List (ℕ × ℕ)) = [])]

end S2Builder

namespace S2Builder

/-- Core of the snap-radius failure analysis: when the snap function moves
some input vertex farther than the snap radius, `Build` ends with the
`BUILDER_SNAP_RADIUS_TOO_SMALL` error and returns false, yet still invokes
every layer's `Build` method (`delivered = num_layers`), with the whole run
inside the modelled fragment. -/
theorem build_snap_radius_core (opts : Options) (snapF : Vec3 → Vec3)
    (cellId : Vec3 → ℤ) (input_vertices forced : List Vec3) (num_layers : ℕ)
    (hreq : opts.snapping_requested = true)
    (hsplit : opts.split_crossing_edges = false)
    (hbad : ∃ v ∈ input_vertices,
      opts.site_snap_radius_ca < (snapF v - v).Norm2) :
    (Build opts snapF cellId input_vertices forced [] num_layers).1.error =
      ErrorKind.BUILDER_SNAP_RADIUS_TOO_SMALL ∧
    (Build opts snapF cellId input_vertices forced [] num_layers).2 = false ∧
    (Build opts snapF cellId input_vertices forced [] num_layers).1.delivered =
      num_layers ∧
    (Build opts snapF cellId input_vertices forced [] num_layers).1.unmodelled =
      false := by
  obtain ⟨v, hv, hmv⟩ := hbad
  have hne : input_vertices ≠ [] := List.ne_nil_of_mem hv
  obtain ⟨i, hi, hgi⟩ := List.mem_iff_getElem.1 hv
  have hgD : input_vertices.getD i 0 = v := by
    rw [List.getD_eq_getElem _ _ hi, hgi]
  have hkmem : ((cellId v, v, i) : InputVertexKey) ∈
      SortInputVertices cellId input_vertices := by
    have hperm : List.Perm (SortInputVertices cellId input_vertices)
        (input_vertices.enum.map (fun p => (cellId p.2, p.2, p.1))) :=
      List.perm_insertionSort _ _
    rw [hperm.mem_iff]
    refine List.mem_map.2 ⟨(i, v), ?_, rfl⟩
    rw [List.mem_enum_iff_getElem?, List.getElem?_eq_getElem hi, hgi]
  have htrig : ∀ st : BuildState,
      (ChooseInitialSites opts snapF cellId input_vertices st).error =
        ErrorKind.BUILDER_SNAP_RADIUS_TOO_SMALL := by
    intro st
    unfold ChooseInitialSites
    refine foldl_bad_trigger opts snapF input_vertices hreq _ st
      ((cellId v, v, i) : InputVertexKey) hkmem ?_
    show opts.site_snap_radius_ca <
      (snapF (input_vertices.getD i 0) - input_vertices.getD i 0).Norm2
    rw [hgD]
    exact hmv
  have hst1 := chooseSites_eq opts snapF cellId input_vertices forced
    { sites := [], num_forced_sites := 0,
      snapping_needed := opts.snapping_requested && !opts.idempotent,
      error := ErrorKind.OK, delivered := 0, unmodelled := false }
    hne hsplit hreq
  unfold Build BuildLayers
  dsimp only
  rw [hst1, if_pos (rfl : ([] : List (ℕ × ℕ)) = [])]
  by_cases hsn : (ChooseInitialSites opts snapF cellId input_vertices
      (AddForcedSites forced
        { sites := [], num_forced_sites := 0,
          snapping_needed := opts.snapping_requested && !opts.idempotent,
          error := ErrorKind.OK, delivered := 0,
          unmodelled := false })).snapping_needed = true
  · rw [if_pos hsn]
    refine ⟨htrig _, ?_, rfl, ?_⟩
    · exact decide_eq_false (fun h => absurd ((htrig _).symm.trans h) (by decide))
    · exact chooseInitialSites_unmodelled opts snapF cellId input_vertices _
  · rw [if_neg hsn]
    refine ⟨htrig _, ?_, rfl, ?_⟩
    · exact decide_eq_false (fun h => absurd ((htrig _).symm.trans h) (by decide))
    · exact chooseInitialSites_unmodelled opts snapF cellId input_vertices _

end S2Builder

/-- C4 counterexample to "no partial output graph is delivered to any
layer": one input vertex that the snap function moves by far more than the
snap radius.  `Build` records `BUILDER_SNAP_RADIUS_TOO_SMALL` and returns
false, yet the single configured layer still receives its graph
(`delivered = 1`), because `BuildLayers` never consults the error object. -/
theorem c4_counterexample :
    (S2Builder.Build ⟨true, true, false, 1/100, 0⟩ (fun _ => ⟨0, 1, 0⟩)
        (fun _ => 0) [⟨1, 0, 0⟩] [] [] 1).1.error =
      S2Builder.ErrorKind.BUILDER_SNAP_RADIUS_TOO_SMALL ∧
    (S2Builder.Build ⟨true, true, false, 1/100, 0⟩ (fun _ => ⟨0, 1, 0⟩)
        (fun _ => 0) [⟨1, 0, 0⟩] [] [] 1).2 = false ∧
    (S2Builder.Build ⟨true, true, false, 1/100, 0⟩ (fun _ => ⟨0, 1, 0⟩)
        (fun _ => 0) [⟨1, 0, 0⟩] [] [] 1).1.delivered = 1 := by
  obtain ⟨h1, h2, h3, -⟩ := S2Builder.build_snap_radius_core
    ⟨true, true, false, 1/100, 0⟩ (fun _ => ⟨0, 1, 0⟩) (fun _ => 0)
    [⟨1, 0, 0⟩] [] 1 rfl rfl
    ⟨⟨1, 0, 0⟩, by simp, by norm_num [Vec3.Norm2, Vec3.DotProd, Vec3.sub_def]⟩
  exact ⟨h1, h2, h3⟩

/-- C4 (amended): if the snap function moves some input vertex by more
than the snap radius, `Build` populates the error with
`BUILDER_SNAP_RADIUS_TOO_SMALL` and returns false — but the output graphs
are still delivered to every configured layer. -/
theorem c4_snap_radius_error (opts : S2Builder.Options) (snapF : Vec3 → Vec3)
    (cellId : Vec3 → ℤ) (input_vertices forced : List Vec3) (num_layers : ℕ)
    (hreq : opts.snapping_requested = true)
    (hsplit : opts.split_crossing_edges = false)
    (hbad : ∃ v ∈ input_vertices,
      opts.site_snap_radius_ca < (snapF v - v).Norm2) :
    (S2Builder.Build opts snapF cellId input_vertices forced []
        num_layers).1.error = S2Builder.ErrorKind.BUILDER_SNAP_RADIUS_TOO_SMALL ∧
    (S2Builder.Build opts snapF cellId input_vertices forced [] num_layers).2 =
      false ∧
    (S2Builder.Build opts snapF cellId input_vertices forced []
        num_layers).1.delivered = num_layers ∧
    (S2Builder.Build opts snapF cellId input_vertices forced []
        num_layers).1.unmodelled = false :=
  S2Builder.build_snap_radius_core opts snapF cellId input_vertices forced
    num_layers hreq hsplit hbad

/-- Witness for C4 at a concrete configuration with two layers. -/
theorem c4_witness :
    (⟨true, true, false, 1/100, 0⟩ : S2Builder.Options).snapping_requested =
      true ∧
    (⟨true, true, false, 1/100, 0⟩ : S2Builder.Options).split_crossing_edges =
      false ∧
    (∃ v ∈ ([⟨1, 0, 0⟩] : List Vec3),
      (⟨true, true, false, 1/100, 0⟩ : S2Builder.Options).site_snap_radius_ca <
        ((fun _ => (⟨0, 1, 0⟩ : Vec3)) v - v).Norm2) ∧
    (S2Builder.Build ⟨true, true, false, 1/100, 0⟩ (fun _ => ⟨0, 1, 0⟩)
        (fun _ => 0) [⟨1, 0, 0⟩] [] [] 2).1.error =
      S2Builder.ErrorKind.BUILDER_SNAP_RADIUS_TOO_SMALL ∧
    (S2Builder.Build ⟨true, true, false, 1/100, 0⟩ (fun _ => ⟨0, 1, 0⟩)
        (fun _ => 0) [⟨1, 0, 0⟩] [] [] 2).2 = false ∧
    (S2Builder.Build ⟨true, true, false, 1/100, 0⟩ (fun _ => ⟨0, 1, 0⟩)
        (fun _ => 0) [⟨1, 0, 0⟩] [] [] 2).1.delivered = 2 := by
  obtain ⟨h1, h2, h3, -⟩ := c4_snap_radius_error
    ⟨true, true, false, 1/100, 0⟩ (fun _ => ⟨0, 1, 0⟩) (fun _ => 0)
    [⟨1, 0, 0⟩] [] 2 rfl rfl
    ⟨⟨1, 0, 0⟩, by simp, by norm_num [Vec3.Norm2, Vec3.DotProd, Vec3.sub_def]⟩
  exact ⟨rfl, rfl,
    ⟨⟨1, 0, 0⟩, by simp, by norm_num [Vec3.Norm2, Vec3.DotProd, Vec3.sub_def]⟩,
    h1, h2, h3⟩

theorem Vec3.dot_neg_right (v w : Vec3) : v.DotProd (-w) = -(v.DotProd w) := by
  unfold Vec3.DotProd
  simp only [Vec3.neg_def]
  ring

theorem Vec3.add_dot (u v w : Vec3) :
    (u + v).DotProd w = u.DotProd w + v.DotProd w := by
  unfold Vec3.DotProd
  simp only [Vec3.add_def]
  ring

theorem Vec3.zero_cross (v : Vec3) : (0 : Vec3).CrossProd v = 0 := by
  unfold Vec3.CrossProd
  simp only [Vec3.zero_def, Vec3.ext_iff]
  norm_num

theorem Vec3.cross_zero (v : Vec3) : v.CrossProd (0 : Vec3) = 0 := by
  unfold Vec3.CrossProd
  simp only [Vec3.zero_def, Vec3.ext_iff]
  norm_num

theorem Vec3.cross_neg_right (v w : Vec3) : v.CrossProd (-w) = -(v.CrossProd w) := by
  unfold Vec3.CrossProd
  simp only [Vec3.neg_def, Vec3.ext_iff]
  exact ⟨by ring, by ring, by ring⟩

/-- Triple-product expansion `u × (v × w) = (u·w) v − (u·v) w`. -/
theorem Vec3.triple_prod (u v w : Vec3) :
    u.CrossProd (v.CrossProd w) = (u.DotProd w) • v - (u.DotProd v) • w := by
  unfold Vec3.CrossProd Vec3.DotProd
  simp only [Vec3.smul_def, Vec3.sub_def, Vec3.ext_iff]
  exact ⟨by ring, by ring, by ring⟩

theorem Vec3.smul_cancel {c : ℚ} {v : Vec3} (h : c • v = 0) (hv : v ≠ 0) : c = 0 := by
  by_contra hc
  exact Vec3.smul_ne_zero' hc hv h

/-- Coefficients of a vanishing combination of two independent vectors are
zero. -/
theorem Vec3.coeff_zero {b0 b1 : Vec3} (hnb : b0.CrossProd b1 ≠ 0) {c d : ℚ}
    (h : c • b0 + d • b1 = 0) : c = 0 ∧ d = 0 := by
  have hb0 : b0 ≠ 0 := fun h0 => hnb (by rw [h0]; exact Vec3.zero_cross _)
  have hb1 : b1 ≠ 0 := fun h0 => hnb (by rw [h0]; exact Vec3.cross_zero _)
  have h1 : c • (b0.CrossProd b1) = 0 := by
    have h2 : (c • b0 + d • b1).CrossProd b1 = (0 : Vec3).CrossProd b1 := by rw [h]
    rw [Vec3.zero_cross] at h2
    rw [← h2]
    unfold Vec3.CrossProd
    simp only [Vec3.smul_def, Vec3.add_def, Vec3.ext_iff]
    exact ⟨by ring, by ring, by ring⟩
  have hc := Vec3.smul_cancel h1 hnb
  refine ⟨hc, ?_⟩
  rw [hc] at h
  have h3 : d • b1 = 0 := by
    rw [← h]
    rw [Vec3.ext_iff]
    simp only [Vec3.smul_def, Vec3.add_def, Vec3.zero_def]
    norm_num
  exact Vec3.smul_cancel h3 hb1

/-- A vector orthogonal to two vectors with nonvanishing cross product is a
multiple of that cross product. -/
theorem Vec3.perp_perp_eq_smul {na nb p : Vec3} (hna : p.DotProd na = 0)
    (hnb : p.DotProd nb = 0) (hcross : na.CrossProd nb ≠ 0) :
    ∃ t : ℚ, p = t • (na.CrossProd nb) := by
  have h1 : p.CrossProd (na.CrossProd nb) = 0 := by
    rw [Vec3.triple_prod, hna, hnb]
    rw [Vec3.ext_iff]
    simp only [Vec3.smul_def, Vec3.sub_def, Vec3.zero_def]
    norm_num
  exact Vec3.eq_smul_of_cross_eq_zero h1 hcross

theorem Vec3.neg_smul_neg (c : ℚ) (v : Vec3) : (-c) • (-v) = c • v := by
  rw [Vec3.ext_iff]
  simp only [Vec3.smul_def, Vec3.neg_def]
  exact ⟨by ring, by ring, by ring⟩

namespace s2pred

/-- When the exact determinant is nonzero, the full `Sign` cascade computes
its sign: the triage stage is only trusted beyond its error bound (where it
agrees), and the exact stage computes the sign outright. -/
theorem sign_eq_sgnQ {a b c : Vec3} (hdet : (a.CrossProd b).DotProd c ≠ 0) :
    Sign a b c = sgnQ ((a.CrossProd b).DotProd c) := by
  unfold Sign SignCrossArg TriageSign
  dsimp only
  set d := (a.CrossProd b).DotProd c with hd
  have hK := kMaxDetError_pos
  by_cases hgt : d > kMaxDetError
  · have hpos : (0 : ℚ) < d := lt_trans hK hgt
    simp [hgt, sgnQ_of_pos hpos]
  · by_cases hlt : d < -kMaxDetError
    · have hneg : d < 0 := by linarith
      simp [hgt, hlt, sgnQ_of_neg hneg]
    · simp only [hgt, hlt, if_false, ne_eq, not_true_eq_false, not_false_eq_true]
      have hab : a ≠ b := fun h => hdet (by rw [hd, h, Vec3.cross_self, zero_dot])
      have hbc : b ≠ c := fun h => hdet (by rw [hd, ← h]; exact Vec3.cross_dot_self_right a b)
      have hca : c ≠ a := fun h => hdet (by rw [hd, h]; exact Vec3.cross_dot_self_left a b)
      simp [expensiveSign_eq_exactSign hab hbc hca, exactSign_eq_sgn hdet]

end s2pred

namespace S2

/-- Reversing the edge and negating the plane normal flips the sign of the
projection and keeps its error bound: the same endpoint is selected as the
origin of the difference. -/
theorem getProjection_rev (x a_norm : Vec3) (a_norm_len : ℚ) (a0 a1 : Vec3) :
    GetProjection x (-a_norm) a_norm_len a1 a0 =
      (-(GetProjection x a_norm a_norm_len a0 a1).1,
        (GetProjection x a_norm a_norm_len a0 a1).2) := by
  unfold GetProjection
  dsimp only
  rcases lt_trichotomy ((x - a0).Norm2) ((x - a1).Norm2) with h1 | heq | h2
  · have hc1 : (x - a0).Norm2 < (x - a1).Norm2 ∨
        ((x - a0).Norm2 = (x - a1).Norm2 ∧ Vec3.Lt (x - a0) (x - a1)) := Or.inl h1
    have hc2 : ¬ ((x - a1).Norm2 < (x - a0).Norm2 ∨
        ((x - a1).Norm2 = (x - a0).Norm2 ∧ Vec3.Lt (x - a1) (x - a0))) := by
      rintro (h | ⟨h, -⟩) <;> linarith
    rw [if_pos hc1, if_neg hc2, Vec3.dot_neg_right, abs_neg]
  · rcases Vec3.ltTricho (x - a0) (x - a1) with h3 | h3 | h3
    · have hc1 : (x - a0).Norm2 < (x - a1).Norm2 ∨
          ((x - a0).Norm2 = (x - a1).Norm2 ∧ Vec3.Lt (x - a0) (x - a1)) :=
        Or.inr ⟨heq, h3⟩
      have hc2 : ¬ ((x - a1).Norm2 < (x - a0).Norm2 ∨
          ((x - a1).Norm2 = (x - a0).Norm2 ∧ Vec3.Lt (x - a1) (x - a0))) := by
        rintro (h | ⟨-, h⟩)
        · linarith
        · exact Vec3.ltAsymm h3 h
      rw [if_pos hc1, if_neg hc2, Vec3.dot_neg_right, abs_neg]
    · rw [h3]
      have hcf : ¬ ((x - a1).Norm2 < (x - a1).Norm2 ∨
          ((x - a1).Norm2 = (x - a1).Norm2 ∧ Vec3.Lt (x - a1) (x - a1))) := by
        rintro (h | ⟨-, h⟩)
        · exact lt_irrefl _ h
        · exact Vec3.ltIrrefl _ h
      rw [if_neg hcf, if_neg hcf, Vec3.dot_neg_right, abs_neg]
    · have hc1 : ¬ ((x - a0).Norm2 < (x - a1).Norm2 ∨
          ((x - a0).Norm2 = (x - a1).Norm2 ∧ Vec3.Lt (x - a0) (x - a1))) := by
        rintro (h | ⟨-, h⟩)
        · linarith
        · exact Vec3.ltAsymm h3 h
      have hc2 : (x - a1).Norm2 < (x - a0).Norm2 ∨
          ((x - a1).Norm2 = (x - a0).Norm2 ∧ Vec3.Lt (x - a1) (x - a0)) :=
        Or.inr ⟨heq.symm, h3⟩
      rw [if_neg hc1, if_pos hc2, Vec3.dot_neg_right, abs_neg]
  · have hc1 : ¬ ((x - a0).Norm2 < (x - a1).Norm2 ∨
        ((x - a0).Norm2 = (x - a1).Norm2 ∧ Vec3.Lt (x - a0) (x - a1))) := by
      rintro (h | ⟨h, -⟩) <;> linarith
    have hc2 : (x - a1).Norm2 < (x - a0).Norm2 ∨
        ((x - a1).Norm2 = (x - a0).Norm2 ∧ Vec3.Lt (x - a1) (x - a0)) := Or.inl h2
    rw [if_neg hc1, if_pos hc2, Vec3.dot_neg_right, abs_neg]

theorem getProjection_err_nonneg (x a_norm : Vec3) {a_norm_len : ℚ}
    (hl : 0 ≤ a_norm_len) (a0 a1 : Vec3) :
    0 ≤ (GetProjection x a_norm a_norm_len a0 a1).2 := by
  unfold GetProjection
  dsimp only
  have hk : (0 : ℚ) < kSqrt3 := by unfold kSqrt3; norm_num
  have he : (0 : ℚ) < DBL_ERR := by unfold DBL_ERR; norm_num
  by_cases hc : (x - a0).Norm2 < (x - a1).Norm2 ∨
      ((x - a0).Norm2 = (x - a1).Norm2 ∧ Vec3.Lt (x - a0) (x - a1))
  · rw [if_pos hc]
    dsimp only
    have h1 := fsqrt_nonneg ((x - a0).Norm2)
    have h2 := abs_nonneg ((x - a0).DotProd a_norm)
    have h3 : (0 : ℚ) ≤ (3.5 + 2 * kSqrt3) * a_norm_len + 32 * kSqrt3 * DBL_ERR := by
      nlinarith
    have h4 : (0 : ℚ) ≤ ((3.5 + 2 * kSqrt3) * a_norm_len + 32 * kSqrt3 * DBL_ERR) *
        fsqrt ((x - a0).Norm2) + 1.5 * |(x - a0).DotProd a_norm| := by
      nlinarith [mul_nonneg h3 h1]
    exact mul_nonneg h4 (le_of_lt he)
  · rw [if_neg hc]
    dsimp only
    have h1 := fsqrt_nonneg ((x - a1).Norm2)
    have h2 := abs_nonneg ((x - a1).DotProd a_norm)
    have h3 : (0 : ℚ) ≤ (3.5 + 2 * kSqrt3) * a_norm_len + 32 * kSqrt3 * DBL_ERR := by
      nlinarith
    have h4 : (0 : ℚ) ≤ ((3.5 + 2 * kSqrt3) * a_norm_len + 32 * kSqrt3 * DBL_ERR) *
        fsqrt ((x - a1).Norm2) + 1.5 * |(x - a1).DotProd a_norm| := by
      nlinarith [mul_nonneg h3 h1]
    exact mul_nonneg h4 (le_of_lt he)

end S2

theorem Vec3.norm_neg (v : Vec3) : (-v).Norm = v.Norm := by
  unfold Vec3.Norm
  rw [Vec3.norm2_neg]

namespace S2

/-- `GetIntersectionStableSorted` is invariant under reversing the first
(projection) edge. -/
theorem stableSorted_rev_a (a0 a1 b0 b1 : Vec3) :
    GetIntersectionStableSorted a1 a0 b0 b1 =
      GetIntersectionStableSorted a0 a1 b0 b1 := by
  unfold GetIntersectionStableSorted
  dsimp only
  have hnorm : (a1 - a0).CrossProd (a1 + a0) = -((a0 - a1).CrossProd (a0 + a1)) := by
    unfold Vec3.CrossProd
    simp only [Vec3.sub_def, Vec3.add_def, Vec3.neg_def, Vec3.ext_iff]
    exact ⟨by ring, by ring, by ring⟩
  rw [hnorm, Vec3.norm_neg,
    getProjection_rev b0 ((a0 - a1).CrossProd (a0 + a1))
      (((a0 - a1).CrossProd (a0 + a1)).Norm) a0 a1,
    getProjection_rev b1 ((a0 - a1).CrossProd (a0 + a1))
      (((a0 - a1).CrossProd (a0 + a1)).Norm) a0 a1]
  dsimp only
  simp only [neg_neg]
  set P0 := GetProjection b0 ((a0 - a1).CrossProd (a0 + a1))
    (((a0 - a1).CrossProd (a0 + a1)).Norm) a0 a1 with hP0
  set P1 := GetProjection b1 ((a0 - a1).CrossProd (a0 + a1))
    (((a0 - a1).CrossProd (a0 + a1)).Norm) a0 a1 with hP1
  have herr : 0 ≤ P0.2 + P1.2 := by
    rw [hP0, hP1]
    exact add_nonneg
      (getProjection_err_nonneg b0 _ (fsqrt_nonneg _) a0 a1)
      (getProjection_err_nonneg b1 _ (fsqrt_nonneg _) a0 a1)
  rcases lt_trichotomy P0.1 P1.1 with hlt | heq | hgt
  · rw [if_pos hlt, if_neg (show ¬(-P0.1 < -P1.1) from by linarith)]
  · rw [heq, if_neg (lt_irrefl P1.1), if_neg (lt_irrefl (-P1.1))]
    dsimp only
    rw [if_pos (show -P1.1 - -P1.1 ≤ P0.2 + P1.2 from by linarith),
      if_pos (show P1.1 - P1.1 ≤ P0.2 + P1.2 from by linarith)]
  · rw [if_neg (show ¬(P0.1 < P1.1) from by linarith),
      if_pos (show -P0.1 < -P1.1 from by linarith)]

end S2

namespace S2

/-- `GetIntersectionStableSorted` is invariant under reversing the second
(interpolated) edge. -/
theorem stableSorted_rev_b (a0 a1 b0 b1 : Vec3) :
    GetIntersectionStableSorted a0 a1 b1 b0 =
      GetIntersectionStableSorted a0 a1 b0 b1 := by
  unfold GetIntersectionStableSorted
  dsimp only
  have hbl : b0 - b1 = -(b1 - b0) := by
    rw [Vec3.ext_iff]
    simp only [Vec3.sub_def, Vec3.neg_def]
    exact ⟨by ring, by ring, by ring⟩
  rw [hbl, Vec3.norm_neg]
  set P0 := GetProjection b0 ((a0 - a1).CrossProd (a0 + a1))
    (((a0 - a1).CrossProd (a0 + a1)).Norm) a0 a1 with hP0
  set P1 := GetProjection b1 ((a0 - a1).CrossProd (a0 + a1))
    (((a0 - a1).CrossProd (a0 + a1)).Norm) a0 a1 with hP1
  have herr : 0 ≤ P0.2 + P1.2 := by
    rw [hP0, hP1]
    exact add_nonneg
      (getProjection_err_nonneg b0 _ (fsqrt_nonneg _) a0 a1)
      (getProjection_err_nonneg b1 _ (fsqrt_nonneg _) a0 a1)
  rcases lt_trichotomy P0.1 P1.1 with hlt | heq | hgt
  · rw [if_pos hlt, if_neg (show ¬(P1.1 < P0.1) from by linarith)]
    dsimp only
    have he1 : -P0.1 - -P1.1 = P1.1 - P0.1 := by ring
    have he2 : P0.2 + P1.2 = P1.2 + P0.2 := by ring
    have hx : (-P0.1) • b1 - (-P1.1) • b0 = P1.1 • b0 - P0.1 • b1 := by
      rw [Vec3.ext_iff]
      simp only [Vec3.smul_def, Vec3.sub_def]
      exact ⟨by ring, by ring, by ring⟩
    have henum : |(-P0.1) * P1.2 - (-P1.1) * P0.2| = |P1.1 * P0.2 - P0.1 * P1.2| := by
      congr 1
      ring
    rw [he1, he2, hx, henum]
  · rw [heq, if_neg (lt_irrefl P1.1)]
    dsimp only
    rw [if_pos (show P1.1 - P1.1 ≤ P1.2 + P0.2 from by linarith),
      if_pos (show P1.1 - P1.1 ≤ P0.2 + P1.2 from by linarith)]
  · rw [if_neg (show ¬(P0.1 < P1.1) from by linarith), if_pos hgt]
    dsimp only
    have he1 : -P1.1 - -P0.1 = P0.1 - P1.1 := by ring
    have he2 : P1.2 + P0.2 = P0.2 + P1.2 := by ring
    have hx : (-P1.1) • b0 - (-P0.1) • b1 = P0.1 • b1 - P1.1 • b0 := by
      rw [Vec3.ext_iff]
      simp only [Vec3.smul_def, Vec3.sub_def]
      exact ⟨by ring, by ring, by ring⟩
    have henum : |(-P1.1) * P0.2 - (-P0.1) * P1.2| = |P0.1 * P1.2 - P1.1 * P0.2| := by
      congr 1
      ring
    rw [he1, he2, hx, henum]

end S2

theorem Vec3.neg_zero' : -(0 : Vec3) = 0 := by
  rw [Vec3.ext_iff]
  simp only [Vec3.neg_def, Vec3.zero_def]
  norm_num

namespace S2

theorem sortPair_comm (u v : Vec3) :
    (if Vec3.Lt v u then (v, u) else (u, v)) =
    (if Vec3.Lt u v then (u, v) else (v, u)) := by
  rcases Vec3.ltTricho u v with h | h | h
  · rw [if_neg (Vec3.ltAsymm h), if_pos h]
  · rw [h, if_neg (Vec3.ltIrrefl v)]
  · rw [if_pos h, if_neg (Vec3.ltAsymm h)]

theorem compareEdges_rev_left (a0 a1 b0 b1 : Vec3) :
    CompareEdges a1 a0 b0 b1 = CompareEdges a0 a1 b0 b1 := by
  unfold CompareEdges
  dsimp only
  rw [sortPair_comm a1 a0]

theorem compareEdges_rev_right (a0 a1 b0 b1 : Vec3) :
    CompareEdges a0 a1 b1 b0 = CompareEdges a0 a1 b0 b1 := by
  unfold CompareEdges
  dsimp only
  rw [sortPair_comm b1 b0]

theorem pairLt_cases (u1 u2 v1 v2 : Vec3) :
    (decide (Vec3.Lt u1 v1 ∨ (u1 = v1 ∧ Vec3.Lt u2 v2)) = true ∧
     decide (Vec3.Lt v1 u1 ∨ (v1 = u1 ∧ Vec3.Lt v2 u2)) = false) ∨
    (decide (Vec3.Lt u1 v1 ∨ (u1 = v1 ∧ Vec3.Lt u2 v2)) = false ∧
     decide (Vec3.Lt v1 u1 ∨ (v1 = u1 ∧ Vec3.Lt v2 u2)) = true) ∨
    (u1 = v1 ∧ u2 = v2) := by
  rcases Vec3.ltTricho u1 v1 with h1 | h1 | h1
  · refine Or.inl ⟨by simp [h1], ?_⟩
    simp only [decide_eq_false_iff_not]
    rintro (h | ⟨h, -⟩)
    · exact Vec3.ltAsymm h1 h
    · exact Vec3.ne_of_lt h1 h.symm
  · rcases Vec3.ltTricho u2 v2 with h2 | h2 | h2
    · refine Or.inl ⟨by simp [h1, h2], ?_⟩
      simp only [decide_eq_false_iff_not]
      rintro (h | ⟨-, h⟩)
      · exact Vec3.ltIrrefl v1 (h1 ▸ h)
      · exact Vec3.ltAsymm h2 h
    · exact Or.inr (Or.inr ⟨h1, h2⟩)
    · refine Or.inr (Or.inl ⟨?_, by simp [h1.symm, h2]⟩)
      simp only [decide_eq_false_iff_not]
      rintro (h | ⟨-, h⟩)
      · exact Vec3.ltIrrefl v1 (h1 ▸ h)
      · exact Vec3.ltAsymm h2 h
  · refine Or.inr (Or.inl ⟨?_, by simp [h1]⟩)
    simp only [decide_eq_false_iff_not]
    rintro (h | ⟨h, -⟩)
    · exact Vec3.ltAsymm h1 h
    · exact Vec3.ne_of_lt h1 h.symm

theorem compareEdges_cases (a0 a1 b0 b1 : Vec3) :
    (CompareEdges a0 a1 b0 b1 = true ∧ CompareEdges b0 b1 a0 a1 = false) ∨
    (CompareEdges a0 a1 b0 b1 = false ∧ CompareEdges b0 b1 a0 a1 = true) ∨
    ((b0 = a0 ∧ b1 = a1) ∨ (b0 = a1 ∧ b1 = a0)) := by
  unfold CompareEdges
  dsimp only
  by_cases ha : Vec3.Lt a1 a0
  · by_cases hb : Vec3.Lt b1 b0
    · rw [if_pos ha, if_pos hb]
      dsimp only
      rcases pairLt_cases a1 a0 b1 b0 with ⟨h1, h2⟩ | ⟨h1, h2⟩ | ⟨h1, h2⟩
      · exact Or.inl ⟨h1, h2⟩
      · exact Or.inr (Or.inl ⟨h1, h2⟩)
      · exact Or.inr (Or.inr (Or.inl ⟨h2.symm, h1.symm⟩))
    · rw [if_pos ha, if_neg hb]
      dsimp only
      rcases pairLt_cases a1 a0 b0 b1 with ⟨h1, h2⟩ | ⟨h1, h2⟩ | ⟨h1, h2⟩
      · exact Or.inl ⟨h1, h2⟩
      · exact Or.inr (Or.inl ⟨h1, h2⟩)
      · exact Or.inr (Or.inr (Or.inr ⟨h1.symm, h2.symm⟩))
  · by_cases hb : Vec3.Lt b1 b0
    · rw [if_neg ha, if_pos hb]
      dsimp only
      rcases pairLt_cases a0 a1 b1 b0 with ⟨h1, h2⟩ | ⟨h1, h2⟩ | ⟨h1, h2⟩
      · exact Or.inl ⟨h1, h2⟩
      · exact Or.inr (Or.inl ⟨h1, h2⟩)
      · exact Or.inr (Or.inr (Or.inr ⟨h2.symm, h1.symm⟩))
    · rw [if_neg ha, if_neg hb]
      dsimp only
      rcases pairLt_cases a0 a1 b0 b1 with ⟨h1, h2⟩ | ⟨h1, h2⟩ | ⟨h1, h2⟩
      · exact Or.inl ⟨h1, h2⟩
      · exact Or.inr (Or.inl ⟨h1, h2⟩)
      · exact Or.inr (Or.inr (Or.inl ⟨h1.symm, h2.symm⟩))

end S2

namespace S2

theorem stable_rev_a (a0 a1 b0 b1 : Vec3) :
    GetIntersectionStable a1 a0 b0 b1 = GetIntersectionStable a0 a1 b0 b1 := by
  unfold GetIntersectionStable
  dsimp only
  have hlen : a0 - a1 = -(a1 - a0) := by
    rw [Vec3.ext_iff]
    simp only [Vec3.sub_def, Vec3.neg_def]
    exact ⟨by ring, by ring, by ring⟩
  rw [hlen, Vec3.norm2_neg, compareEdges_rev_left,
    stableSorted_rev_b b0 b1 a0 a1, stableSorted_rev_a a0 a1 b0 b1]

theorem stable_rev_b (a0 a1 b0 b1 : Vec3) :
    GetIntersectionStable a0 a1 b1 b0 = GetIntersectionStable a0 a1 b0 b1 := by
  unfold GetIntersectionStable
  dsimp only
  have hlen : b0 - b1 = -(b1 - b0) := by
    rw [Vec3.ext_iff]
    simp only [Vec3.sub_def, Vec3.neg_def]
    exact ⟨by ring, by ring, by ring⟩
  rw [hlen, Vec3.norm2_neg, compareEdges_rev_right,
    stableSorted_rev_a b0 b1 a0 a1, stableSorted_rev_b a0 a1 b0 b1]

theorem stable_swap {a0 a1 b0 b1 : Vec3}
    (hcross : (a0.CrossProd a1).CrossProd (b0.CrossProd b1) ≠ 0) :
    GetIntersectionStable b0 b1 a0 a1 = GetIntersectionStable a0 a1 b0 b1 := by
  unfold GetIntersectionStable
  dsimp only
  rcases lt_trichotomy ((a1 - a0).Norm2) ((b1 - b0).Norm2) with hl | hl | hl
  · rw [if_pos (show (a1 - a0).Norm2 < (b1 - b0).Norm2 ∨
        ((a1 - a0).Norm2 = (b1 - b0).Norm2 ∧ CompareEdges a0 a1 b0 b1 = true)
        from Or.inl hl),
      if_neg (show ¬((b1 - b0).Norm2 < (a1 - a0).Norm2 ∨
        ((b1 - b0).Norm2 = (a1 - a0).Norm2 ∧ CompareEdges b0 b1 a0 a1 = true))
        from by rintro (h | ⟨h, -⟩) <;> linarith)]
  · rcases compareEdges_cases a0 a1 b0 b1 with ⟨h1, h2⟩ | ⟨h1, h2⟩ | heqp
    · have hcnd : ¬((b1 - b0).Norm2 < (a1 - a0).Norm2 ∨
          ((b1 - b0).Norm2 = (a1 - a0).Norm2 ∧ CompareEdges b0 b1 a0 a1 = true)) := by
        rintro (h | ⟨-, h⟩)
        · linarith
        · rw [h2] at h
          cases h
      rw [if_pos (show (a1 - a0).Norm2 < (b1 - b0).Norm2 ∨
          ((a1 - a0).Norm2 = (b1 - b0).Norm2 ∧ CompareEdges a0 a1 b0 b1 = true)
          from Or.inr ⟨hl, h1⟩), if_neg hcnd]
    · have hcnd : ¬((a1 - a0).Norm2 < (b1 - b0).Norm2 ∨
          ((a1 - a0).Norm2 = (b1 - b0).Norm2 ∧ CompareEdges a0 a1 b0 b1 = true)) := by
        rintro (h | ⟨-, h⟩)
        · linarith
        · rw [h1] at h
          cases h
      rw [if_neg hcnd,
        if_pos (show (b1 - b0).Norm2 < (a1 - a0).Norm2 ∨
          ((b1 - b0).Norm2 = (a1 - a0).Norm2 ∧ CompareEdges b0 b1 a0 a1 = true)
          from Or.inr ⟨hl.symm, h2⟩)]
    · exfalso
      rcases heqp with ⟨hb0, hb1⟩ | ⟨hb0, hb1⟩
      · apply hcross
        rw [hb0, hb1, Vec3.cross_self]
      · apply hcross
        rw [hb0, hb1, Vec3.cross_anticomm a0 a1, Vec3.cross_neg_right,
          Vec3.cross_self, Vec3.neg_zero']
  · rw [if_neg (show ¬((a1 - a0).Norm2 < (b1 - b0).Norm2 ∨
        ((a1 - a0).Norm2 = (b1 - b0).Norm2 ∧ CompareEdges a0 a1 b0 b1 = true))
        from by rintro (h | ⟨h, -⟩) <;> linarith),
      if_pos (show (b1 - b0).Norm2 < (a1 - a0).Norm2 ∨
        ((b1 - b0).Norm2 = (a1 - a0).Norm2 ∧ CompareEdges b0 b1 a0 a1 = true)
        from Or.inl hl)]

end S2

theorem Vec3.neg_eq_zero {v : Vec3} : -v = 0 ↔ v = 0 := by
  rw [Vec3.ext_iff, Vec3.ext_iff]
  simp only [Vec3.neg_def, Vec3.zero_def]
  constructor
  · rintro ⟨h1, h2, h3⟩
    exact ⟨by linarith, by linarith, by linarith⟩
  · rintro ⟨h1, h2, h3⟩
    exact ⟨by linarith, by linarith, by linarith⟩

theorem Vec3.cross_neg_left (v w : Vec3) : (-v).CrossProd w = -(v.CrossProd w) := by
  unfold Vec3.CrossProd
  simp only [Vec3.neg_def, Vec3.ext_iff]
  exact ⟨by ring, by ring, by ring⟩

namespace S2

theorem normalize_neg (v : Vec3) : normalize (-v) = -(normalize v) := by
  unfold normalize
  rw [Vec3.norm2_neg]
  rw [Vec3.ext_iff]
  simp only [Vec3.smul_def, Vec3.neg_def]
  exact ⟨by ring, by ring, by ring⟩

theorem toS2Point_neg (v : Vec3) : ToS2Point (-v) = -(ToS2Point v) :=
  normalize_neg v

theorem exact_swap {a0 a1 b0 b1 : Vec3}
    (hcross : (a0.CrossProd a1).CrossProd (b0.CrossProd b1) ≠ 0)
    (hsgn : s2pred.Sign b0 b1 a1 = -(s2pred.Sign a0 a1 b1)) :
    GetIntersectionExact b0 b1 a0 a1 = GetIntersectionExact a0 a1 b0 b1 := by
  unfold GetIntersectionExact
  dsimp only
  have hanti : (b0.CrossProd b1).CrossProd (a0.CrossProd a1) =
      -((a0.CrossProd a1).CrossProd (b0.CrossProd b1)) :=
    Vec3.cross_anticomm _ _
  have hne' : (b0.CrossProd b1).CrossProd (a0.CrossProd a1) ≠ 0 := by
    rw [hanti]
    exact fun h => hcross (Vec3.neg_eq_zero.1 h)
  rw [if_pos hne', if_pos hcross, hanti, toS2Point_neg, hsgn]
  push_cast
  exact Vec3.neg_smul_neg _ _

theorem exact_rev_a {a0 a1 b0 b1 : Vec3}
    (hcross : (a0.CrossProd a1).CrossProd (b0.CrossProd b1) ≠ 0) :
    GetIntersectionExact a1 a0 b0 b1 = GetIntersectionExact a0 a1 b0 b1 := by
  unfold GetIntersectionExact
  dsimp only
  have hx : (a1.CrossProd a0).CrossProd (b0.CrossProd b1) =
      -((a0.CrossProd a1).CrossProd (b0.CrossProd b1)) := by
    rw [Vec3.cross_anticomm a0 a1]
    exact Vec3.cross_neg_left _ _
  have hne' : (a1.CrossProd a0).CrossProd (b0.CrossProd b1) ≠ 0 := by
    rw [hx]
    exact fun h => hcross (Vec3.neg_eq_zero.1 h)
  rw [if_pos hne', if_pos hcross, hx, toS2Point_neg, s2pred.sign_swap12 a0 a1 b1]
  push_cast
  exact Vec3.neg_smul_neg _ _

theorem exact_rev_b {a0 a1 b0 b1 : Vec3}
    (hcross : (a0.CrossProd a1).CrossProd (b0.CrossProd b1) ≠ 0)
    (hsgn : s2pred.Sign a0 a1 b0 = -(s2pred.Sign a0 a1 b1)) :
    GetIntersectionExact a0 a1 b1 b0 = GetIntersectionExact a0 a1 b0 b1 := by
  unfold GetIntersectionExact
  dsimp only
  have hx : (a0.CrossProd a1).CrossProd (b1.CrossProd b0) =
      -((a0.CrossProd a1).CrossProd (b0.CrossProd b1)) := by
    rw [Vec3.cross_anticomm b0 b1]
    exact Vec3.cross_neg_right _ _
  have hne' : (a0.CrossProd a1).CrossProd (b1.CrossProd b0) ≠ 0 := by
    rw [hx]
    exact fun h => hcross (Vec3.neg_eq_zero.1 h)
  rw [if_pos hne', if_pos hcross, hx, toS2Point_neg, hsgn]
  push_cast
  exact Vec3.neg_smul_neg _ _

end S2

namespace s2pred

/-- `Sign` vanishes when the outer arguments coincide. -/
theorem sign_degen13 (a b : Vec3) : Sign a b a = 0 := by
  have h1 : Sign b a a = Sign a b a := sign_cyclic a b a
  have h2 : Sign b a a = -Sign b a a := by
    have := sign_swap23 b a a
    exact this
  omega

/-- `Sign` vanishes when the last two arguments coincide. -/
theorem sign_degen23 (a b : Vec3) : Sign a b b = 0 := by
  have h1 : Sign b b a = Sign a b b := sign_cyclic a b b
  have h2 : Sign b b a = 0 := sign_degenerate b a
  omega

/-- A nonzero `Sign` forces the three points to be pairwise distinct. -/
theorem sign_ne_imp_distinct {a b c : Vec3} (h : Sign a b c ≠ 0) :
    a ≠ b ∧ b ≠ c ∧ a ≠ c := by
  refine ⟨fun he => h ?_, fun he => h ?_, fun he => h ?_⟩
  · rw [he]; exact sign_degenerate b c
  · rw [he]; exact sign_degen23 a c
  · rw [he]; exact sign_degen13 c b

/-- With an exactly zero determinant and pairwise distinct points the `Sign`
cascade reduces to the exact stage with symbolic perturbation. -/
theorem sign_eq_exact_of_det_zero {a b c : Vec3}
    (hd : (a.CrossProd b).DotProd c = 0) (hab : a ≠ b) (hbc : b ≠ c) (hca : c ≠ a) :
    Sign a b c = ExactSign a b c true := by
  unfold Sign SignCrossArg TriageSign
  dsimp only
  rw [hd]
  have hK := kMaxDetError_pos
  have f1 : ¬ ((0 : ℚ) > kMaxDetError) := by linarith
  have f2 : ¬ ((0 : ℚ) < -kMaxDetError) := by linarith
  rw [if_neg f1, if_neg f2]
  simp only [ne_eq, not_true_eq_false, if_false]
  exact expensiveSign_eq_exactSign hab hbc hca

end s2pred

theorem Vec3.sub_dot (u v w : Vec3) :
    (u - v).DotProd w = u.DotProd w - v.DotProd w := by
  unfold Vec3.DotProd
  simp only [Vec3.sub_def]
  ring

theorem Vec3.dot_smul_right (c : ℚ) (u v : Vec3) :
    u.DotProd (c • v) = c * u.DotProd v := by
  unfold Vec3.DotProd
  simp only [Vec3.smul_def]
  ring

theorem Vec3.zero_smul' (v : Vec3) : (0 : ℚ) • v = 0 := by
  rw [Vec3.ext_iff]
  simp only [Vec3.smul_def, Vec3.zero_def]
  norm_num

theorem Vec3.one_smul' (v : Vec3) : (1 : ℚ) • v = v := by
  rw [Vec3.ext_iff]
  simp only [Vec3.smul_def]
  norm_num

theorem Vec3.neg_one_smul' (v : Vec3) : (-1 : ℚ) • v = -v := by
  rw [Vec3.ext_iff]
  simp only [Vec3.smul_def, Vec3.neg_def]
  exact ⟨by ring, by ring, by ring⟩

theorem Vec3.neg_smul' (c : ℚ) (v : Vec3) : -(c • v) = (-c) • v := by
  rw [Vec3.ext_iff]
  simp only [Vec3.smul_def, Vec3.neg_def]
  exact ⟨by ring, by ring, by ring⟩

theorem Vec3.norm2_smul (c : ℚ) (v : Vec3) : (c • v).Norm2 = c * c * v.Norm2 := by
  unfold Vec3.Norm2 Vec3.DotProd
  simp only [Vec3.smul_def]
  ring

/-- The determinant is linear in a scaled middle argument. -/
theorem Vec3.det_smul_mid (x w y : Vec3) (c : ℚ) :
    (x.CrossProd (c • w)).DotProd y = c * ((x.CrossProd w).DotProd y) := by
  unfold Vec3.CrossProd Vec3.DotProd
  simp only [Vec3.smul_def]
  ring

/-- The `bac-cab` expansion of a determinant against a cross product:
`(b × (a0 × a1)) · y = (b·a1)(a0·y) − (b·a0)(a1·y)`. -/
theorem Vec3.cross_cross_dot (b a0 a1 y : Vec3) :
    (b.CrossProd (a0.CrossProd a1)).DotProd y =
      b.DotProd a1 * (a0.DotProd y) - b.DotProd a0 * (a1.DotProd y) := by
  unfold Vec3.CrossProd Vec3.DotProd
  ring

/-- Two distinct, non-antipodal unit vectors have a nonzero cross product. -/
theorem Vec3.unit_cross_ne_zero {u v : Vec3} (hu : u.Norm2 = 1) (hv : v.Norm2 = 1)
    (hne : u ≠ v) (hnege : u ≠ -v) : u.CrossProd v ≠ 0 := by
  intro hc
  have hvz : v ≠ 0 := by
    intro h0
    have h1 : v.Norm2 = 0 := Vec3.norm2_eq_zero_iff.2 h0
    rw [hv] at h1
    norm_num at h1
  obtain ⟨c, hc'⟩ := Vec3.eq_smul_of_cross_eq_zero hc hvz
  have hn : c * c = 1 := by
    have := Vec3.norm2_smul c v
    rw [← hc', hu, hv, mul_one] at this
    linarith
  have hc1 : c = 1 ∨ c = -1 := by
    rcases mul_self_eq_one_iff.1 hn with h | h
    · exact Or.inl h
    · exact Or.inr h
  rcases hc1 with h | h
  · rw [h, Vec3.one_smul'] at hc'
    exact hne hc'
  · rw [h, Vec3.neg_one_smul'] at hc'
    exact hnege hc'

/-- A unit vector orthogonal to the (nonzero) cross product of two vectors
lies in their span. -/
theorem Vec3.coplanar_decomp {a0 a1 b : Vec3} (hw : a0.CrossProd a1 ≠ 0)
    (hb : b.DotProd (a0.CrossProd a1) = 0) :
    ∃ x y : ℚ, b = x • a0 + y • a1 := by
  have hN : (a0.CrossProd a1).Norm2 ≠ 0 := ne_of_gt (Vec3.norm2_pos_of_ne_zero hw)
  set N2 := (a0.CrossProd a1).Norm2 with hN2
  refine ⟨(b.DotProd a0 * a1.Norm2 - b.DotProd a1 * (a0.DotProd a1)) / N2,
          (b.DotProd a1 * a0.Norm2 - b.DotProd a0 * (a0.DotProd a1)) / N2, ?_⟩
  rw [Vec3.ext_iff]
  simp only [Vec3.smul_def, Vec3.add_def]
  have hbx : N2 * b.x = (b.DotProd a0 * a1.Norm2 - b.DotProd a1 * (a0.DotProd a1)) * a0.x +
      (b.DotProd a1 * a0.Norm2 - b.DotProd a0 * (a0.DotProd a1)) * a1.x := by
    have hkey : N2 * b.x - ((b.DotProd a0 * a1.Norm2 - b.DotProd a1 * (a0.DotProd a1)) * a0.x +
        (b.DotProd a1 * a0.Norm2 - b.DotProd a0 * (a0.DotProd a1)) * a1.x) =
        (b.DotProd (a0.CrossProd a1)) * (a0.CrossProd a1).x := by
      rw [hN2]
      unfold Vec3.Norm2 Vec3.DotProd Vec3.CrossProd
      ring
    rw [hb] at hkey
    linarith [hkey]
  have hby : N2 * b.y = (b.DotProd a0 * a1.Norm2 - b.DotProd a1 * (a0.DotProd a1)) * a0.y +
      (b.DotProd a1 * a0.Norm2 - b.DotProd a0 * (a0.DotProd a1)) * a1.y := by
    have hkey : N2 * b.y - ((b.DotProd a0 * a1.Norm2 - b.DotProd a1 * (a0.DotProd a1)) * a0.y +
        (b.DotProd a1 * a0.Norm2 - b.DotProd a0 * (a0.DotProd a1)) * a1.y) =
        (b.DotProd (a0.CrossProd a1)) * (a0.CrossProd a1).y := by
      rw [hN2]
      unfold Vec3.Norm2 Vec3.DotProd Vec3.CrossProd
      ring
    rw [hb] at hkey
    linarith [hkey]
  have hbz : N2 * b.z = (b.DotProd a0 * a1.Norm2 - b.DotProd a1 * (a0.DotProd a1)) * a0.z +
      (b.DotProd a1 * a0.Norm2 - b.DotProd a0 * (a0.DotProd a1)) * a1.z := by
    have hkey : N2 * b.z - ((b.DotProd a0 * a1.Norm2 - b.DotProd a1 * (a0.DotProd a1)) * a0.z +
        (b.DotProd a1 * a0.Norm2 - b.DotProd a0 * (a0.DotProd a1)) * a1.z) =
        (b.DotProd (a0.CrossProd a1)) * (a0.CrossProd a1).z := by
      rw [hN2]
      unfold Vec3.Norm2 Vec3.DotProd Vec3.CrossProd
      ring
    rw [hb] at hkey
    linarith [hkey]
  refine ⟨?_, ?_, ?_⟩
  · field_simp
    linarith [hbx]
  · field_simp
    linarith [hby]
  · field_simp
    linarith [hbz]

theorem Vec3.neg_neg' (v : Vec3) : -(-v) = v := by
  rw [Vec3.ext_iff]
  simp only [Vec3.neg_def]
  exact ⟨by ring, by ring, by ring⟩

/-- The sign relations and endpoint distinctness that follow from a positive
crossing sign: each edge's endpoints receive opposite orientations against
the other edge, and the four endpoints are pairwise distinct. -/
theorem crossingSignPos_facts {a0 a1 b0 b1 : Vec3} (h : S2.CrossingSignPos a0 a1 b0 b1) :
    (s2pred.Sign a0 a1 b0 = -s2pred.Sign a0 a1 b1 ∧
     s2pred.Sign b0 b1 a1 = -s2pred.Sign a0 a1 b1 ∧
     s2pred.Sign b0 b1 a0 = s2pred.Sign a0 a1 b1 ∧
     s2pred.Sign a0 a1 b1 ≠ 0) ∧
    (a0 ≠ a1 ∧ b0 ≠ b1 ∧ b0 ≠ a0 ∧ b0 ≠ a1 ∧ b1 ≠ a0 ∧ b1 ≠ a1) := by
  obtain ⟨hne, h12, h23, h34⟩ := h
  have e1 : s2pred.Sign a0 b0 a1 = -s2pred.Sign a0 a1 b0 := s2pred.sign_swap23 a0 a1 b0
  have e2 : s2pred.Sign b0 a1 b1 = -s2pred.Sign b0 b1 a1 := s2pred.sign_swap23 b0 b1 a1
  have e3 : s2pred.Sign a1 b1 a0 = s2pred.Sign a0 a1 b1 := s2pred.sign_cyclic a0 a1 b1
  have e4 : s2pred.Sign b1 a0 b0 = s2pred.Sign b0 b1 a0 := s2pred.sign_cyclic b0 b1 a0
  have hne2 : s2pred.Sign b0 a1 b1 ≠ 0 := by rw [← h12]; exact hne
  have hne3 : s2pred.Sign a1 b1 a0 ≠ 0 := by rw [← h23]; exact hne2
  obtain ⟨d1a, d1b, d1c⟩ := s2pred.sign_ne_imp_distinct hne
  obtain ⟨d2a, d2b, d2c⟩ := s2pred.sign_ne_imp_distinct hne2
  obtain ⟨d3a, d3b, d3c⟩ := s2pred.sign_ne_imp_distinct hne3
  refine ⟨⟨by omega, by omega, by omega, by omega⟩,
    d1c, d2c, d1a.symm, d1b, d3b, d3a.symm⟩

namespace S2

theorem toS2Point_smul_form (v : Vec3) :
    ToS2Point v = (1 / fsqrt v.Norm2) • v := rfl

theorem toS2Point_ne_zero {v : Vec3} (h : v ≠ 0) : ToS2Point v ≠ 0 :=
  normalize_ne_zero h

theorem toS2Point_zero : ToS2Point (0 : Vec3) = 0 := by
  rw [toS2Point_smul_form, Vec3.ext_iff]
  simp only [Vec3.smul_def, Vec3.zero_def]
  norm_num

/-- When the edge endpoints and the queried point are all orthogonal to the
plane normal, the projection is exactly zero. -/
theorem getProjection_fst_perp {x a_norm : Vec3} (a_norm_len : ℚ) (a0 a1 : Vec3)
    (hx : x.DotProd a_norm = 0) (h0 : a0.DotProd a_norm = 0)
    (h1 : a1.DotProd a_norm = 0) :
    (GetProjection x a_norm a_norm_len a0 a1).1 = 0 := by
  unfold GetProjection
  dsimp only
  split_ifs with hc
  · dsimp only
    rw [Vec3.sub_dot, hx, h0]
    ring
  · dsimp only
    rw [Vec3.sub_dot, hx, h1]
    ring

/-- When both endpoints of the second edge lie exactly in the plane of the
first, both projections vanish and the stable method reports failure. -/
theorem stableSorted_coplanar_none {a0 a1 b0 b1 : Vec3}
    (h0 : b0.DotProd ((a0 - a1).CrossProd (a0 + a1)) = 0)
    (h1 : b1.DotProd ((a0 - a1).CrossProd (a0 + a1)) = 0) :
    GetIntersectionStableSorted a0 a1 b0 b1 = none := by
  unfold GetIntersectionStableSorted
  dsimp only
  have ha0 : a0.DotProd ((a0 - a1).CrossProd (a0 + a1)) = 0 := by
    unfold Vec3.DotProd Vec3.CrossProd
    simp only [Vec3.sub_def, Vec3.add_def]
    ring
  have ha1 : a1.DotProd ((a0 - a1).CrossProd (a0 + a1)) = 0 := by
    unfold Vec3.DotProd Vec3.CrossProd
    simp only [Vec3.sub_def, Vec3.add_def]
    ring
  rw [getProjection_fst_perp (((a0 - a1).CrossProd (a0 + a1)).Norm) a0 a1 h0 ha0 ha1,
    getProjection_fst_perp (((a0 - a1).CrossProd (a0 + a1)).Norm) a0 a1 h1 ha0 ha1]
  rw [if_neg (lt_irrefl (0 : ℚ))]
  dsimp only
  have herr : (0 : ℚ) - 0 ≤
      (GetProjection b0 ((a0 - a1).CrossProd (a0 + a1))
        (((a0 - a1).CrossProd (a0 + a1)).Norm) a0 a1).2 +
      (GetProjection b1 ((a0 - a1).CrossProd (a0 + a1))
        (((a0 - a1).CrossProd (a0 + a1)).Norm) a0 a1).2 := by
    have hl : (0 : ℚ) ≤ ((a0 - a1).CrossProd (a0 + a1)).Norm := by
      unfold Vec3.Norm
      exact fsqrt_nonneg _
    have hn0 := getProjection_err_nonneg b0 ((a0 - a1).CrossProd (a0 + a1)) hl a0 a1
    have hn1 := getProjection_err_nonneg b1 ((a0 - a1).CrossProd (a0 + a1)) hl a0 a1
    linarith
  rw [if_pos herr]

/-- When the four endpoints are exactly coplanar the stable method reports
failure in both edge orders. -/
theorem stable_coplanar_none {a0 a1 b0 b1 : Vec3}
    (hb0 : b0.DotProd (a0.CrossProd a1) = 0) (hb1 : b1.DotProd (a0.CrossProd a1) = 0)
    (ha0 : a0.DotProd (b0.CrossProd b1) = 0) (ha1 : a1.DotProd (b0.CrossProd b1) = 0) :
    GetIntersectionStable a0 a1 b0 b1 = none := by
  unfold GetIntersectionStable
  dsimp only
  have key : ∀ u v x : Vec3, x.DotProd (u.CrossProd v) = 0 →
      x.DotProd ((u - v).CrossProd (u + v)) = 0 := by
    intro u v x hx
    have hexp : x.DotProd ((u - v).CrossProd (u + v)) =
        2 * (x.DotProd (u.CrossProd v)) := by
      unfold Vec3.DotProd Vec3.CrossProd
      simp only [Vec3.sub_def, Vec3.add_def]
      ring
    rw [hexp, hx]
    ring
  split_ifs
  · exact stableSorted_coplanar_none (key b0 b1 a0 ha0) (key b0 b1 a1 ha1)
  · exact stableSorted_coplanar_none (key a0 a1 b0 hb0) (key a0 a1 b1 hb1)

end S2

namespace S2

/-- Two adjacent steps of the guarded running lexicographic minimum commute. -/
theorem min_step_comm (P Q : Prop) [Decidable P] [Decidable Q] (c d x : Vec3) :
    (if Q ∧ Vec3.Lt d (if P ∧ Vec3.Lt c x then c else x) then d
     else if P ∧ Vec3.Lt c x then c else x) =
    (if P ∧ Vec3.Lt c (if Q ∧ Vec3.Lt d x then d else x) then c
     else if Q ∧ Vec3.Lt d x then d else x) := by
  by_cases hP : P
  · by_cases hQ : Q
    · by_cases hcx : Vec3.Lt c x
      · rw [if_pos (show P ∧ Vec3.Lt c x from ⟨hP, hcx⟩)]
        by_cases hdx : Vec3.Lt d x
        · rw [if_pos (show Q ∧ Vec3.Lt d x from ⟨hQ, hdx⟩)]
          rcases Vec3.ltTricho c d with hcd | hcd | hcd
          · rw [if_neg (show ¬(Q ∧ Vec3.Lt d c) from fun h => Vec3.ltAsymm hcd h.2),
              if_pos (show P ∧ Vec3.Lt c d from ⟨hP, hcd⟩)]
          · rw [hcd,
              if_neg (show ¬(Q ∧ Vec3.Lt d d) from fun h => Vec3.ltIrrefl d h.2),
              if_neg (show ¬(P ∧ Vec3.Lt d d) from fun h => Vec3.ltIrrefl d h.2)]
          · rw [if_pos (show Q ∧ Vec3.Lt d c from ⟨hQ, hcd⟩),
              if_neg (show ¬(P ∧ Vec3.Lt c d) from fun h => Vec3.ltAsymm hcd h.2)]
        · rw [if_neg (show ¬(Q ∧ Vec3.Lt d c) from
              fun h => hdx (Vec3.ltTrans h.2 hcx)),
            if_neg (show ¬(Q ∧ Vec3.Lt d x) from fun h => hdx h.2),
            if_pos (show P ∧ Vec3.Lt c x from ⟨hP, hcx⟩)]
      · rw [if_neg (show ¬(P ∧ Vec3.Lt c x) from fun h => hcx h.2)]
        by_cases hdx : Vec3.Lt d x
        · rw [if_pos (show Q ∧ Vec3.Lt d x from ⟨hQ, hdx⟩),
            if_neg (show ¬(P ∧ Vec3.Lt c d) from
              fun h => hcx (Vec3.ltTrans h.2 hdx))]
        · rw [if_neg (show ¬(Q ∧ Vec3.Lt d x) from fun h => hdx h.2),
            if_neg (show ¬(P ∧ Vec3.Lt c x) from fun h => hcx h.2)]
    · rw [if_neg (show ¬(Q ∧ Vec3.Lt d (if P ∧ Vec3.Lt c x then c else x)) from
          fun h => hQ h.1),
        if_neg (show ¬(Q ∧ Vec3.Lt d x) from fun h => hQ h.1)]
  · rw [if_neg (show ¬(P ∧ Vec3.Lt c x) from fun h => hP h.1),
      if_neg (show ¬(P ∧ Vec3.Lt c (if Q ∧ Vec3.Lt d x then d else x)) from
        fun h => hP h.1)]

/-- The guarded running minimum over two two-candidate blocks is invariant
under exchanging the blocks. -/
theorem min_chain_block_swap (P1 P2 Q1 Q2 : Prop)
    [Decidable P1] [Decidable P2] [Decidable Q1] [Decidable Q2]
    (c1 c2 d1 d2 x0 : Vec3) :
    (if P2 ∧ Vec3.Lt c2 (if P1 ∧ Vec3.Lt c1
        (if Q2 ∧ Vec3.Lt d2 (if Q1 ∧ Vec3.Lt d1 x0 then d1 else x0) then d2
         else if Q1 ∧ Vec3.Lt d1 x0 then d1 else x0) then c1
        else if Q2 ∧ Vec3.Lt d2 (if Q1 ∧ Vec3.Lt d1 x0 then d1 else x0) then d2
         else if Q1 ∧ Vec3.Lt d1 x0 then d1 else x0) then c2
     else if P1 ∧ Vec3.Lt c1
        (if Q2 ∧ Vec3.Lt d2 (if Q1 ∧ Vec3.Lt d1 x0 then d1 else x0) then d2
         else if Q1 ∧ Vec3.Lt d1 x0 then d1 else x0) then c1
        else if Q2 ∧ Vec3.Lt d2 (if Q1 ∧ Vec3.Lt d1 x0 then d1 else x0) then d2
         else if Q1 ∧ Vec3.Lt d1 x0 then d1 else x0) =
    (if Q2 ∧ Vec3.Lt d2 (if Q1 ∧ Vec3.Lt d1
        (if P2 ∧ Vec3.Lt c2 (if P1 ∧ Vec3.Lt c1 x0 then c1 else x0) then c2
         else if P1 ∧ Vec3.Lt c1 x0 then c1 else x0) then d1
        else if P2 ∧ Vec3.Lt c2 (if P1 ∧ Vec3.Lt c1 x0 then c1 else x0) then c2
         else if P1 ∧ Vec3.Lt c1 x0 then c1 else x0) then d2
     else if Q1 ∧ Vec3.Lt d1
        (if P2 ∧ Vec3.Lt c2 (if P1 ∧ Vec3.Lt c1 x0 then c1 else x0) then c2
         else if P1 ∧ Vec3.Lt c1 x0 then c1 else x0) then d1
        else if P2 ∧ Vec3.Lt c2 (if P1 ∧ Vec3.Lt c1 x0 then c1 else x0) then c2
         else if P1 ∧ Vec3.Lt c1 x0 then c1 else x0) := by
  rw [min_step_comm Q2 P1 d2 c1 (if Q1 ∧ Vec3.Lt d1 x0 then d1 else x0)]
  rw [min_step_comm Q1 P1 d1 c1 x0]
  rw [min_step_comm Q2 P2 d2 c2
    (if Q1 ∧ Vec3.Lt d1 (if P1 ∧ Vec3.Lt c1 x0 then c1 else x0) then d1
     else if P1 ∧ Vec3.Lt c1 x0 then c1 else x0)]
  rw [min_step_comm Q1 P2 d1 c2 (if P1 ∧ Vec3.Lt c1 x0 then c1 else x0)]

end S2

theorem Vec3.add_zero' (v : Vec3) : v + 0 = v := by
  rw [Vec3.ext_iff]
  simp only [Vec3.add_def, Vec3.zero_def]
  exact ⟨by ring, by ring, by ring⟩

namespace S2

set_option maxHeartbeats 1600000 in
/-- In an exactly collinear configuration, reversing the circle edge and
negating its computed normal leaves the `OrderedCCW` containment test of a
third point unchanged: the two decisive orientation tests exchange equal
determinants, and when one of them degenerates (the tested point antipodal
to an endpoint) the companion test strictly rejects on both sides. -/
theorem occw_rev_collinear {a0 a1 b : Vec3}
    (ha0 : a0.Norm2 = 1) (ha1 : a1.Norm2 = 1) (hb : b.Norm2 = 1)
    (hw : a0.CrossProd a1 ≠ 0) (hba0 : b ≠ a0) (hba1 : b ≠ a1)
    (hbw : b.DotProd (a0.CrossProd a1) = 0) :
    s2pred.OrderedCCW a1 b a0 (-(ToS2Point (a0.CrossProd a1))) =
      s2pred.OrderedCCW a0 b a1 (ToS2Point (a0.CrossProd a1)) := by
  have ha0' : a0.DotProd a0 = 1 := ha0
  have ha1' : a1.DotProd a1 = 1 := ha1
  have hN2 : 0 < (a0.CrossProd a1).Norm2 := Vec3.norm2_pos_of_ne_zero hw
  have hlam_pos : 0 < 1 / fsqrt (a0.CrossProd a1).Norm2 := one_div_pos.2 (fsqrt_pos hN2)
  have hcc : a0.DotProd a1 * (a0.DotProd a1) < 1 := by
    have hl := s2pred.lagrange a0 a1
    rw [ha0, ha1] at hl
    nlinarith [hN2]
  rw [toS2Point_smul_form]
  set lam : ℚ := 1 / fsqrt (a0.CrossProd a1).Norm2 with hlam
  set w : Vec3 := a0.CrossProd a1 with hwdef
  have hw' : a0.CrossProd a1 ≠ 0 := by rw [← hwdef]; exact hw
  have hbw' : b.DotProd (a0.CrossProd a1) = 0 := by rw [← hwdef]; exact hbw
  have hdw : ∀ x y : Vec3, (x.CrossProd (lam • w)).DotProd y
      = lam * (x.DotProd a1 * (a0.DotProd y) - x.DotProd a0 * (a1.DotProd y)) := by
    intro x y
    rw [Vec3.det_smul_mid x w y lam, hwdef, Vec3.cross_cross_dot x a0 a1 y]
  have hdwn : ∀ x y : Vec3, (x.CrossProd (-(lam • w))).DotProd y
      = -(lam * (x.DotProd a1 * (a0.DotProd y) - x.DotProd a0 * (a1.DotProd y))) := by
    intro x y
    rw [Vec3.cross_neg_right, s2pred.dot_neg_left, hdw x y]
  have hd_s3R : (a0.CrossProd (lam • w)).DotProd a1
      = lam * (a0.DotProd a1 * (a0.DotProd a1) - 1) := by
    rw [hdw a0 a1, ha0', ha1']
    ring
  have hd_s3L : (a1.CrossProd (-(lam • w))).DotProd a0
      = lam * (a0.DotProd a1 * (a0.DotProd a1) - 1) := by
    rw [hdwn a1 a0, ha0', ha1', Vec3.dot_comm a1 a0]
    ring
  have hs3R : s2pred.Sign a0 (lam • w) a1 = -1 := by
    have hneg : (a0.CrossProd (lam • w)).DotProd a1 < 0 := by
      rw [hd_s3R]
      nlinarith [hlam_pos, hcc]
    rw [s2pred.sign_eq_sgnQ (ne_of_lt hneg)]
    exact s2pred.sgnQ_of_neg hneg
  have hs3L : s2pred.Sign a1 (-(lam • w)) a0 = -1 := by
    have hneg : (a1.CrossProd (-(lam • w))).DotProd a0 < 0 := by
      rw [hd_s3L]
      nlinarith [hlam_pos, hcc]
    rw [s2pred.sign_eq_sgnQ (ne_of_lt hneg)]
    exact s2pred.sgnQ_of_neg hneg
  have hd_s1R : (b.CrossProd (lam • w)).DotProd a0
      = lam * (b.DotProd a1 - a0.DotProd a1 * (b.DotProd a0)) := by
    rw [hdw b a0, ha0', Vec3.dot_comm a1 a0]
    ring
  have hd_s2R : (a1.CrossProd (lam • w)).DotProd b
      = lam * (b.DotProd a0 - a0.DotProd a1 * (b.DotProd a1)) := by
    rw [hdw a1 b, ha1', Vec3.dot_comm a1 a0, Vec3.dot_comm a0 b, Vec3.dot_comm a1 b]
    ring
  have hd_s1L : (b.CrossProd (-(lam • w))).DotProd a1
      = lam * (b.DotProd a0 - a0.DotProd a1 * (b.DotProd a1)) := by
    rw [hdwn b a1, ha1']
    ring
  have hd_s2L : (a0.CrossProd (-(lam • w))).DotProd b
      = lam * (b.DotProd a1 - a0.DotProd a1 * (b.DotProd a0)) := by
    rw [hdwn a0 b, ha0', Vec3.dot_comm a0 b, Vec3.dot_comm a1 b]
    ring
  unfold s2pred.OrderedCCW
  dsimp only
  rw [hs3R, hs3L,
    if_neg (show ¬((-1 : ℤ) > 0) from by norm_num)]
  by_cases hD1 : b.DotProd a1 - a0.DotProd a1 * (b.DotProd a0) = 0
  · obtain ⟨xx, yy, hdecomp⟩ := Vec3.coplanar_decomp hw' hbw'
    have hpv : b.DotProd a0 = xx + yy * (a0.DotProd a1) := by
      rw [hdecomp, Vec3.add_dot, S2.smul_dot, S2.smul_dot, ha0', Vec3.dot_comm a1 a0]
      ring
    have hqv : b.DotProd a1 = xx * (a0.DotProd a1) + yy := by
      rw [hdecomp, Vec3.add_dot, S2.smul_dot, S2.smul_dot, ha1']
      ring
    have hyy : yy = 0 := by
      rw [hqv, hpv] at hD1
      have h0 : yy * (1 - a0.DotProd a1 * (a0.DotProd a1)) = 0 := by
        linear_combination hD1
      rcases mul_eq_zero.1 h0 with h | h
      · exact h
      · exfalso
        nlinarith [hcc]
    have hbxa : b = xx • a0 := by
      rw [hdecomp, hyy, Vec3.zero_smul', Vec3.add_zero']
    have hxx : xx * xx = 1 := by
      have h2 : b.Norm2 = xx * xx * a0.Norm2 := by rw [hbxa, Vec3.norm2_smul]
      rw [hb, ha0, mul_one] at h2
      linarith
    have hbneg : b = -a0 := by
      rcases mul_self_eq_one_iff.1 hxx with h | h
      · exfalso
        apply hba0
        rw [hbxa, h, Vec3.one_smul']
      · rw [hbxa, h, Vec3.neg_one_smul']
    have hpm : b.DotProd a0 = -1 := by
      rw [hbneg, s2pred.dot_neg_left, ha0']
    have hqm : b.DotProd a1 = -(a0.DotProd a1) := by
      rw [hbneg, s2pred.dot_neg_left]
    have hs2R : s2pred.Sign a1 (lam • w) b = -1 := by
      have hneg : (a1.CrossProd (lam • w)).DotProd b < 0 := by
        rw [hd_s2R, hpm, hqm]
        nlinarith [hlam_pos, hcc]
      rw [s2pred.sign_eq_sgnQ (ne_of_lt hneg)]
      exact s2pred.sgnQ_of_neg hneg
    have hs1L : s2pred.Sign b (-(lam • w)) a1 = -1 := by
      have hneg : (b.CrossProd (-(lam • w))).DotProd a1 < 0 := by
        rw [hd_s1L, hpm, hqm]
        nlinarith [hlam_pos, hcc]
      rw [s2pred.sign_eq_sgnQ (ne_of_lt hneg)]
      exact s2pred.sgnQ_of_neg hneg
    rw [hs2R, hs1L, if_neg (show ¬((-1 : ℤ) ≥ 0) from by norm_num)]
    by_cases hSL : s2pred.Sign a0 (-(lam • w)) b ≥ 0
    · by_cases hSR : s2pred.Sign b (lam • w) a0 ≥ 0
      · rw [if_pos hSL, if_pos hSR]
        try rfl
      · rw [if_pos hSL, if_neg hSR]
        try rfl
    · by_cases hSR : s2pred.Sign b (lam • w) a0 ≥ 0
      · rw [if_neg hSL, if_pos hSR]
        try rfl
      · rw [if_neg hSL, if_neg hSR]
        try rfl
  · by_cases hD2 : b.DotProd a0 - a0.DotProd a1 * (b.DotProd a1) = 0
    · obtain ⟨xx, yy, hdecomp⟩ := Vec3.coplanar_decomp hw' hbw'
      have hpv : b.DotProd a0 = xx + yy * (a0.DotProd a1) := by
        rw [hdecomp, Vec3.add_dot, S2.smul_dot, S2.smul_dot, ha0', Vec3.dot_comm a1 a0]
        ring
      have hqv : b.DotProd a1 = xx * (a0.DotProd a1) + yy := by
        rw [hdecomp, Vec3.add_dot, S2.smul_dot, S2.smul_dot, ha1']
        ring
      have hxx0 : xx = 0 := by
        rw [hqv, hpv] at hD2
        have h0 : xx * (1 - a0.DotProd a1 * (a0.DotProd a1)) = 0 := by
          linear_combination hD2
        rcases mul_eq_zero.1 h0 with h | h
        · exact h
        · exfalso
          nlinarith [hcc]
      have hbxa : b = yy • a1 := by
        rw [hdecomp, hxx0, Vec3.zero_smul']
        rw [Vec3.ext_iff]
        simp only [Vec3.add_def, Vec3.zero_def]
        exact ⟨by ring, by ring, by ring⟩
      have hyy1 : yy * yy = 1 := by
        have h2 : b.Norm2 = yy * yy * a1.Norm2 := by rw [hbxa, Vec3.norm2_smul]
        rw [hb, ha1, mul_one] at h2
        linarith
      have hbneg : b = -a1 := by
        rcases mul_self_eq_one_iff.1 hyy1 with h | h
        · exfalso
          apply hba1
          rw [hbxa, h, Vec3.one_smul']
        · rw [hbxa, h, Vec3.neg_one_smul']
      have hqm : b.DotProd a1 = -1 := by
        rw [hbneg, s2pred.dot_neg_left, ha1']
      have hpm : b.DotProd a0 = -(a0.DotProd a1) := by
        rw [hbneg, s2pred.dot_neg_left, Vec3.dot_comm a1 a0]
      have hs1R : s2pred.Sign b (lam • w) a0 = -1 := by
        have hneg : (b.CrossProd (lam • w)).DotProd a0 < 0 := by
          rw [hd_s1R, hpm, hqm]
          nlinarith [hlam_pos, hcc]
        rw [s2pred.sign_eq_sgnQ (ne_of_lt hneg)]
        exact s2pred.sgnQ_of_neg hneg
      have hs2L : s2pred.Sign a0 (-(lam • w)) b = -1 := by
        have hneg : (a0.CrossProd (-(lam • w))).DotProd b < 0 := by
          rw [hd_s2L, hpm, hqm]
          nlinarith [hlam_pos, hcc]
        rw [s2pred.sign_eq_sgnQ (ne_of_lt hneg)]
        exact s2pred.sgnQ_of_neg hneg
      rw [hs1R, hs2L, if_neg (show ¬((-1 : ℤ) ≥ 0) from by norm_num)]
      by_cases hSL : s2pred.Sign b (-(lam • w)) a1 ≥ 0
      · by_cases hSR : s2pred.Sign a1 (lam • w) b ≥ 0
        · rw [if_pos hSL, if_pos hSR]
          try rfl
        · rw [if_pos hSL, if_neg hSR]
          try rfl
      · by_cases hSR : s2pred.Sign a1 (lam • w) b ≥ 0
        · rw [if_neg hSL, if_pos hSR]
          try rfl
        · rw [if_neg hSL, if_neg hSR]
          try rfl
    · have hlnz : (1 : ℚ) / fsqrt (a0.CrossProd a1).Norm2 ≠ 0 := ne_of_gt hlam_pos
      have hlnz' : lam ≠ 0 := by
        rw [hlam]
        rw [← hwdef] at hlnz
        exact hlnz
      have hs1R : s2pred.Sign b (lam • w) a0
          = sgnQ (lam * (b.DotProd a1 - a0.DotProd a1 * (b.DotProd a0))) := by
        rw [s2pred.sign_eq_sgnQ (by rw [hd_s1R]; exact mul_ne_zero hlnz' hD1), hd_s1R]
      have hs2R : s2pred.Sign a1 (lam • w) b
          = sgnQ (lam * (b.DotProd a0 - a0.DotProd a1 * (b.DotProd a1))) := by
        rw [s2pred.sign_eq_sgnQ (by rw [hd_s2R]; exact mul_ne_zero hlnz' hD2), hd_s2R]
      have hs1L : s2pred.Sign b (-(lam • w)) a1
          = sgnQ (lam * (b.DotProd a0 - a0.DotProd a1 * (b.DotProd a1))) := by
        rw [s2pred.sign_eq_sgnQ (by rw [hd_s1L]; exact mul_ne_zero hlnz' hD2), hd_s1L]
      have hs2L : s2pred.Sign a0 (-(lam • w)) b
          = sgnQ (lam * (b.DotProd a1 - a0.DotProd a1 * (b.DotProd a0))) := by
        rw [s2pred.sign_eq_sgnQ (by rw [hd_s2L]; exact mul_ne_zero hlnz' hD1), hd_s2L]
      rw [hs1R, hs2R, hs1L, hs2L,
        add_comm
          (if sgnQ (lam * (b.DotProd a0 - a0.DotProd a1 * (b.DotProd a1))) ≥ 0
            then (1 : ℕ) else 0)
          (if sgnQ (lam * (b.DotProd a1 - a0.DotProd a1 * (b.DotProd a0))) ≥ 0
            then (1 : ℕ) else 0)]

end S2

namespace S2

/-- Swapping the two edges in the exactly-collinear branch of
`GetIntersectionExact` permutes the four candidate tests without changing
any of them, so the guarded minimum is unchanged. -/
theorem exact_collinear_swap {a0 a1 b0 b1 : Vec3}
    (hx : (a0.CrossProd a1).CrossProd (b0.CrossProd b1) = 0) :
    GetIntersectionExact b0 b1 a0 a1 = GetIntersectionExact a0 a1 b0 b1 := by
  have hx' : (b0.CrossProd b1).CrossProd (a0.CrossProd a1) = 0 := by
    rw [Vec3.cross_anticomm (a0.CrossProd a1) (b0.CrossProd b1), hx, Vec3.neg_zero']
  unfold GetIntersectionExact
  dsimp only
  rw [if_neg (show ¬((b0.CrossProd b1).CrossProd (a0.CrossProd a1) ≠ 0) from
      not_not_intro hx'),
    if_neg (show ¬((a0.CrossProd a1).CrossProd (b0.CrossProd b1) ≠ 0) from
      not_not_intro hx)]
  exact min_chain_block_swap _ _ _ _ a0 a1 b0 b1 ⟨10, 10, 10⟩

/-- Reversing the first edge in the exactly-collinear branch: the symbolic
normal of that edge is negated, each containment test against it is
unchanged by `occw_rev_collinear`, and the two candidates of the reversed
edge are tested in the opposite order, which cannot change the minimum. -/
theorem exact_collinear_rev_a {a0 a1 b0 b1 : Vec3}
    (hx : (a0.CrossProd a1).CrossProd (b0.CrossProd b1) = 0)
    (hna : a0.CrossProd a1 ≠ 0)
    (hO0 : s2pred.OrderedCCW a1 b0 a0 (-(ToS2Point (a0.CrossProd a1))) =
      s2pred.OrderedCCW a0 b0 a1 (ToS2Point (a0.CrossProd a1)))
    (hO1 : s2pred.OrderedCCW a1 b1 a0 (-(ToS2Point (a0.CrossProd a1))) =
      s2pred.OrderedCCW a0 b1 a1 (ToS2Point (a0.CrossProd a1))) :
    GetIntersectionExact a1 a0 b0 b1 = GetIntersectionExact a0 a1 b0 b1 := by
  have hx' : (a1.CrossProd a0).CrossProd (b0.CrossProd b1) = 0 := by
    rw [Vec3.cross_anticomm a0 a1, Vec3.cross_neg_left, hx, Vec3.neg_zero']
  unfold GetIntersectionExact
  dsimp only
  rw [if_neg (show ¬((a1.CrossProd a0).CrossProd (b0.CrossProd b1) ≠ 0) from
      not_not_intro hx'),
    if_neg (show ¬((a0.CrossProd a1).CrossProd (b0.CrossProd b1) ≠ 0) from
      not_not_intro hx)]
  rw [Vec3.cross_anticomm a0 a1, toS2Point_neg (a0.CrossProd a1)]
  rw [if_neg (show ¬(-(ToS2Point (a0.CrossProd a1)) = 0) from
      fun h => toS2Point_ne_zero hna (Vec3.neg_eq_zero.1 h)),
    if_neg (show ¬(ToS2Point (a0.CrossProd a1) = 0) from toS2Point_ne_zero hna)]
  rw [hO0, hO1]
  rw [min_step_comm _ _ a1 a0 ⟨10, 10, 10⟩]

/-- Reversing the second edge in the exactly-collinear branch, symmetric to
`exact_collinear_rev_a`. -/
theorem exact_collinear_rev_b {a0 a1 b0 b1 : Vec3}
    (hx : (a0.CrossProd a1).CrossProd (b0.CrossProd b1) = 0)
    (hnb : b0.CrossProd b1 ≠ 0)
    (hO0 : s2pred.OrderedCCW b1 a0 b0 (-(ToS2Point (b0.CrossProd b1))) =
      s2pred.OrderedCCW b0 a0 b1 (ToS2Point (b0.CrossProd b1)))
    (hO1 : s2pred.OrderedCCW b1 a1 b0 (-(ToS2Point (b0.CrossProd b1))) =
      s2pred.OrderedCCW b0 a1 b1 (ToS2Point (b0.CrossProd b1))) :
    GetIntersectionExact a0 a1 b1 b0 = GetIntersectionExact a0 a1 b0 b1 := by
  have hx' : (a0.CrossProd a1).CrossProd (b1.CrossProd b0) = 0 := by
    rw [Vec3.cross_anticomm b0 b1, Vec3.cross_neg_right, hx, Vec3.neg_zero']
  unfold GetIntersectionExact
  dsimp only
  rw [if_neg (show ¬((a0.CrossProd a1).CrossProd (b1.CrossProd b0) ≠ 0) from
      not_not_intro hx'),
    if_neg (show ¬((a0.CrossProd a1).CrossProd (b0.CrossProd b1) ≠ 0) from
      not_not_intro hx)]
  rw [Vec3.cross_anticomm b0 b1, toS2Point_neg (b0.CrossProd b1)]
  rw [if_neg (show ¬(-(ToS2Point (b0.CrossProd b1)) = 0) from
      fun h => toS2Point_ne_zero hnb (Vec3.neg_eq_zero.1 h)),
    if_neg (show ¬(ToS2Point (b0.CrossProd b1) = 0) from toS2Point_ne_zero hnb)]
  rw [hO0, hO1]
  rw [min_step_comm _ _ b1 b0
    (if s2pred.OrderedCCW b0 a1 b1 (ToS2Point (b0.CrossProd b1)) ∧
        Vec3.Lt a1 (if s2pred.OrderedCCW b0 a0 b1 (ToS2Point (b0.CrossProd b1)) ∧
          Vec3.Lt a0 (⟨10, 10, 10⟩ : Vec3) then a0 else (⟨10, 10, 10⟩ : Vec3)) then a1
     else if s2pred.OrderedCCW b0 a0 b1 (ToS2Point (b0.CrossProd b1)) ∧
          Vec3.Lt a0 (⟨10, 10, 10⟩ : Vec3) then a0 else (⟨10, 10, 10⟩ : Vec3))]

end S2

/-- C7 (amended): for two crossing edges (`CrossingSign` positive) of
unit-length endpoints, neither of which joins a pair of antipodal points,
`GetIntersection` returns the identical point regardless of input ordering:
swapping the two edges or reversing the direction of either edge yields the
same result.  In the transversal case the stable method is order-invariant
and the exact fallback's orientation factor flips together with the
computed normal; in the exactly-collinear case the stable method fails in
every ordering and the exact tie-break's containment tests and guarded
minimum are order-invariant.  Without the no-antipodal-edge restriction the
property fails (`c7_counterexample`). -/
theorem c7_get_intersection_symmetries (a0 a1 b0 b1 : Vec3)
    (ha0 : a0.Norm2 = 1) (ha1 : a1.Norm2 = 1) (hb0 : b0.Norm2 = 1) (hb1 : b1.Norm2 = 1)
    (hea : a1 ≠ -a0) (heb : b1 ≠ -b0)
    (hcsp : S2.CrossingSignPos a0 a1 b0 b1) :
    S2.GetIntersection b0 b1 a0 a1 = S2.GetIntersection a0 a1 b0 b1 ∧
    S2.GetIntersection a1 a0 b0 b1 = S2.GetIntersection a0 a1 b0 b1 ∧
    S2.GetIntersection a0 a1 b1 b0 = S2.GetIntersection a0 a1 b0 b1 := by
  obtain ⟨⟨hsgn0, hsgn1, hsgn2, hne1⟩, hda, hdb, hba0, hba1, hb1a0, hb1a1⟩ :=
    crossingSignPos_facts hcsp
  by_cases hx : (a0.CrossProd a1).CrossProd (b0.CrossProd b1) = 0
  · have hna : a0.CrossProd a1 ≠ 0 :=
      Vec3.unit_cross_ne_zero ha0 ha1 hda (fun h => hea (by rw [h, Vec3.neg_neg']))
    have hnb : b0.CrossProd b1 ≠ 0 :=
      Vec3.unit_cross_ne_zero hb0 hb1 hdb (fun h => heb (by rw [h, Vec3.neg_neg']))
    obtain ⟨t, ht⟩ := Vec3.eq_smul_of_cross_eq_zero hx hnb
    have htnz : t ≠ 0 := fun h0 => hna (by rw [ht, h0, Vec3.zero_smul'])
    have hb0w : b0.DotProd (a0.CrossProd a1) = 0 := by
      rw [ht, Vec3.dot_smul_right, Vec3.dot_comm b0 (b0.CrossProd b1),
        Vec3.cross_dot_self_left, mul_zero]
    have hb1w : b1.DotProd (a0.CrossProd a1) = 0 := by
      rw [ht, Vec3.dot_smul_right, Vec3.dot_comm b1 (b0.CrossProd b1),
        Vec3.cross_dot_self_right, mul_zero]
    have ha0w : a0.DotProd (b0.CrossProd b1) = 0 := by
      have h1 : a0.DotProd (a0.CrossProd a1) = 0 := by
        rw [Vec3.dot_comm a0 (a0.CrossProd a1), Vec3.cross_dot_self_left]
      rw [ht, Vec3.dot_smul_right] at h1
      rcases mul_eq_zero.1 h1 with h | h
      · exact absurd h htnz
      · exact h
    have ha1w : a1.DotProd (b0.CrossProd b1) = 0 := by
      have h1 : a1.DotProd (a0.CrossProd a1) = 0 := by
        rw [Vec3.dot_comm a1 (a0.CrossProd a1), Vec3.cross_dot_self_right]
      rw [ht, Vec3.dot_smul_right] at h1
      rcases mul_eq_zero.1 h1 with h | h
      · exact absurd h htnz
      · exact h
    have hstab : S2.GetIntersectionStable a0 a1 b0 b1 = none :=
      S2.stable_coplanar_none hb0w hb1w ha0w ha1w
    have hstab_swap : S2.GetIntersectionStable b0 b1 a0 a1 = none :=
      S2.stable_coplanar_none ha0w ha1w hb0w hb1w
    have hstab_ra : S2.GetIntersectionStable a1 a0 b0 b1 = none := by
      rw [S2.stable_rev_a]
      exact hstab
    have hstab_rb : S2.GetIntersectionStable a0 a1 b1 b0 = none := by
      rw [S2.stable_rev_b]
      exact hstab
    have hO_a_b0 := S2.occw_rev_collinear ha0 ha1 hb0 hna hba0 hba1 hb0w
    have hO_a_b1 := S2.occw_rev_collinear ha0 ha1 hb1 hna hb1a0 hb1a1 hb1w
    have hO_b_a0 := S2.occw_rev_collinear hb0 hb1 ha0 hnb hba0.symm hb1a0.symm ha0w
    have hO_b_a1 := S2.occw_rev_collinear hb0 hb1 ha1 hnb hba1.symm hb1a1.symm ha1w
    refine ⟨?_, ?_, ?_⟩
    · unfold S2.GetIntersection
      rw [hstab_swap, hstab]
      exact S2.exact_collinear_swap hx
    · unfold S2.GetIntersection
      rw [hstab_ra, hstab]
      exact S2.exact_collinear_rev_a hx hna hO_a_b0 hO_a_b1
    · unfold S2.GetIntersection
      rw [hstab_rb, hstab]
      exact S2.exact_collinear_rev_b hx hnb hO_b_a0 hO_b_a1
  · refine ⟨?_, ?_, ?_⟩
    · unfold S2.GetIntersection
      rw [S2.stable_swap hx]
      cases S2.GetIntersectionStable a0 a1 b0 b1 with
      | none => exact S2.exact_swap hx hsgn1
      | some r => rfl
    · unfold S2.GetIntersection
      rw [S2.stable_rev_a a0 a1 b0 b1]
      cases S2.GetIntersectionStable a0 a1 b0 b1 with
      | none => exact S2.exact_rev_a hx
      | some r => rfl
    · unfold S2.GetIntersection
      rw [S2.stable_rev_b a0 a1 b0 b1]
      cases S2.GetIntersectionStable a0 a1 b0 b1 with
      | none => exact S2.exact_rev_b hx hsgn0
      | some r => rfl

/-! Concrete evaluations for the C7 counterexample: the collinear crossing
with an antipodal first edge, a0 = (1,0,0), a1 = (-1,0,0),
b0 = (3/5,4/5,0), b1 = (3/5,-4/5,0). -/

theorem cx_acb : s2pred.Sign ⟨1, 0, 0⟩ ⟨3/5, 4/5, 0⟩ ⟨-1, 0, 0⟩ = 1 := by
  rw [s2pred.sign_eq_exact_of_det_zero
      (by norm_num [Vec3.CrossProd, Vec3.DotProd])
      (by norm_num [Vec3.ext_iff]) (by norm_num [Vec3.ext_iff])
      (by norm_num [Vec3.ext_iff])]
  norm_num [s2pred.ExactSign, s2pred.sortTriple, s2pred.SymbolicallyPerturbedSign,
    Vec3.Lt, Vec3.CrossProd, Vec3.DotProd, sgnQ]

theorem cx_cbd : s2pred.Sign ⟨3/5, 4/5, 0⟩ ⟨-1, 0, 0⟩ ⟨3/5, -4/5, 0⟩ = 1 := by
  rw [s2pred.sign_eq_exact_of_det_zero
      (by norm_num [Vec3.CrossProd, Vec3.DotProd])
      (by norm_num [Vec3.ext_iff]) (by norm_num [Vec3.ext_iff])
      (by norm_num [Vec3.ext_iff])]
  norm_num [s2pred.ExactSign, s2pred.sortTriple, s2pred.SymbolicallyPerturbedSign,
    Vec3.Lt, Vec3.CrossProd, Vec3.DotProd, sgnQ]

theorem cx_bda : s2pred.Sign ⟨-1, 0, 0⟩ ⟨3/5, -4/5, 0⟩ ⟨1, 0, 0⟩ = 1 := by
  rw [s2pred.sign_eq_exact_of_det_zero
      (by norm_num [Vec3.CrossProd, Vec3.DotProd])
      (by norm_num [Vec3.ext_iff]) (by norm_num [Vec3.ext_iff])
      (by norm_num [Vec3.ext_iff])]
  norm_num [s2pred.ExactSign, s2pred.sortTriple, s2pred.SymbolicallyPerturbedSign,
    Vec3.Lt, Vec3.CrossProd, Vec3.DotProd, sgnQ]

theorem cx_dac : s2pred.Sign ⟨3/5, -4/5, 0⟩ ⟨1, 0, 0⟩ ⟨3/5, 4/5, 0⟩ = 1 := by
  rw [s2pred.sign_eq_exact_of_det_zero
      (by norm_num [Vec3.CrossProd, Vec3.DotProd])
      (by norm_num [Vec3.ext_iff]) (by norm_num [Vec3.ext_iff])
      (by norm_num [Vec3.ext_iff])]
  norm_num [s2pred.ExactSign, s2pred.sortTriple, s2pred.SymbolicallyPerturbedSign,
    Vec3.Lt, Vec3.CrossProd, Vec3.DotProd, sgnQ]

theorem cx_sBnA : s2pred.Sign ⟨3/5, 4/5, 0⟩ ⟨0, -1, 0⟩ ⟨1, 0, 0⟩ = 1 := by
  rw [s2pred.sign_eq_exact_of_det_zero
      (by norm_num [Vec3.CrossProd, Vec3.DotProd])
      (by norm_num [Vec3.ext_iff]) (by norm_num [Vec3.ext_iff])
      (by norm_num [Vec3.ext_iff])]
  norm_num [s2pred.ExactSign, s2pred.sortTriple, s2pred.SymbolicallyPerturbedSign,
    Vec3.Lt, Vec3.CrossProd, Vec3.DotProd, sgnQ]

theorem cx_sApnB : s2pred.Sign ⟨-1, 0, 0⟩ ⟨0, -1, 0⟩ ⟨3/5, 4/5, 0⟩ = 1 := by
  rw [s2pred.sign_eq_exact_of_det_zero
      (by norm_num [Vec3.CrossProd, Vec3.DotProd])
      (by norm_num [Vec3.ext_iff]) (by norm_num [Vec3.ext_iff])
      (by norm_num [Vec3.ext_iff])]
  norm_num [s2pred.ExactSign, s2pred.sortTriple, s2pred.SymbolicallyPerturbedSign,
    Vec3.Lt, Vec3.CrossProd, Vec3.DotProd, sgnQ]

theorem cx_sAnAp : s2pred.Sign ⟨1, 0, 0⟩ ⟨0, -1, 0⟩ ⟨-1, 0, 0⟩ = -1 := by
  rw [s2pred.sign_eq_exact_of_det_zero
      (by norm_num [Vec3.CrossProd, Vec3.DotProd])
      (by norm_num [Vec3.ext_iff]) (by norm_num [Vec3.ext_iff])
      (by norm_num [Vec3.ext_iff])]
  norm_num [s2pred.ExactSign, s2pred.sortTriple, s2pred.SymbolicallyPerturbedSign,
    Vec3.Lt, Vec3.CrossProd, Vec3.DotProd, sgnQ]

theorem cx_sBpnA : s2pred.Sign ⟨3/5, -4/5, 0⟩ ⟨0, -1, 0⟩ ⟨1, 0, 0⟩ = -1 := by
  rw [s2pred.sign_eq_exact_of_det_zero
      (by norm_num [Vec3.CrossProd, Vec3.DotProd])
      (by norm_num [Vec3.ext_iff]) (by norm_num [Vec3.ext_iff])
      (by norm_num [Vec3.ext_iff])]
  norm_num [s2pred.ExactSign, s2pred.sortTriple, s2pred.SymbolicallyPerturbedSign,
    Vec3.Lt, Vec3.CrossProd, Vec3.DotProd, sgnQ]

theorem cx_sApnBp : s2pred.Sign ⟨-1, 0, 0⟩ ⟨0, -1, 0⟩ ⟨3/5, -4/5, 0⟩ = 1 := by
  rw [s2pred.sign_eq_exact_of_det_zero
      (by norm_num [Vec3.CrossProd, Vec3.DotProd])
      (by norm_num [Vec3.ext_iff]) (by norm_num [Vec3.ext_iff])
      (by norm_num [Vec3.ext_iff])]
  norm_num [s2pred.ExactSign, s2pred.sortTriple, s2pred.SymbolicallyPerturbedSign,
    Vec3.Lt, Vec3.CrossProd, Vec3.DotProd, sgnQ]

theorem cx_sBmAp : s2pred.Sign ⟨3/5, 4/5, 0⟩ ⟨0, 1, 0⟩ ⟨-1, 0, 0⟩ = 1 := by
  rw [s2pred.sign_eq_exact_of_det_zero
      (by norm_num [Vec3.CrossProd, Vec3.DotProd])
      (by norm_num [Vec3.ext_iff]) (by norm_num [Vec3.ext_iff])
      (by norm_num [Vec3.ext_iff])]
  norm_num [s2pred.ExactSign, s2pred.sortTriple, s2pred.SymbolicallyPerturbedSign,
    Vec3.Lt, Vec3.CrossProd, Vec3.DotProd, sgnQ]

theorem cx_sAmB : s2pred.Sign ⟨1, 0, 0⟩ ⟨0, 1, 0⟩ ⟨3/5, 4/5, 0⟩ = -1 := by
  rw [s2pred.sign_eq_exact_of_det_zero
      (by norm_num [Vec3.CrossProd, Vec3.DotProd])
      (by norm_num [Vec3.ext_iff]) (by norm_num [Vec3.ext_iff])
      (by norm_num [Vec3.ext_iff])]
  norm_num [s2pred.ExactSign, s2pred.sortTriple, s2pred.SymbolicallyPerturbedSign,
    Vec3.Lt, Vec3.CrossProd, Vec3.DotProd, sgnQ]

theorem cx_sApmA : s2pred.Sign ⟨-1, 0, 0⟩ ⟨0, 1, 0⟩ ⟨1, 0, 0⟩ = -1 := by
  rw [s2pred.sign_eq_exact_of_det_zero
      (by norm_num [Vec3.CrossProd, Vec3.DotProd])
      (by norm_num [Vec3.ext_iff]) (by norm_num [Vec3.ext_iff])
      (by norm_num [Vec3.ext_iff])]
  norm_num [s2pred.ExactSign, s2pred.sortTriple, s2pred.SymbolicallyPerturbedSign,
    Vec3.Lt, Vec3.CrossProd, Vec3.DotProd, sgnQ]

theorem cx_sBpmAp : s2pred.Sign ⟨3/5, -4/5, 0⟩ ⟨0, 1, 0⟩ ⟨-1, 0, 0⟩ = 1 := by
  rw [s2pred.sign_eq_exact_of_det_zero
      (by norm_num [Vec3.CrossProd, Vec3.DotProd])
      (by norm_num [Vec3.ext_iff]) (by norm_num [Vec3.ext_iff])
      (by norm_num [Vec3.ext_iff])]
  norm_num [s2pred.ExactSign, s2pred.sortTriple, s2pred.SymbolicallyPerturbedSign,
    Vec3.Lt, Vec3.CrossProd, Vec3.DotProd, sgnQ]

theorem cx_sAmBp : s2pred.Sign ⟨1, 0, 0⟩ ⟨0, 1, 0⟩ ⟨3/5, -4/5, 0⟩ = 1 := by
  rw [s2pred.sign_eq_exact_of_det_zero
      (by norm_num [Vec3.CrossProd, Vec3.DotProd])
      (by norm_num [Vec3.ext_iff]) (by norm_num [Vec3.ext_iff])
      (by norm_num [Vec3.ext_iff])]
  norm_num [s2pred.ExactSign, s2pred.sortTriple, s2pred.SymbolicallyPerturbedSign,
    Vec3.Lt, Vec3.CrossProd, Vec3.DotProd, sgnQ]

theorem cx_tAmB : s2pred.Sign ⟨1, 0, 0⟩ ⟨0, 0, -1⟩ ⟨3/5, 4/5, 0⟩ = 1 := by
  rw [s2pred.sign_eq_sgnQ (by norm_num [Vec3.CrossProd, Vec3.DotProd])]
  norm_num [Vec3.CrossProd, Vec3.DotProd, sgnQ]

theorem cx_tBpmA : s2pred.Sign ⟨3/5, -4/5, 0⟩ ⟨0, 0, -1⟩ ⟨1, 0, 0⟩ = 1 := by
  rw [s2pred.sign_eq_sgnQ (by norm_num [Vec3.CrossProd, Vec3.DotProd])]
  norm_num [Vec3.CrossProd, Vec3.DotProd, sgnQ]

theorem cx_tBmBp : s2pred.Sign ⟨3/5, 4/5, 0⟩ ⟨0, 0, -1⟩ ⟨3/5, -4/5, 0⟩ = -1 := by
  rw [s2pred.sign_eq_sgnQ (by norm_num [Vec3.CrossProd, Vec3.DotProd])]
  norm_num [Vec3.CrossProd, Vec3.DotProd, sgnQ]

theorem cx_tApmB : s2pred.Sign ⟨-1, 0, 0⟩ ⟨0, 0, -1⟩ ⟨3/5, 4/5, 0⟩ = -1 := by
  rw [s2pred.sign_eq_sgnQ (by norm_num [Vec3.CrossProd, Vec3.DotProd])]
  norm_num [Vec3.CrossProd, Vec3.DotProd, sgnQ]

theorem cx_tBpmApm : s2pred.Sign ⟨3/5, -4/5, 0⟩ ⟨0, 0, -1⟩ ⟨-1, 0, 0⟩ = -1 := by
  rw [s2pred.sign_eq_sgnQ (by norm_num [Vec3.CrossProd, Vec3.DotProd])]
  norm_num [Vec3.CrossProd, Vec3.DotProd, sgnQ]

theorem cx_o1 : s2pred.OrderedCCW ⟨3/5, 4/5, 0⟩ ⟨1, 0, 0⟩ ⟨3/5, -4/5, 0⟩ ⟨0, 0, -1⟩
    = true := by
  unfold s2pred.OrderedCCW
  dsimp only
  rw [cx_tAmB, cx_tBpmA, cx_tBmBp]
  rfl

theorem cx_o2 : s2pred.OrderedCCW ⟨3/5, 4/5, 0⟩ ⟨-1, 0, 0⟩ ⟨3/5, -4/5, 0⟩ ⟨0, 0, -1⟩
    = false := by
  unfold s2pred.OrderedCCW
  dsimp only
  rw [cx_tApmB, cx_tBpmApm, cx_tBmBp]
  rfl

theorem cx_o3 : s2pred.OrderedCCW ⟨1, 0, 0⟩ ⟨3/5, 4/5, 0⟩ ⟨-1, 0, 0⟩ ⟨0, -1, 0⟩
    = true := by
  unfold s2pred.OrderedCCW
  dsimp only
  rw [cx_sBnA, cx_sApnB, cx_sAnAp]
  rfl

theorem cx_o4 : s2pred.OrderedCCW ⟨1, 0, 0⟩ ⟨3/5, -4/5, 0⟩ ⟨-1, 0, 0⟩ ⟨0, -1, 0⟩
    = false := by
  unfold s2pred.OrderedCCW
  dsimp only
  rw [cx_sBpnA, cx_sApnBp, cx_sAnAp]
  rfl

theorem cx_o5 : s2pred.OrderedCCW ⟨-1, 0, 0⟩ ⟨3/5, 4/5, 0⟩ ⟨1, 0, 0⟩ ⟨0, 1, 0⟩
    = false := by
  unfold s2pred.OrderedCCW
  dsimp only
  rw [cx_sBmAp, cx_sAmB, cx_sApmA]
  rfl

theorem cx_o6 : s2pred.OrderedCCW ⟨-1, 0, 0⟩ ⟨3/5, -4/5, 0⟩ ⟨1, 0, 0⟩ ⟨0, 1, 0⟩
    = true := by
  unfold s2pred.OrderedCCW
  dsimp only
  rw [cx_sBpmAp, cx_sAmBp, cx_sApmA]
  rfl

theorem cx_toS2Point_BBp : S2.ToS2Point ⟨0, 0, -24/25⟩ = ⟨0, 0, -1⟩ := by
  have h1 : (⟨0, 0, -24/25⟩ : Vec3).Norm2 = (24/25) * (24/25) := by
    norm_num [Vec3.Norm2, Vec3.DotProd]
  have hfs : fsqrt ((⟨0, 0, -24/25⟩ : Vec3).Norm2) = 24/25 := by
    rw [h1]
    unfold fsqrt
    rw [Rat.sqrt_eq]
    norm_num
  rw [S2.toS2Point_smul_form, hfs]
  rw [Vec3.ext_iff]
  simp only [Vec3.smul_def]
  norm_num

theorem cx_exact_orig :
    S2.GetIntersectionExact ⟨1, 0, 0⟩ ⟨-1, 0, 0⟩ ⟨3/5, 4/5, 0⟩ ⟨3/5, -4/5, 0⟩
      = ⟨3/5, 4/5, 0⟩ := by
  have hAA : (⟨1, 0, 0⟩ : Vec3).CrossProd ⟨-1, 0, 0⟩ = 0 := by
    rw [Vec3.ext_iff]
    simp only [Vec3.zero_def]
    norm_num [Vec3.CrossProd]
  have hBB : (⟨3/5, 4/5, 0⟩ : Vec3).CrossProd ⟨3/5, -4/5, 0⟩ = ⟨0, 0, -24/25⟩ := by
    rw [Vec3.ext_iff]
    norm_num [Vec3.CrossProd]
  have hx : ((⟨1, 0, 0⟩ : Vec3).CrossProd ⟨-1, 0, 0⟩).CrossProd
      ((⟨3/5, 4/5, 0⟩ : Vec3).CrossProd ⟨3/5, -4/5, 0⟩) = 0 := by
    rw [hAA, Vec3.zero_cross]
  have hSCP : S2.SymbolicCrossProd ⟨1, 0, 0⟩ ⟨-1, 0, 0⟩ = ⟨0, -1, 0⟩ := by
    unfold S2.SymbolicCrossProd S2.SymbolicCrossProdSorted S2.EnsureNormalizable
    rw [if_neg (show ¬ Vec3.Lt ⟨1, 0, 0⟩ ⟨-1, 0, 0⟩ from by norm_num [Vec3.Lt]),
      if_pos (show (⟨1, 0, 0⟩ : Vec3).x ≠ 0 ∨ (⟨1, 0, 0⟩ : Vec3).y ≠ 0 from by norm_num)]
    rw [Vec3.ext_iff]
    norm_num [Vec3.neg_def]
  unfold S2.GetIntersectionExact
  dsimp only
  rw [if_neg (show ¬(((⟨1, 0, 0⟩ : Vec3).CrossProd ⟨-1, 0, 0⟩).CrossProd
      ((⟨3/5, 4/5, 0⟩ : Vec3).CrossProd ⟨3/5, -4/5, 0⟩) ≠ 0) from not_not_intro hx)]
  rw [hAA, hBB, S2.toS2Point_zero, cx_toS2Point_BBp]
  rw [if_pos (rfl : (0 : Vec3) = 0), hSCP,
    if_neg (show ¬((⟨0, 0, -1⟩ : Vec3) = 0) from by
      rw [Vec3.ext_iff]
      simp only [Vec3.zero_def]
      norm_num)]
  rw [cx_o1, cx_o2, cx_o3, cx_o4]
  norm_num [Vec3.Lt]

theorem cx_exact_rev :
    S2.GetIntersectionExact ⟨-1, 0, 0⟩ ⟨1, 0, 0⟩ ⟨3/5, 4/5, 0⟩ ⟨3/5, -4/5, 0⟩
      = ⟨3/5, -4/5, 0⟩ := by
  have hAA : (⟨-1, 0, 0⟩ : Vec3).CrossProd ⟨1, 0, 0⟩ = 0 := by
    rw [Vec3.ext_iff]
    simp only [Vec3.zero_def]
    norm_num [Vec3.CrossProd]
  have hBB : (⟨3/5, 4/5, 0⟩ : Vec3).CrossProd ⟨3/5, -4/5, 0⟩ = ⟨0, 0, -24/25⟩ := by
    rw [Vec3.ext_iff]
    norm_num [Vec3.CrossProd]
  have hx : ((⟨-1, 0, 0⟩ : Vec3).CrossProd ⟨1, 0, 0⟩).CrossProd
      ((⟨3/5, 4/5, 0⟩ : Vec3).CrossProd ⟨3/5, -4/5, 0⟩) = 0 := by
    rw [hAA, Vec3.zero_cross]
  have hSCP : S2.SymbolicCrossProd ⟨-1, 0, 0⟩ ⟨1, 0, 0⟩ = ⟨0, 1, 0⟩ := by
    unfold S2.SymbolicCrossProd S2.SymbolicCrossProdSorted S2.EnsureNormalizable
    rw [if_pos (show Vec3.Lt ⟨-1, 0, 0⟩ ⟨1, 0, 0⟩ from by norm_num [Vec3.Lt]),
      if_pos (show (⟨1, 0, 0⟩ : Vec3).x ≠ 0 ∨ (⟨1, 0, 0⟩ : Vec3).y ≠ 0 from by norm_num)]
    rw [Vec3.ext_iff]
    norm_num
  unfold S2.GetIntersectionExact
  dsimp only
  rw [if_neg (show ¬(((⟨-1, 0, 0⟩ : Vec3).CrossProd ⟨1, 0, 0⟩).CrossProd
      ((⟨3/5, 4/5, 0⟩ : Vec3).CrossProd ⟨3/5, -4/5, 0⟩) ≠ 0) from not_not_intro hx)]
  rw [hAA, hBB, S2.toS2Point_zero, cx_toS2Point_BBp]
  rw [if_pos (rfl : (0 : Vec3) = 0), hSCP,
    if_neg (show ¬((⟨0, 0, -1⟩ : Vec3) = 0) from by
      rw [Vec3.ext_iff]
      simp only [Vec3.zero_def]
      norm_num)]
  rw [cx_o2, cx_o1, cx_o5, cx_o6]
  norm_num [Vec3.Lt]

theorem cx_stable_orig :
    S2.GetIntersectionStable ⟨1, 0, 0⟩ ⟨-1, 0, 0⟩ ⟨3/5, 4/5, 0⟩ ⟨3/5, -4/5, 0⟩
      = none := by
  apply S2.stable_coplanar_none
  · norm_num [Vec3.CrossProd, Vec3.DotProd]
  · norm_num [Vec3.CrossProd, Vec3.DotProd]
  · norm_num [Vec3.CrossProd, Vec3.DotProd]
  · norm_num [Vec3.CrossProd, Vec3.DotProd]

theorem cx_stable_rev :
    S2.GetIntersectionStable ⟨-1, 0, 0⟩ ⟨1, 0, 0⟩ ⟨3/5, 4/5, 0⟩ ⟨3/5, -4/5, 0⟩
      = none := by
  rw [S2.stable_rev_a]
  exact cx_stable_orig

/-- C7 counterexample: for the exactly-collinear crossing of the antipodal
edge a = ((1,0,0), (-1,0,0)) with b = ((3/5,4/5,0), (3/5,-4/5,0)) the
crossing sign is positive (all four symbolically perturbed orientations
agree), all four endpoints are unit length, yet reversing edge a changes
the result of `GetIntersection` from b0 to b1: the symbolic normal used by
the collinear tie-break flips with the edge direction, and for an antipodal
edge the containment tests are not invariant under that flip. -/
theorem c7_counterexample :
    S2.CrossingSignPos ⟨1, 0, 0⟩ ⟨-1, 0, 0⟩ ⟨3/5, 4/5, 0⟩ ⟨3/5, -4/5, 0⟩ ∧
    (⟨1, 0, 0⟩ : Vec3).Norm2 = 1 ∧ (⟨-1, 0, 0⟩ : Vec3).Norm2 = 1 ∧
    (⟨3/5, 4/5, 0⟩ : Vec3).Norm2 = 1 ∧ (⟨3/5, -4/5, 0⟩ : Vec3).Norm2 = 1 ∧
    S2.GetIntersection ⟨-1, 0, 0⟩ ⟨1, 0, 0⟩ ⟨3/5, 4/5, 0⟩ ⟨3/5, -4/5, 0⟩ ≠
      S2.GetIntersection ⟨1, 0, 0⟩ ⟨-1, 0, 0⟩ ⟨3/5, 4/5, 0⟩ ⟨3/5, -4/5, 0⟩ := by
  have hGI : S2.GetIntersection ⟨1, 0, 0⟩ ⟨-1, 0, 0⟩ ⟨3/5, 4/5, 0⟩ ⟨3/5, -4/5, 0⟩
      = ⟨3/5, 4/5, 0⟩ := by
    unfold S2.GetIntersection
    rw [cx_stable_orig]
    exact cx_exact_orig
  have hGI2 : S2.GetIntersection ⟨-1, 0, 0⟩ ⟨1, 0, 0⟩ ⟨3/5, 4/5, 0⟩ ⟨3/5, -4/5, 0⟩
      = ⟨3/5, -4/5, 0⟩ := by
    unfold S2.GetIntersection
    rw [cx_stable_rev]
    exact cx_exact_rev
  refine ⟨⟨?_, ?_, ?_, ?_⟩, ?_, ?_, ?_, ?_, ?_⟩
  · rw [cx_acb]
    norm_num
  · rw [cx_acb, cx_cbd]
  · rw [cx_cbd, cx_bda]
  · rw [cx_bda, cx_dac]
  · norm_num [Vec3.Norm2, Vec3.DotProd]
  · norm_num [Vec3.Norm2, Vec3.DotProd]
  · norm_num [Vec3.Norm2, Vec3.DotProd]
  · norm_num [Vec3.Norm2, Vec3.DotProd]
  · rw [hGI, hGI2]
    intro h
    have h2 := (Vec3.ext_iff.1 h).2.1
    norm_num at h2

/-- Witness for C7 at a concrete transversal crossing of unit-length,
non-antipodal edges. -/
theorem c7_witness :
    S2.CrossingSignPos ⟨1, 0, 0⟩ ⟨0, 1, 0⟩ ⟨0, 0, 1⟩ ⟨2/3, 2/3, -1/3⟩ ∧
    (⟨0, 1, 0⟩ : Vec3) ≠ -(⟨1, 0, 0⟩ : Vec3) ∧
    (⟨2/3, 2/3, -1/3⟩ : Vec3) ≠ -(⟨0, 0, 1⟩ : Vec3) ∧
    (S2.GetIntersection ⟨0, 0, 1⟩ ⟨2/3, 2/3, -1/3⟩ ⟨1, 0, 0⟩ ⟨0, 1, 0⟩ =
       S2.GetIntersection ⟨1, 0, 0⟩ ⟨0, 1, 0⟩ ⟨0, 0, 1⟩ ⟨2/3, 2/3, -1/3⟩ ∧
     S2.GetIntersection ⟨0, 1, 0⟩ ⟨1, 0, 0⟩ ⟨0, 0, 1⟩ ⟨2/3, 2/3, -1/3⟩ =
       S2.GetIntersection ⟨1, 0, 0⟩ ⟨0, 1, 0⟩ ⟨0, 0, 1⟩ ⟨2/3, 2/3, -1/3⟩ ∧
     S2.GetIntersection ⟨1, 0, 0⟩ ⟨0, 1, 0⟩ ⟨2/3, 2/3, -1/3⟩ ⟨0, 0, 1⟩ =
       S2.GetIntersection ⟨1, 0, 0⟩ ⟨0, 1, 0⟩ ⟨0, 0, 1⟩ ⟨2/3, 2/3, -1/3⟩) := by
  have e1 : s2pred.Sign ⟨1, 0, 0⟩ ⟨0, 0, 1⟩ ⟨0, 1, 0⟩ = -1 := by
    rw [s2pred.sign_eq_sgnQ (by norm_num [Vec3.CrossProd, Vec3.DotProd])]
    norm_num [Vec3.CrossProd, Vec3.DotProd, sgnQ]
  have e2 : s2pred.Sign ⟨0, 0, 1⟩ ⟨0, 1, 0⟩ ⟨2/3, 2/3, -1/3⟩ = -1 := by
    rw [s2pred.sign_eq_sgnQ (by norm_num [Vec3.CrossProd, Vec3.DotProd])]
    norm_num [Vec3.CrossProd, Vec3.DotProd, sgnQ]
  have e3 : s2pred.Sign ⟨0, 1, 0⟩ ⟨2/3, 2/3, -1/3⟩ ⟨1, 0, 0⟩ = -1 := by
    rw [s2pred.sign_eq_sgnQ (by norm_num [Vec3.CrossProd, Vec3.DotProd])]
    norm_num [Vec3.CrossProd, Vec3.DotProd, sgnQ]
  have e4 : s2pred.Sign ⟨2/3, 2/3, -1/3⟩ ⟨1, 0, 0⟩ ⟨0, 0, 1⟩ = -1 := by
    rw [s2pred.sign_eq_sgnQ (by norm_num [Vec3.CrossProd, Vec3.DotProd])]
    norm_num [Vec3.CrossProd, Vec3.DotProd, sgnQ]
  have hcsp : S2.CrossingSignPos ⟨1, 0, 0⟩ ⟨0, 1, 0⟩ ⟨0, 0, 1⟩ ⟨2/3, 2/3, -1/3⟩ := by
    refine ⟨?_, ?_, ?_, ?_⟩
    · rw [e1]
      norm_num
    · rw [e1, e2]
    · rw [e2, e3]
    · rw [e3, e4]
  have hea : (⟨0, 1, 0⟩ : Vec3) ≠ -(⟨1, 0, 0⟩ : Vec3) := by
    intro h
    have h2 := (Vec3.ext_iff.1 h).1
    simp only [Vec3.neg_def] at h2
    norm_num at h2
  have heb : (⟨2/3, 2/3, -1/3⟩ : Vec3) ≠ -(⟨0, 0, 1⟩ : Vec3) := by
    intro h
    have h2 := (Vec3.ext_iff.1 h).2.2
    simp only [Vec3.neg_def] at h2
    norm_num at h2
  exact ⟨hcsp, hea, heb,
    c7_get_intersection_symmetries ⟨1, 0, 0⟩ ⟨0, 1, 0⟩ ⟨0, 0, 1⟩ ⟨2/3, 2/3, -1/3⟩
      (by norm_num [Vec3.Norm2, Vec3.DotProd]) (by norm_num [Vec3.Norm2, Vec3.DotProd])
      (by norm_num [Vec3.Norm2, Vec3.DotProd]) (by norm_num [Vec3.Norm2, Vec3.DotProd])
      hea heb hcsp⟩
